import Mathlib

/-!
TSN offload reconfiguration of the igc driver (`igc_tsn.c`).

A shallow embedding of `drivers/net/ethernet/intel/igc/igc_tsn.c` and theorems about it.

* Machine integers are `Nat`/`Int` with explicit wrap-around (`u16`, `u32`, `u64`, `s32`, `s64`).
* The memory-mapped register file is a function from register names to values, together with
  the list of writes issued so far (`wr32` appends to it).
* The header files of the driver (`igc.h`, `igc_defines.h`, `igc_regs.h`) are not part of the
  sources at hand.  Every macro constant and helper they declare is a field of `igc_defines`,
  and theorems state as hypotheses what they need to know about those fields.
* The only operation of the file that can fail to return is the 64-bit division by the cycle
  time in `igc_tsn_enable_offload`; a run that divides by zero ends in `Outcome.fault` with the
  state reached at that point.
-/

namespace Igc

/-! ## Machine integers -/

/-- Conversion to `u16` (truncation to the low 16 bits). -/
def u16 (x : Nat) : Nat := x % 65536

/-- Conversion of an unsigned value to `u32` (truncation to the low 32 bits). -/
def u32 (x : Nat) : Nat := x % 4294967296

/-- Conversion of an unsigned value to `unsigned long long`. -/
def u64 (x : Nat) : Nat := x % 18446744073709551616

/-- Conversion of a signed value to `u32` (two's complement bit pattern of the low 32 bits). -/
def u32_of_int (x : Int) : Nat := (x % 4294967296).toNat

/-- Conversion of a signed value to `unsigned long long` (two's complement, 64 bits). -/
def u64_of_int (x : Int) : Nat := (x % 18446744073709551616).toNat

/-- Wrap a mathematical integer into the range of `s32`. -/
def s32 (x : Int) : Int := (x + 2147483648) % 4294967296 - 2147483648

/-- Wrap a mathematical integer into the range of `s64`. -/
def s64 (x : Int) : Int := (x + 9223372036854775808) % 18446744073709551616 - 9223372036854775808

/-- The C expression `x & ~m` with a 32-bit unsigned `x`: the bits of `x` below bit 32 that are
not in `m`. -/
def and_not32 (x m : Nat) : Nat := x &&& (4294967295 ^^^ u32 m)

/-- The C expression `x | m` stored into a 32-bit unsigned variable. -/
def or32 (x m : Nat) : Nat := u32 (x ||| m)

/-! ## Kernel helpers -/

/-- Modelled from the spec: the kernel constant `NSEC_PER_SEC` is not under `src/`; the spec
gives one full second as 1,000,000,000 ns. -/
def NSEC_PER_SEC : Nat := 1000000000

/-- Modelled from the spec: the kernel constant `KTIME_MAX` (largest `s64`) is not under
`src/`; times are signed 64-bit nanosecond counts. -/
def KTIME_MAX : Int := 9223372036854775807

/-- Modelled from the spec: the kernel constant `KTIME_SEC_MAX` is not under `src/`; it is
`KTIME_MAX / NSEC_PER_SEC`. -/
def KTIME_SEC_MAX : Int := KTIME_MAX / (NSEC_PER_SEC : Int)

/-- Modelled from the spec: the kernel helper `ktime_set` is not under `src/`; the clock sample
`(seconds, nanoseconds)` is the time `seconds * NSEC_PER_SEC + nanoseconds`, saturating at
`KTIME_MAX`. -/
def ktime_set (secs : Int) (nsecs : Nat) : Int :=
  if secs ≥ KTIME_SEC_MAX then KTIME_MAX else s64 (secs * (NSEC_PER_SEC : Int) + (nsecs : Int))

/-- Modelled from the spec: the kernel helper `ktime_compare` is not under `src/`; it is
negative, zero or positive as the first time is before, equal to or after the second. -/
def ktime_compare (cmp1 cmp2 : Int) : Int :=
  if cmp1 < cmp2 then -1 else if cmp1 > cmp2 then 1 else 0

/-- Modelled from the spec: the kernel helper `ktime_sub_ns` is not under `src/`; it is
`systim - base_time` on `s64`. -/
def ktime_sub_ns (kt nsval : Int) : Int := s64 (kt - nsval)

/-- Modelled from the spec: the kernel helper `ktime_add_ns` is not under `src/`; it is
`base_time + delta` on `s64`. -/
def ktime_add_ns (kt nsval : Int) : Int := s64 (kt + nsval)

/-- Modelled from the spec: the kernel helper `div64_s64` is not under `src/`; the spec's
`floor((systim - base_time) / cycle_time)` is a signed 64-bit division (truncating), which
has no result when the divisor is zero. -/
def div64_s64 (dividend divisor : Int) : Option Int :=
  if divisor = 0 then none else some (s64 (Int.tdiv dividend divisor))

/-- Modelled from the spec: the kernel helper `div_s64_rem` is not under `src/`; it splits a
time into the seconds and sub-second fields, quotient and remainder of a truncating signed
division. -/
def div_s64_rem (dividend divisor : Int) : Int × Int :=
  (Int.tdiv dividend divisor, Int.tmod dividend divisor)

/-- Modelled from the spec: the kernel macro `DIV_ROUND_UP_ULL` is not under `src/`; the spec
describes it as the ceiling of `ll / d`, which on `unsigned long long` is
`(ll + d - 1) / d` with the sum taken modulo `2^64`. -/
def DIV_ROUND_UP_ULL (ll d : Nat) : Nat := u64 (ll + d - 1) / d

/-! ## Registers -/

/-- Names of the device registers used by `igc_tsn.c`.  The per-queue registers carry the queue
index.  (`igc_regs.h`, which maps the names to distinct addresses, is not in the sources.) -/
inductive Reg where
  | GTXOFFSET
  | TSAUXC
  | DTXMXPKTSZ
  | TXPBS
  | RXPBS
  | TQAVCTRL
  | QBVCYCLET_S
  | QBVCYCLET
  | BASET_H
  | BASET_L
  | SYSTIML
  | SYSTIMH
  | STQT (n : Nat)
  | ENDQT (n : Nat)
  | TXQCTL (n : Nat)
  | TQAVCC (n : Nat)
  | TQAVHC (n : Nat)
  deriving DecidableEq, Repr

/-- The device (`struct igc_hw`): the register bank, the writes issued so far (oldest first),
and the PCI device id. -/
structure igc_hw where
  regs : Reg → Nat
  wr_log : List (Reg × Nat)
  device_id : Nat

/-- Register read `rd32(reg)`: a 32-bit value. -/
def rd32 (hw : igc_hw) (reg : Reg) : Nat := u32 (hw.regs reg)

/-- Register write `wr32(reg, val)` of a 32-bit value. -/
def wr32 (hw : igc_hw) (reg : Reg) (val : Nat) : igc_hw :=
  { hw with
    regs := fun r => if r = reg then u32 val else hw.regs r
    wr_log := hw.wr_log ++ [(reg, u32 val)] }

/-! ## Driver data -/

/-- Constants, macros and helpers of the driver headers, which are not in the sources.
`qbv_config_change_errors_width` is the width in bits of the unsigned counter field
`qbv_config_change_errors` that the headers declare in `struct igc_adapter`. -/
structure igc_defines where
  IGC_FLAG_TSN_QBV_ENABLED : Nat
  IGC_FLAG_TSN_QAV_ENABLED : Nat
  IGC_FLAG_TSN_PREEMPT_ENABLED : Nat
  IGC_FLAG_TSN_ANY_ENABLED : Nat
  IGC_I225_MIN_FRAG_SIZE_DEFAULT : Nat
  I225_TXPBSIZE_DEFAULT : Nat
  IGC_TXPBSIZE_TSN : Nat
  IGC_DTXMXPKTSZ_DEFAULT : Nat
  IGC_DTXMXPKTSZ_TSN : Nat
  IGC_RXPBSIZE_SIZE_MASK : Nat
  I225_RXPBSIZE_DEFAULT : Nat
  IGC_RXPBSIZE_TSN : Nat
  IGC_TQAVCTRL_TRANSMIT_MODE_TSN : Nat
  IGC_TQAVCTRL_ENHANCED_QAV : Nat
  IGC_TQAVCTRL_FUTSCDDIS : Nat
  IGC_TQAVCTRL_PREEMPT_ENA : Nat
  IGC_TQAVCTRL_MIN_FRAG_MASK : Nat
  IGC_TQAVCTRL_MIN_FRAG_SHIFT : Nat
  IGC_TXQCTL_STRICT_CYCLE : Nat
  IGC_TXQCTL_STRICT_END : Nat
  IGC_TXQCTL_QUEUE_MODE_LAUNCHT : Nat
  IGC_TXQCTL_PREEMPTABLE : Nat
  IGC_TXQCTL_QAV_SEL_CBS0 : Nat
  IGC_TXQCTL_QAV_SEL_CBS1 : Nat
  IGC_TXQCTL_QAV_SEL_MASK : Nat
  IGC_TQAVCC_IDLESLOPE_MASK : Nat
  IGC_TQAVCC_KEEP_CREDITS : Nat
  TC_SETUP_QDISC_TAPRIO : Nat
  ethtool_frag_size_to_mult : Nat → Nat
  igc_is_device_id_i225 : Nat → Bool
  igc_is_device_id_i226 : Nat → Bool
  qbv_config_change_errors_width : Nat

/-- Per-queue configuration (`struct igc_ring`, the fields read by `igc_tsn.c`): gate window
(`u32`), launch time, preemption, and the credit-based shaper parameters (`s32`). -/
structure igc_ring where
  start_time : Nat
  end_time : Nat
  launchtime_enable : Bool
  preemptible : Bool
  cbs_enable : Bool
  idleslope : Int
  hicredit : Int

/-- Adapter state (`struct igc_adapter`, the fields used by `igc_tsn.c`).  `base_time` and
`cycle_time` are `ktime_t` values; `netif_running` stands for `netif_running(adapter->netdev)`
and `reset_task_scheduled` records `schedule_work(&adapter->reset_task)`.  The counter
`qbv_config_change_errors` is an unsigned field whose width is declared in a header that is not
in the sources: it holds values below `2 ^ qbv_config_change_errors_width`, and `++` wraps. -/
structure igc_adapter where
  hw : igc_hw
  flags : Nat
  num_tx_queues : Nat
  tx_ring : Nat → igc_ring
  qbv_enable : Bool
  frame_preemption_active : Bool
  add_frag_size : Nat
  cycle_time : Int
  base_time : Int
  tc_setup_type : Nat
  qbv_config_change_errors : Nat
  netif_running : Bool
  reset_task_scheduled : Bool

/-- How a call ends: it returns a status code, or it stops at a division by zero.  Both carry
the adapter state reached. -/
inductive Outcome where
  | returned (err : Int) (adapter : igc_adapter)
  | fault (adapter : igc_adapter)

/-- The adapter state a call ends in. -/
def Outcome.adapter : Outcome → igc_adapter
  | .returned _ a => a
  | .fault a => a

/-! ## Feature flag aggregation -/

/-- Loop of `is_any_launchtime`: `k` iterations are left, the loop variable is `i`. -/
def is_any_launchtime_loop (adapter : igc_adapter) : Nat → Nat → Bool
  | 0, _ => false
  | k + 1, i =>
    if (adapter.tx_ring i).launchtime_enable then true
    else is_any_launchtime_loop adapter k (i + 1)

/-- `is_any_launchtime`: some transmit queue has `launchtime_enable`. -/
def is_any_launchtime (adapter : igc_adapter) : Bool :=
  is_any_launchtime_loop adapter adapter.num_tx_queues 0

/-- Loop of `is_cbs_enabled`: `k` iterations are left, the loop variable is `i`. -/
def is_cbs_enabled_loop (adapter : igc_adapter) : Nat → Nat → Bool
  | 0, _ => false
  | k + 1, i =>
    if (adapter.tx_ring i).cbs_enable then true
    else is_cbs_enabled_loop adapter k (i + 1)

/-- `is_cbs_enabled`: some transmit queue has `cbs_enable`. -/
def is_cbs_enabled (adapter : igc_adapter) : Bool :=
  is_cbs_enabled_loop adapter adapter.num_tx_queues 0

/-- `igc_tsn_new_flags`: the flag word the adapter should have for its current configuration. -/
def igc_tsn_new_flags (c : igc_defines) (adapter : igc_adapter) : Nat :=
  let new_flags := and_not32 adapter.flags c.IGC_FLAG_TSN_ANY_ENABLED
  let new_flags :=
    if adapter.qbv_enable then or32 new_flags c.IGC_FLAG_TSN_QBV_ENABLED else new_flags
  let new_flags :=
    if is_any_launchtime adapter then or32 new_flags c.IGC_FLAG_TSN_QBV_ENABLED else new_flags
  let new_flags :=
    if adapter.frame_preemption_active then or32 new_flags c.IGC_FLAG_TSN_PREEMPT_ENABLED
    else new_flags
  let new_flags :=
    if is_cbs_enabled adapter then or32 new_flags c.IGC_FLAG_TSN_QAV_ENABLED else new_flags
  new_flags

/-! ## Offload disabler -/

/-- Loop of `igc_tsn_disable_offload` over the transmit queues: `k` iterations are left, the
loop variable is `i`. -/
def igc_tsn_disable_queues : Nat → Nat → igc_hw → igc_hw
  | 0, _, hw => hw
  | k + 1, i, hw =>
    let hw := wr32 hw (.TXQCTL i) 0
    let hw := wr32 hw (.STQT i) 0
    let hw := wr32 hw (.ENDQT i) NSEC_PER_SEC
    igc_tsn_disable_queues k (i + 1) hw

/-- `igc_tsn_disable_offload`: returns the TSN registers to their default values.  The result is
the return value and the adapter state. -/
def igc_tsn_disable_offload (c : igc_defines) (adapter : igc_adapter) : Int × igc_adapter :=
  let adapter := { adapter with add_frag_size := c.IGC_I225_MIN_FRAG_SIZE_DEFAULT }
  let hw := adapter.hw
  let hw := wr32 hw .TXPBS c.I225_TXPBSIZE_DEFAULT
  let hw := wr32 hw .DTXMXPKTSZ c.IGC_DTXMXPKTSZ_DEFAULT
  let rxpbs := and_not32 (rd32 hw .RXPBS) c.IGC_RXPBSIZE_SIZE_MASK
  let rxpbs := or32 rxpbs c.I225_RXPBSIZE_DEFAULT
  let hw := wr32 hw .RXPBS rxpbs
  let tqavctrl := rd32 hw .TQAVCTRL
  let tqavctrl := and_not32 tqavctrl
    (c.IGC_TQAVCTRL_TRANSMIT_MODE_TSN ||| c.IGC_TQAVCTRL_ENHANCED_QAV |||
      c.IGC_TQAVCTRL_FUTSCDDIS ||| c.IGC_TQAVCTRL_PREEMPT_ENA ||| c.IGC_TQAVCTRL_MIN_FRAG_MASK)
  let hw := wr32 hw .TQAVCTRL tqavctrl
  let hw := igc_tsn_disable_queues adapter.num_tx_queues 0 hw
  let hw := wr32 hw .QBVCYCLET_S 0
  let hw := wr32 hw .QBVCYCLET NSEC_PER_SEC
  let adapter := { adapter with hw := hw }
  let adapter := { adapter with flags := and_not32 adapter.flags c.IGC_FLAG_TSN_ANY_ENABLED }
  (0, adapter)

/-! ## Offload enabler -/

/-- Body of the per-queue loop of `igc_tsn_enable_offload` for queue `i`. -/
def igc_tsn_enable_queue (c : igc_defines) (adapter : igc_adapter) (hw : igc_hw) (i : Nat) :
    igc_hw :=
  let ring := adapter.tx_ring i
  let txqctl : Nat := 0
  let hw := wr32 hw (.STQT i) ring.start_time
  let hw := wr32 hw (.ENDQT i) ring.end_time
  let txqctl := or32 txqctl (c.IGC_TXQCTL_STRICT_CYCLE ||| c.IGC_TXQCTL_STRICT_END)
  let txqctl :=
    if ring.launchtime_enable then or32 txqctl c.IGC_TXQCTL_QUEUE_MODE_LAUNCHT else txqctl
  let txqctl :=
    if adapter.frame_preemption_active && ring.preemptible then
      or32 txqctl c.IGC_TXQCTL_PREEMPTABLE
    else txqctl
  if 1 < i then
    -- skip_cbs
    wr32 hw (.TXQCTL i) txqctl
  else if ring.cbs_enable then
    let txqctl :=
      if i = 0 then or32 txqctl c.IGC_TXQCTL_QAV_SEL_CBS0
      else or32 txqctl c.IGC_TXQCTL_QAV_SEL_CBS1
    let cbs_value := u16 (DIV_ROUND_UP_ULL (u64 (u64_of_int ring.idleslope * 61036)) 2500000)
    let tqavcc := rd32 hw (.TQAVCC i)
    let tqavcc := and_not32 tqavcc c.IGC_TQAVCC_IDLESLOPE_MASK
    let tqavcc := or32 tqavcc (cbs_value ||| c.IGC_TQAVCC_KEEP_CREDITS)
    let hw := wr32 hw (.TQAVCC i) tqavcc
    let hw := wr32 hw (.TQAVHC i) (u32_of_int (0x80000000 + s32 (ring.hicredit * 0x7736)))
    wr32 hw (.TXQCTL i) txqctl
  else
    let txqctl := and_not32 txqctl c.IGC_TXQCTL_QAV_SEL_MASK
    let tqavcc := rd32 hw (.TQAVCC i)
    let tqavcc := and_not32 tqavcc (c.IGC_TQAVCC_IDLESLOPE_MASK ||| c.IGC_TQAVCC_KEEP_CREDITS)
    let hw := wr32 hw (.TQAVCC i) tqavcc
    let hw := wr32 hw (.TQAVHC i) 0
    wr32 hw (.TXQCTL i) txqctl

/-- Per-queue loop of `igc_tsn_enable_offload`: `k` iterations are left, the loop variable
is `i`. -/
def igc_tsn_enable_queues (c : igc_defines) (adapter : igc_adapter) : Nat → Nat → igc_hw → igc_hw
  | 0, _, hw => hw
  | k + 1, i, hw => igc_tsn_enable_queues c adapter k (i + 1) (igc_tsn_enable_queue c adapter hw i)

/-- First part of `igc_tsn_enable_offload`: buffer sizing and the per-queue loop. -/
def igc_tsn_enable_buffers_and_queues (c : igc_defines) (adapter : igc_adapter) : igc_hw :=
  let hw := adapter.hw
  let hw := wr32 hw .GTXOFFSET 1500
  let hw := wr32 hw .TSAUXC 0
  let hw := wr32 hw .DTXMXPKTSZ c.IGC_DTXMXPKTSZ_TSN
  let hw := wr32 hw .TXPBS c.IGC_TXPBSIZE_TSN
  let rxpbs := and_not32 (rd32 hw .RXPBS) c.IGC_RXPBSIZE_SIZE_MASK
  let rxpbs := or32 rxpbs c.IGC_RXPBSIZE_TSN
  let hw := wr32 hw .RXPBS rxpbs
  igc_tsn_enable_queues c adapter adapter.num_tx_queues 0 hw

/-- The value of `tqavctrl` in `igc_tsn_enable_offload` before the clock is sampled, together
with `tsn_mode_reconfig`. -/
def igc_tsn_enable_tqavctrl (c : igc_defines) (adapter : igc_adapter) (hw : igc_hw) :
    Nat × Bool :=
  let tsn_mode_reconfig := false
  let tqavctrl := and_not32 (rd32 hw .TQAVCTRL)
    (c.IGC_TQAVCTRL_FUTSCDDIS ||| c.IGC_TQAVCTRL_MIN_FRAG_MASK ||| c.IGC_TQAVCTRL_PREEMPT_ENA)
  let tsn_mode_reconfig :=
    if tqavctrl &&& c.IGC_TQAVCTRL_TRANSMIT_MODE_TSN ≠ 0 then true else tsn_mode_reconfig
  let tqavctrl :=
    or32 tqavctrl (c.IGC_TQAVCTRL_TRANSMIT_MODE_TSN ||| c.IGC_TQAVCTRL_ENHANCED_QAV)
  let tqavctrl :=
    if adapter.frame_preemption_active then or32 tqavctrl c.IGC_TQAVCTRL_PREEMPT_ENA
    else tqavctrl
  let frag_size_mult := u32 (c.ethtool_frag_size_to_mult adapter.add_frag_size)
  let tqavctrl := or32 tqavctrl (u32 (frag_size_mult <<< c.IGC_TQAVCTRL_MIN_FRAG_SHIFT))
  (tqavctrl, tsn_mode_reconfig)

/-- The clock synchronisation of `igc_tsn_enable_offload` (the `if`/`else` on the clock sample):
the resulting `tqavctrl`, `base_time` and adapter, or `none` when the division by `cycle`
has no result. -/
def igc_tsn_enable_sync (c : igc_defines) (adapter : igc_adapter) (hw : igc_hw)
    (tqavctrl : Nat) (tsn_mode_reconfig : Bool) (cycle : Nat) :
    Option (Nat × Int × igc_adapter) :=
  let base_time := adapter.base_time
  let nsec := rd32 hw .SYSTIML
  let sec := rd32 hw .SYSTIMH
  let systim := ktime_set (sec : Int) nsec
  if ktime_compare systim base_time > 0 then
    match div64_s64 (ktime_sub_ns systim base_time) (cycle : Int) with
    | none => none
    | some n =>
      let base_time := ktime_add_ns base_time (s64 (s64 (n + 1) * (cycle : Int)))
      let adapter :=
        if (rd32 hw .BASET_H != 0 || rd32 hw .BASET_L != 0) &&
            adapter.tc_setup_type == c.TC_SETUP_QDISC_TAPRIO && tsn_mode_reconfig then
          { adapter with
            qbv_config_change_errors :=
              (adapter.qbv_config_change_errors + 1) % 2 ^ c.qbv_config_change_errors_width }
        else adapter
      some (tqavctrl, base_time, adapter)
  else
    let tqavctrl :=
      if c.igc_is_device_id_i226 hw.device_id &&
          !(rd32 hw .BASET_H != 0 || rd32 hw .BASET_L != 0) then
        or32 tqavctrl c.IGC_TQAVCTRL_FUTSCDDIS
      else tqavctrl
    some (tqavctrl, base_time, adapter)

/-- Last part of `igc_tsn_enable_offload`: the writes of the shaping control, the cycle time and
the base time. -/
def igc_tsn_enable_program (c : igc_defines) (hw : igc_hw) (tqavctrl cycle : Nat)
    (base_time : Int) : igc_hw :=
  let hw := wr32 hw .TQAVCTRL tqavctrl
  let hw := wr32 hw .QBVCYCLET_S cycle
  let hw := wr32 hw .QBVCYCLET cycle
  let qr := div_s64_rem base_time (NSEC_PER_SEC : Int)
  let baset_h := u32_of_int qr.1
  let baset_l := u32_of_int qr.2
  let hw := wr32 hw .BASET_H baset_h
  let hw := if tqavctrl &&& c.IGC_TQAVCTRL_FUTSCDDIS ≠ 0 then wr32 hw .BASET_L 0 else hw
  wr32 hw .BASET_L baset_l

/-- `igc_tsn_enable_offload`: programs the TSN registers from the adapter configuration. -/
def igc_tsn_enable_offload (c : igc_defines) (adapter : igc_adapter) : Outcome :=
  let hw := igc_tsn_enable_buffers_and_queues c adapter
  let tq := igc_tsn_enable_tqavctrl c adapter hw
  let cycle := u32_of_int adapter.cycle_time
  match igc_tsn_enable_sync c adapter hw tq.1 tq.2 cycle with
  | none => .fault { adapter with hw := hw }
  | some (tqavctrl, base_time, adapter) =>
    .returned 0 { adapter with hw := igc_tsn_enable_program c hw tqavctrl cycle base_time }

/-! ## Reset orchestrator and apply dispatcher -/

/-- `igc_tsn_reset`, with the call of the enabler as a parameter. -/
def igc_tsn_reset_with (c : igc_defines) (enable_offload : igc_adapter → Outcome)
    (adapter : igc_adapter) : Outcome :=
  let new_flags := igc_tsn_new_flags c adapter
  if new_flags &&& c.IGC_FLAG_TSN_ANY_ENABLED = 0 then
    let r := igc_tsn_disable_offload c adapter
    .returned r.1 r.2
  else
    match enable_offload adapter with
    | .fault a => .fault a
    | .returned err a =>
      if err < 0 then .returned err a
      else .returned err { a with flags := new_flags }

/-- `igc_tsn_reset`: disable the offload when no TSN feature is wanted, enable it otherwise. -/
def igc_tsn_reset (c : igc_defines) (adapter : igc_adapter) : Outcome :=
  igc_tsn_reset_with c (igc_tsn_enable_offload c) adapter

/-- `igc_tsn_offload_apply`: defer to the reset task on a running i225, reset otherwise. -/
def igc_tsn_offload_apply (c : igc_defines) (adapter : igc_adapter) : Outcome :=
  if adapter.netif_running && c.igc_is_device_id_i225 adapter.hw.device_id then
    .returned 0 { adapter with reset_task_scheduled := true }
  else
    match igc_tsn_reset c adapter with
    | .fault a => .fault a
    | .returned _ a => .returned 0 a

/-! ## The clock sample and the programmed base time -/

/-- The clock sample in nanoseconds, `SYSTIMH * 10^9 + SYSTIML`, of a register bank. -/
def systim_of (hw : igc_hw) : Int :=
  (rd32 hw .SYSTIMH : Int) * 1000000000 + (rd32 hw .SYSTIML : Int)

/-- The base time, in nanoseconds, that the base-time registers of a register bank hold:
`BASET_H * 10^9 + BASET_L`. -/
def programmed_base_time (hw : igc_hw) : Int :=
  (rd32 hw .BASET_H : Int) * 1000000000 + (rd32 hw .BASET_L : Int)

/-! ## Concrete constants and inputs -/

/-- A concrete choice of the header constants (bit positions as in the mainline headers of the
driver where they exist there).  It is used only to evaluate the functions on concrete inputs;
the general theorems take the constants as a parameter. -/
def igc_headers : igc_defines where
  IGC_FLAG_TSN_QBV_ENABLED := 0x20000
  IGC_FLAG_TSN_QAV_ENABLED := 0x40000
  IGC_FLAG_TSN_PREEMPT_ENABLED := 0x80000
  IGC_FLAG_TSN_ANY_ENABLED := 0xE0000
  IGC_I225_MIN_FRAG_SIZE_DEFAULT := 68
  I225_TXPBSIZE_DEFAULT := 0x04000014
  IGC_TXPBSIZE_TSN := 0x04145145
  IGC_DTXMXPKTSZ_DEFAULT := 0x98
  IGC_DTXMXPKTSZ_TSN := 0x19
  IGC_RXPBSIZE_SIZE_MASK := 0x0001FFFF
  I225_RXPBSIZE_DEFAULT := 0x000000A2
  IGC_RXPBSIZE_TSN := 0x0000F08F
  IGC_TQAVCTRL_TRANSMIT_MODE_TSN := 0x00000001
  IGC_TQAVCTRL_ENHANCED_QAV := 0x00000008
  IGC_TQAVCTRL_FUTSCDDIS := 0x00000080
  IGC_TQAVCTRL_PREEMPT_ENA := 0x00000002
  IGC_TQAVCTRL_MIN_FRAG_MASK := 0x0000C000
  IGC_TQAVCTRL_MIN_FRAG_SHIFT := 14
  IGC_TXQCTL_STRICT_CYCLE := 0x00000002
  IGC_TXQCTL_STRICT_END := 0x00000004
  IGC_TXQCTL_QUEUE_MODE_LAUNCHT := 0x00000001
  IGC_TXQCTL_PREEMPTABLE := 0x00000008
  IGC_TXQCTL_QAV_SEL_CBS0 := 0x00000080
  IGC_TXQCTL_QAV_SEL_CBS1 := 0x000000C0
  IGC_TXQCTL_QAV_SEL_MASK := 0x000000C0
  IGC_TQAVCC_IDLESLOPE_MASK := 0xFFFF
  IGC_TQAVCC_KEEP_CREDITS := 0x40000000
  TC_SETUP_QDISC_TAPRIO := 14
  ethtool_frag_size_to_mult := fun frag_size => (frag_size + 4) / 64 - 1
  igc_is_device_id_i225 := fun id => id == 0x15F2 || id == 0x15F3
  igc_is_device_id_i226 := fun id => id == 0x125B || id == 0x125C
  qbv_config_change_errors_width := 32

/-- A register bank with every register zero and no write issued, on an i225 device. -/
def hw_zero : igc_hw where
  regs := fun _ => 0
  wr_log := []
  device_id := 0x15F2

/-- A queue with an empty configuration. -/
def ring_zero : igc_ring where
  start_time := 0
  end_time := 0
  launchtime_enable := false
  preemptible := false
  cbs_enable := false
  idleslope := 0
  hicredit := 0

/-- An adapter with four transmit queues, no TSN feature configured, a cycle of one second and
every register zero. -/
def adapter_zero : igc_adapter where
  hw := hw_zero
  flags := 0
  num_tx_queues := 4
  tx_ring := fun _ => ring_zero
  qbv_enable := false
  frame_preemption_active := false
  add_frag_size := 68
  cycle_time := 1000000000
  base_time := 0
  tc_setup_type := 0
  qbv_config_change_errors := 0
  netif_running := false
  reset_task_scheduled := false

/-! ## Auxiliary notions for the statements -/

/-- The queue a per-queue register belongs to; `none` for a global register. -/
def Reg.queue : Reg → Option Nat
  | .STQT n => some n
  | .ENDQT n => some n
  | .TXQCTL n => some n
  | .TQAVCC n => some n
  | .TQAVHC n => some n
  | _ => none

/-- Whether a call stopped at a division by zero. -/
def Outcome.is_fault : Outcome → Bool
  | .returned _ _ => false
  | .fault _ => true

/-- The synchronised base time as the specification words it: when the clock sample is later
than `base_time`, the next cycle boundary `base_time + (n + 1) * cycle_time` with
`n = floor((systim - base_time) / cycle_time)`; otherwise `base_time` unchanged. -/
def synchronised_base_time (base_time systim cycle_time : Int) : Int :=
  if base_time < systim then
    base_time + ((systim - base_time) / cycle_time + 1) * cycle_time
  else base_time

/-- The value of `txqctl` in the per-queue loop of the enabler when it reaches the test
`i > 1`: strict cycle and strict end, and the launch-time and preemptable bits as configured. -/
def txqctl_mode_bits (c : igc_defines) (adapter : igc_adapter) (i : Nat) : Nat :=
  let txqctl := or32 0 (c.IGC_TXQCTL_STRICT_CYCLE ||| c.IGC_TXQCTL_STRICT_END)
  let txqctl :=
    if (adapter.tx_ring i).launchtime_enable then or32 txqctl c.IGC_TXQCTL_QUEUE_MODE_LAUNCHT
    else txqctl
  if adapter.frame_preemption_active && (adapter.tx_ring i).preemptible then
    or32 txqctl c.IGC_TXQCTL_PREEMPTABLE
  else txqctl

/-- What `rd32` returns from register `r` after the disabler ran on an adapter with `n` transmit
queues, given what `rd32` returned before (`old`) and the old value of that register. -/
def disabled_reg (c : igc_defines) (n : Nat) (old : Reg → Nat) (r : Reg) : Nat :=
  match r with
  | .TXPBS => u32 c.I225_TXPBSIZE_DEFAULT
  | .DTXMXPKTSZ => u32 c.IGC_DTXMXPKTSZ_DEFAULT
  | .RXPBS => or32 (and_not32 (old .RXPBS) c.IGC_RXPBSIZE_SIZE_MASK) c.I225_RXPBSIZE_DEFAULT
  | .TQAVCTRL =>
    and_not32 (old .TQAVCTRL)
      (c.IGC_TQAVCTRL_TRANSMIT_MODE_TSN ||| c.IGC_TQAVCTRL_ENHANCED_QAV |||
        c.IGC_TQAVCTRL_FUTSCDDIS ||| c.IGC_TQAVCTRL_PREEMPT_ENA |||
        c.IGC_TQAVCTRL_MIN_FRAG_MASK)
  | .QBVCYCLET_S => 0
  | .QBVCYCLET => 1000000000
  | .TXQCTL i => if i < n then 0 else old (.TXQCTL i)
  | .STQT i => if i < n then 0 else old (.STQT i)
  | .ENDQT i => if i < n then 1000000000 else old (.ENDQT i)
  | r => old r

/-- Two adapters have the same configuration: they agree on every field that `igc_tsn.c`
only reads (queue count, queue configurations, the feature toggles, the schedule times, the
queueing-discipline kind, the interface state, the pending reset task, the device id). -/
def same_config (a b : igc_adapter) : Prop :=
  a.num_tx_queues = b.num_tx_queues ∧ a.tx_ring = b.tx_ring ∧
  a.qbv_enable = b.qbv_enable ∧ a.frame_preemption_active = b.frame_preemption_active ∧
  a.cycle_time = b.cycle_time ∧ a.base_time = b.base_time ∧
  a.tc_setup_type = b.tc_setup_type ∧ a.netif_running = b.netif_running ∧
  a.reset_task_scheduled = b.reset_task_scheduled ∧ a.hw.device_id = b.hw.device_id

/-- Two adapters are in the same state: the same configuration, the same flags, minimum
fragment size and error counter, and the same register image (every register reads the
same). -/
def same_state (a b : igc_adapter) : Prop :=
  same_config a b ∧ a.flags = b.flags ∧ a.add_frag_size = b.add_frag_size ∧
  a.qbv_config_change_errors = b.qbv_config_change_errors ∧
  ∀ r, rd32 a.hw r = rd32 b.hw r

/-- The values written to register `r` so far, oldest first. -/
def wr_seq (hw : igc_hw) (r : Reg) : List Nat :=
  (hw.wr_log.filter (fun e => decide (e.1 = r))).map Prod.snd

/-- The base time after the synchronisation step of the enabler (the value of the local
variable `base_time` when the base-time registers are written); `adapter.base_time` when the
enabler stops at the division. -/
def enable_base_time (c : igc_defines) (adapter : igc_adapter) : Int :=
  let hw := igc_tsn_enable_buffers_and_queues c adapter
  let tq := igc_tsn_enable_tqavctrl c adapter hw
  match igc_tsn_enable_sync c adapter hw tq.1 tq.2 (u32_of_int adapter.cycle_time) with
  | some (_, base_time, _) => base_time
  | none => adapter.base_time

/-- The condition under which the enabler sets the future-schedule-disable bit: the clock
sample is not later than `base_time`, the device is an i226, and both base-time registers read
zero. -/
def futscddis_wanted (c : igc_defines) (adapter : igc_adapter) : Bool :=
  decide (systim_of adapter.hw ≤ adapter.base_time) &&
    (c.igc_is_device_id_i226 adapter.hw.device_id &&
      !(rd32 adapter.hw .BASET_H != 0 || rd32 adapter.hw .BASET_L != 0))

/-- The encoding of the minimum fragment size that the enabler ORs into `tqavctrl`:
`frag_size_mult << IGC_TQAVCTRL_MIN_FRAG_SHIFT` on 32 bits. -/
def frag_size_bits (c : igc_defines) (adapter : igc_adapter) : Nat :=
  u32 (u32 (c.ethtool_frag_size_to_mult adapter.add_frag_size) <<< c.IGC_TQAVCTRL_MIN_FRAG_SHIFT)

/-- The value the enabler builds for `TQAVCTRL` from the old register value `old`: the stale
bits are cleared, then the mode bits, the preemption bit (when `fpa`), the fragment-size
encoding `frag` and the future-schedule-disable bit (when `futs`) are ORed in. -/
def tqavctrl_value (c : igc_defines) (old frag : Nat) (fpa futs : Bool) : Nat :=
  let t := and_not32 old
    (c.IGC_TQAVCTRL_FUTSCDDIS ||| c.IGC_TQAVCTRL_MIN_FRAG_MASK ||| c.IGC_TQAVCTRL_PREEMPT_ENA)
  let t := or32 t (c.IGC_TQAVCTRL_TRANSMIT_MODE_TSN ||| c.IGC_TQAVCTRL_ENHANCED_QAV)
  let t := if fpa then or32 t c.IGC_TQAVCTRL_PREEMPT_ENA else t
  let t := or32 t frag
  if futs then or32 t c.IGC_TQAVCTRL_FUTSCDDIS else t

/-- The value the enabler writes to `TXQCTL(i)`: the mode bits, with the CBS selector of queue
0 or 1 ORed in when that queue has `cbs_enable`, and the selector field cleared when it has
not. -/
def txqctl_value (c : igc_defines) (adapter : igc_adapter) (i : Nat) : Nat :=
  let txqctl := txqctl_mode_bits c adapter i
  if 1 < i then txqctl
  else if (adapter.tx_ring i).cbs_enable then
    if i = 0 then or32 txqctl c.IGC_TXQCTL_QAV_SEL_CBS0
    else or32 txqctl c.IGC_TXQCTL_QAV_SEL_CBS1
  else and_not32 txqctl c.IGC_TXQCTL_QAV_SEL_MASK

/-! ## Concrete inputs used in evaluations -/

/-- A register bank that is zero except for the given clock sample and base-time registers. -/
def hw_clock (device_id systimh systiml baset_h baset_l tqavctrl : Nat) : igc_hw where
  regs := fun r =>
    match r with
    | .SYSTIMH => systimh
    | .SYSTIML => systiml
    | .BASET_H => baset_h
    | .BASET_L => baset_l
    | .TQAVCTRL => tqavctrl
    | _ => 0
  wr_log := []
  device_id := device_id

/-- An i225 adapter with `qbv_enable`, a cycle time of zero, base time 0, and the clock at 1 ns. -/
def adapter_zero_cycle : igc_adapter :=
  { adapter_zero with
    qbv_enable := true
    cycle_time := 0
    hw := hw_clock 0x15F2 0 1 0 0 0 }

/-- An adapter whose queues 0, 1 and 2 have `cbs_enable`: queue 0 with `idleslope = 0` and
`hicredit = 0`, queues 1 and 2 with `idleslope = 100000` and `hicredit = 5`; everything else as
in `adapter_zero`. -/
def adapter_cbs : igc_adapter :=
  { adapter_zero with
    tx_ring := fun i =>
      if i = 0 then { ring_zero with cbs_enable := true }
      else if i = 1 ∨ i = 2 then
        { ring_zero with cbs_enable := true, idleslope := 100000, hicredit := 5 }
      else ring_zero }

/-- The past-scheduled example of the specification: a cycle of 1,000,000 ns, base time 0 and
the clock at 2,500,000 ns. -/
def adapter_past_example : igc_adapter :=
  { adapter_zero with
    qbv_enable := true
    cycle_time := 1000000
    hw := hw_clock 0x15F2 0 2500000 0 0 0 }

/-- An adapter whose clock is in the last second that `SYSTIMH` can count: `SYSTIMH = 2^32 - 1`,
`SYSTIML = 999,999,999`, with a cycle of one second and base time 0. -/
def adapter_clock_end : igc_adapter :=
  { adapter_zero with
    qbv_enable := true
    cycle_time := 1000000000
    hw := hw_clock 0x15F2 4294967295 999999999 0 0 0 }

/-- An i225 adapter whose clock sample equals its base time: both are 5 ns, the cycle is
1,000,000 ns. -/
def adapter_clock_equal : igc_adapter :=
  { adapter_zero with
    qbv_enable := true
    cycle_time := 1000000
    base_time := 5
    hw := hw_clock 0x15F2 0 5 0 0 0 }

/-- An i225 adapter whose base time is `2^32 * 10^9 + 5` ns, beyond what `BASET_H` can count,
with the clock at 10 ns and a cycle of 1,000,000 ns. -/
def adapter_far_base : igc_adapter :=
  { adapter_zero with
    qbv_enable := true
    cycle_time := 1000000
    base_time := 4294967296000000005
    hw := hw_clock 0x15F2 0 10 0 0 0 }

/-- An i225 adapter with base time `7 * 10^9 + 250` ns and the clock at 3 s. -/
def adapter_future_example : igc_adapter :=
  { adapter_zero with
    qbv_enable := true
    base_time := 7000000250
    hw := hw_clock 0x15F2 3 0 0 0 0 }

/-- An adapter under taprio with a schedule running in TSN mode (`BASET_L = 1`,
`TQAVCTRL = TRANSMIT_MODE_TSN`), base time 0, the clock at 1 ns, and the given cycle time. -/
def adapter_running (cycle_time : Int) : igc_adapter :=
  { adapter_zero with
    qbv_enable := true
    cycle_time := cycle_time
    tc_setup_type := 14
    hw := hw_clock 0x15F2 0 1 0 1 1 }

/-- The adapter `adapter_running 1000000000` (a one-second cycle) with the error counter at
`2^32 - 1`. -/
def adapter_running_counter_max : igc_adapter :=
  { adapter_running 1000000000 with qbv_config_change_errors := 4294967295 }

/-- An adapter in a fully enabled state: every TSN flag set in `flags` (with one other flag,
bit 0), every register reading `0xFFFFFFFF`, and a non-default minimum fragment size. -/
def adapter_all_ones : igc_adapter :=
  { adapter_zero with
    flags := 0xE0001
    add_frag_size := 132
    hw := { regs := fun _ => 0xFFFFFFFF, wr_log := [], device_id := 0x125B } }

/-- An adapter on the all-zero register bank with `qbv_enable` and base time
`7 * 10^9 + 250` ns, no queue shaped. -/
def adapter_qbv_future : igc_adapter :=
  { adapter_zero with
    qbv_enable := true
    base_time := 7000000250 }

/-- An enabler that fails: it leaves the adapter as it is and reports `-EBUSY`. -/
def enable_offload_busy (adapter : igc_adapter) : Outcome :=
  .returned (-16) adapter

/-- The shaped adapter with the interface running; the device is an i225. -/
def adapter_cbs_running : igc_adapter :=
  { adapter_cbs with netif_running := true }

/-- An i226 adapter with `qbv_enable`, base time `7 * 10^9 + 250` ns, the clock at 3 s, no
schedule running (both base-time registers zero) and a stale `TQAVCTRL = 0xC0F2`. -/
def adapter_i226_idle : igc_adapter :=
  { adapter_zero with
    qbv_enable := true
    base_time := 7000000250
    add_frag_size := 132
    hw := hw_clock 0x125B 3 0 0 0 0xC0F2 }

/-- The same on an i225, where the future-schedule-disable bit is never set. -/
def adapter_i225_idle : igc_adapter :=
  { adapter_i226_idle with hw := hw_clock 0x15F2 3 0 0 0 0xC0F2 }

/-- The adapter `adapter_i225_idle` with `add_frag_size = 320`, whose multiplier 4 needs three
bits. -/
def adapter_i225_frag_320 : igc_adapter :=
  { adapter_i225_idle with add_frag_size := 320 }

/-- An adapter with `qbv_enable` and no queue shaped, although queue 1 holds
`idleslope = 100000` and `hicredit = 5`, on a bank whose registers all read `0xFFFFFFFF`. -/
def adapter_unshaped : igc_adapter :=
  { adapter_zero with
    qbv_enable := true
    tx_ring := fun i =>
      if i = 1 then { ring_zero with idleslope := 100000, hicredit := 5 } else ring_zero
    hw := { regs := fun _ => 0xFFFFFFFF, wr_log := [], device_id := 0x15F2 } }

/-- The adapter `adapter_zero_cycle` with the QAV flag already set in `flags`. -/
def adapter_zero_cycle_qav : igc_adapter :=
  { adapter_zero_cycle with flags := 0x40000 }

/-! ## Assumptions on the header constants -/

/-- What the flag aggregation needs from the header constants: the three TSN feature flags are
non-zero 32-bit masks, pairwise disjoint, and all contained in `IGC_FLAG_TSN_ANY_ENABLED`. -/
def flag_bits_ok (c : igc_defines) : Prop :=
  (c.IGC_FLAG_TSN_QBV_ENABLED ≠ 0 ∧ c.IGC_FLAG_TSN_PREEMPT_ENABLED ≠ 0 ∧
    c.IGC_FLAG_TSN_QAV_ENABLED ≠ 0) ∧
  (c.IGC_FLAG_TSN_QBV_ENABLED < 4294967296 ∧ c.IGC_FLAG_TSN_PREEMPT_ENABLED < 4294967296 ∧
    c.IGC_FLAG_TSN_QAV_ENABLED < 4294967296) ∧
  (c.IGC_FLAG_TSN_QBV_ENABLED &&& c.IGC_FLAG_TSN_ANY_ENABLED = c.IGC_FLAG_TSN_QBV_ENABLED ∧
    c.IGC_FLAG_TSN_PREEMPT_ENABLED &&& c.IGC_FLAG_TSN_ANY_ENABLED
      = c.IGC_FLAG_TSN_PREEMPT_ENABLED ∧
    c.IGC_FLAG_TSN_QAV_ENABLED &&& c.IGC_FLAG_TSN_ANY_ENABLED = c.IGC_FLAG_TSN_QAV_ENABLED) ∧
  (c.IGC_FLAG_TSN_QBV_ENABLED &&& c.IGC_FLAG_TSN_PREEMPT_ENABLED = 0 ∧
    c.IGC_FLAG_TSN_QBV_ENABLED &&& c.IGC_FLAG_TSN_QAV_ENABLED = 0 ∧
    c.IGC_FLAG_TSN_PREEMPT_ENABLED &&& c.IGC_FLAG_TSN_QAV_ENABLED = 0)

instance (c : igc_defines) : Decidable (flag_bits_ok c) := by
  unfold flag_bits_ok
  infer_instance

/-- What the error counting needs from the header constants: the TSN-transmit-mode bit of
`TQAVCTRL` is none of the bits the enabler clears before testing it. -/
def tsn_mode_bit_ok (c : igc_defines) : Prop :=
  c.IGC_TQAVCTRL_TRANSMIT_MODE_TSN &&&
    (c.IGC_TQAVCTRL_FUTSCDDIS ||| c.IGC_TQAVCTRL_MIN_FRAG_MASK ||| c.IGC_TQAVCTRL_PREEMPT_ENA) = 0

instance (c : igc_defines) : Decidable (tsn_mode_bit_ok c) := by
  unfold tsn_mode_bit_ok
  infer_instance

/-- What the idle-slope encoding needs from the header constants: the idle-slope field of
`TQAVCC` is its low 16 bits, and the keep-credits mask is a 32-bit mask outside that field. -/
def cbs_field_ok (c : igc_defines) : Prop :=
  c.IGC_TQAVCC_IDLESLOPE_MASK = 65535 ∧
  c.IGC_TQAVCC_KEEP_CREDITS &&& 65535 = 0 ∧
  c.IGC_TQAVCC_KEEP_CREDITS < 4294967296

instance (c : igc_defines) : Decidable (cbs_field_ok c) := by
  unfold cbs_field_ok
  infer_instance

/-- What the CBS index limitation needs from the header constants: the strict-cycle, strict-end,
launch-time and preemptable bits of `TXQCTL` are none of the CBS-selector bits. -/
def txqctl_mode_bits_ok (c : igc_defines) : Prop :=
  (c.IGC_TXQCTL_STRICT_CYCLE ||| c.IGC_TXQCTL_STRICT_END ||| c.IGC_TXQCTL_QUEUE_MODE_LAUNCHT |||
    c.IGC_TXQCTL_PREEMPTABLE) &&& (c.IGC_TXQCTL_QAV_SEL_CBS0 ||| c.IGC_TXQCTL_QAV_SEL_CBS1) = 0

instance (c : igc_defines) : Decidable (txqctl_mode_bits_ok c) := by
  unfold txqctl_mode_bits_ok
  infer_instance

/-- What the disabler's postcondition needs from the header constants: the default buffer
sizes are 32-bit values, and the default receive size lies in the size field of `RXPBS`. -/
def disable_defaults_ok (c : igc_defines) : Prop :=
  c.I225_TXPBSIZE_DEFAULT < 4294967296 ∧ c.IGC_DTXMXPKTSZ_DEFAULT < 4294967296 ∧
  c.I225_RXPBSIZE_DEFAULT < 4294967296 ∧
  c.I225_RXPBSIZE_DEFAULT &&& c.IGC_RXPBSIZE_SIZE_MASK = c.I225_RXPBSIZE_DEFAULT

instance (c : igc_defines) : Decidable (disable_defaults_ok c) := by
  unfold disable_defaults_ok
  infer_instance

/-- What the statements about `TQAVCTRL` need from the header constants: the transmit-mode,
enhanced-shaping, future-schedule-disable and preemption-enable masks are 32-bit masks below
the minimum-fragment field (which starts at bit `IGC_TQAVCTRL_MIN_FRAG_SHIFT`) and outside its
mask, the future-schedule-disable and preemption-enable masks are non-zero, disjoint from each
other and from the two mode masks, and the minimum-fragment mask is a 32-bit mask. -/
def tqavctrl_bits_ok (c : igc_defines) : Prop :=
  (c.IGC_TQAVCTRL_TRANSMIT_MODE_TSN < 4294967296 ∧ c.IGC_TQAVCTRL_ENHANCED_QAV < 4294967296 ∧
    c.IGC_TQAVCTRL_FUTSCDDIS < 4294967296 ∧ c.IGC_TQAVCTRL_PREEMPT_ENA < 4294967296 ∧
    c.IGC_TQAVCTRL_MIN_FRAG_MASK < 4294967296) ∧
  (c.IGC_TQAVCTRL_TRANSMIT_MODE_TSN < 2 ^ c.IGC_TQAVCTRL_MIN_FRAG_SHIFT ∧
    c.IGC_TQAVCTRL_ENHANCED_QAV < 2 ^ c.IGC_TQAVCTRL_MIN_FRAG_SHIFT ∧
    c.IGC_TQAVCTRL_FUTSCDDIS < 2 ^ c.IGC_TQAVCTRL_MIN_FRAG_SHIFT ∧
    c.IGC_TQAVCTRL_PREEMPT_ENA < 2 ^ c.IGC_TQAVCTRL_MIN_FRAG_SHIFT) ∧
  (c.IGC_TQAVCTRL_FUTSCDDIS ≠ 0 ∧ c.IGC_TQAVCTRL_PREEMPT_ENA ≠ 0) ∧
  (c.IGC_TQAVCTRL_FUTSCDDIS &&& c.IGC_TQAVCTRL_TRANSMIT_MODE_TSN = 0 ∧
    c.IGC_TQAVCTRL_FUTSCDDIS &&& c.IGC_TQAVCTRL_ENHANCED_QAV = 0 ∧
    c.IGC_TQAVCTRL_FUTSCDDIS &&& c.IGC_TQAVCTRL_PREEMPT_ENA = 0 ∧
    c.IGC_TQAVCTRL_PREEMPT_ENA &&& c.IGC_TQAVCTRL_TRANSMIT_MODE_TSN = 0 ∧
    c.IGC_TQAVCTRL_PREEMPT_ENA &&& c.IGC_TQAVCTRL_ENHANCED_QAV = 0) ∧
  (c.IGC_TQAVCTRL_TRANSMIT_MODE_TSN &&& c.IGC_TQAVCTRL_MIN_FRAG_MASK = 0 ∧
    c.IGC_TQAVCTRL_ENHANCED_QAV &&& c.IGC_TQAVCTRL_MIN_FRAG_MASK = 0 ∧
    c.IGC_TQAVCTRL_FUTSCDDIS &&& c.IGC_TQAVCTRL_MIN_FRAG_MASK = 0 ∧
    c.IGC_TQAVCTRL_PREEMPT_ENA &&& c.IGC_TQAVCTRL_MIN_FRAG_MASK = 0)

instance (c : igc_defines) : Decidable (tqavctrl_bits_ok c) := by
  unfold tqavctrl_bits_ok
  infer_instance

/-- The minimum-fragment multiplier of the adapter fits its field of `TQAVCTRL`: shifted to the
field position it lies inside the field mask.  (`ethtool_frag_size_to_mult` is not in the
sources.) -/
def frag_size_fits (c : igc_defines) (adapter : igc_adapter) : Prop :=
  (u32 (c.ethtool_frag_size_to_mult adapter.add_frag_size) <<< c.IGC_TQAVCTRL_MIN_FRAG_SHIFT)
      &&& c.IGC_TQAVCTRL_MIN_FRAG_MASK
    = u32 (c.ethtool_frag_size_to_mult adapter.add_frag_size) <<< c.IGC_TQAVCTRL_MIN_FRAG_SHIFT

instance (c : igc_defines) (adapter : igc_adapter) : Decidable (frag_size_fits c adapter) := by
  unfold frag_size_fits
  infer_instance

/-- What the statements about `TXQCTL` need from the header constants: the strict-cycle,
strict-end, launch-time and preemptable masks and the two CBS selectors are 32-bit values; the
launch-time and preemptable masks are non-zero and disjoint from each other and from the two
strict masks; the four mode masks lie outside the selector field `IGC_TXQCTL_QAV_SEL_MASK`;
and the two CBS selectors are distinct non-zero values of that field. -/
def txqctl_fields_ok (c : igc_defines) : Prop :=
  (c.IGC_TXQCTL_STRICT_CYCLE < 4294967296 ∧ c.IGC_TXQCTL_STRICT_END < 4294967296 ∧
    c.IGC_TXQCTL_QUEUE_MODE_LAUNCHT < 4294967296 ∧ c.IGC_TXQCTL_PREEMPTABLE < 4294967296 ∧
    c.IGC_TXQCTL_QAV_SEL_CBS0 < 4294967296 ∧ c.IGC_TXQCTL_QAV_SEL_CBS1 < 4294967296) ∧
  (c.IGC_TXQCTL_QUEUE_MODE_LAUNCHT ≠ 0 ∧ c.IGC_TXQCTL_PREEMPTABLE ≠ 0 ∧
    c.IGC_TXQCTL_QAV_SEL_CBS0 ≠ 0 ∧ c.IGC_TXQCTL_QAV_SEL_CBS1 ≠ 0 ∧
    c.IGC_TXQCTL_QAV_SEL_CBS0 ≠ c.IGC_TXQCTL_QAV_SEL_CBS1) ∧
  (c.IGC_TXQCTL_QUEUE_MODE_LAUNCHT &&& c.IGC_TXQCTL_STRICT_CYCLE = 0 ∧
    c.IGC_TXQCTL_QUEUE_MODE_LAUNCHT &&& c.IGC_TXQCTL_STRICT_END = 0 ∧
    c.IGC_TXQCTL_QUEUE_MODE_LAUNCHT &&& c.IGC_TXQCTL_PREEMPTABLE = 0 ∧
    c.IGC_TXQCTL_PREEMPTABLE &&& c.IGC_TXQCTL_STRICT_CYCLE = 0 ∧
    c.IGC_TXQCTL_PREEMPTABLE &&& c.IGC_TXQCTL_STRICT_END = 0) ∧
  (c.IGC_TXQCTL_STRICT_CYCLE &&& c.IGC_TXQCTL_QAV_SEL_MASK = 0 ∧
    c.IGC_TXQCTL_STRICT_END &&& c.IGC_TXQCTL_QAV_SEL_MASK = 0 ∧
    c.IGC_TXQCTL_QUEUE_MODE_LAUNCHT &&& c.IGC_TXQCTL_QAV_SEL_MASK = 0 ∧
    c.IGC_TXQCTL_PREEMPTABLE &&& c.IGC_TXQCTL_QAV_SEL_MASK = 0) ∧
  (c.IGC_TXQCTL_QAV_SEL_CBS0 &&& c.IGC_TXQCTL_QAV_SEL_MASK = c.IGC_TXQCTL_QAV_SEL_CBS0 ∧
    c.IGC_TXQCTL_QAV_SEL_CBS1 &&& c.IGC_TXQCTL_QAV_SEL_MASK = c.IGC_TXQCTL_QAV_SEL_CBS1)

instance (c : igc_defines) : Decidable (txqctl_fields_ok c) := by
  unfold txqctl_fields_ok
  infer_instance

/-! ## Bit-level facts -/

theorem testBit_mask32 (i : Nat) : (4294967295 : Nat).testBit i = decide (i < 32) :=
  Nat.testBit_two_pow_sub_one 32 i

theorem testBit_ge32 {k i : Nat} (hk : k < 4294967296) (hi : 32 ≤ i) : k.testBit i = false := by
  apply Nat.testBit_lt_two_pow
  calc k < 2 ^ 32 := hk
    _ ≤ 2 ^ i := Nat.pow_le_pow_right (by decide) hi

theorem testBit_u32 (x i : Nat) : (u32 x).testBit i = (decide (i < 32) && x.testBit i) :=
  Nat.testBit_mod_two_pow x 32 i

theorem testBit_and_not32 (x m i : Nat) :
    (and_not32 x m).testBit i = (x.testBit i && (decide (i < 32) && !m.testBit i)) := by
  unfold and_not32
  rw [Nat.testBit_and, Nat.testBit_xor, testBit_mask32, testBit_u32]
  cases x.testBit i <;> cases m.testBit i <;> cases decide (i < 32) <;> rfl

theorem testBit_or32 (x m i : Nat) :
    (or32 x m).testBit i = (decide (i < 32) && (x.testBit i || m.testBit i)) := by
  unfold or32
  rw [testBit_u32, Nat.testBit_or]

theorem and_eq_zero_iff_testBit (x k : Nat) :
    x &&& k = 0 ↔ ∀ i, (x.testBit i && k.testBit i) = false := by
  constructor
  · intro h i
    rw [← Nat.testBit_and, h, Nat.zero_testBit]
  · intro h
    apply Nat.eq_of_testBit_eq
    intro i
    rw [Nat.testBit_and, h, Nat.zero_testBit]

theorem and_not32_and_eq_zero (x m k : Nat) (hk : k &&& m = k) : and_not32 x m &&& k = 0 := by
  rw [and_eq_zero_iff_testBit]
  intro i
  have h := congrArg (fun n => n.testBit i) hk
  simp only [Nat.testBit_and] at h
  rw [testBit_and_not32]
  cases hx : x.testBit i <;> cases hm : m.testBit i <;> cases hkk : k.testBit i <;>
    simp_all

theorem or32_and (x m k : Nat) (hk : k < 4294967296) :
    or32 x m &&& k = (x &&& k) ||| (m &&& k) := by
  apply Nat.eq_of_testBit_eq
  intro i
  rw [Nat.testBit_and, testBit_or32, Nat.testBit_or, Nat.testBit_and, Nat.testBit_and]
  by_cases hi : i < 32
  · simp [hi, Bool.and_or_distrib_right]
  · have := testBit_ge32 hk (Nat.le_of_not_lt hi)
    simp [this]

theorem or_eq_zero_iff (a b : Nat) : a ||| b = 0 ↔ a = 0 ∧ b = 0 := by
  constructor
  · intro h
    constructor
    · apply Nat.eq_of_testBit_eq
      intro i
      have := congrArg (fun n => n.testBit i) h
      simp only [Nat.testBit_or, Nat.zero_testBit, Bool.or_eq_false_iff] at this
      rw [this.1, Nat.zero_testBit]
    · apply Nat.eq_of_testBit_eq
      intro i
      have := congrArg (fun n => n.testBit i) h
      simp only [Nat.testBit_or, Nat.zero_testBit, Bool.or_eq_false_iff] at this
      rw [this.2, Nat.zero_testBit]
  · rintro ⟨rfl, rfl⟩
    rfl

/-! ## The queue scans -/

theorem is_any_launchtime_loop_iff (adapter : igc_adapter) (k i : Nat) :
    is_any_launchtime_loop adapter k i = true ↔
      ∃ j, i ≤ j ∧ j < i + k ∧ (adapter.tx_ring j).launchtime_enable = true := by
  induction k generalizing i with
  | zero =>
    constructor
    · intro h
      simp [is_any_launchtime_loop] at h
    · rintro ⟨j, h1, h2, _⟩
      omega
  | succ k ih =>
    cases h : (adapter.tx_ring i).launchtime_enable with
    | true =>
      simp only [is_any_launchtime_loop, h, if_true, true_iff]
      exact ⟨i, Nat.le_refl i, by omega, h⟩
    | false =>
      have hstep : is_any_launchtime_loop adapter (k + 1) i = is_any_launchtime_loop adapter k (i + 1) := by
        simp [is_any_launchtime_loop, h]
      rw [hstep, ih]
      constructor
      · rintro ⟨j, h1, h2, h3⟩
        exact ⟨j, by omega, by omega, h3⟩
      · rintro ⟨j, h1, h2, h3⟩
        have hne : j ≠ i := by
          rintro rfl
          rw [h] at h3
          cases h3
        exact ⟨j, by omega, by omega, h3⟩

theorem is_any_launchtime_iff (adapter : igc_adapter) :
    is_any_launchtime adapter = true ↔
      ∃ i, i < adapter.num_tx_queues ∧ (adapter.tx_ring i).launchtime_enable = true := by
  unfold is_any_launchtime
  rw [is_any_launchtime_loop_iff]
  constructor
  · rintro ⟨j, _, h2, h3⟩
    exact ⟨j, by omega, h3⟩
  · rintro ⟨j, h2, h3⟩
    exact ⟨j, Nat.zero_le j, by omega, h3⟩

theorem is_cbs_enabled_loop_iff (adapter : igc_adapter) (k i : Nat) :
    is_cbs_enabled_loop adapter k i = true ↔
      ∃ j, i ≤ j ∧ j < i + k ∧ (adapter.tx_ring j).cbs_enable = true := by
  induction k generalizing i with
  | zero =>
    constructor
    · intro h
      simp [is_cbs_enabled_loop] at h
    · rintro ⟨j, h1, h2, _⟩
      omega
  | succ k ih =>
    cases h : (adapter.tx_ring i).cbs_enable with
    | true =>
      simp only [is_cbs_enabled_loop, h, if_true, true_iff]
      exact ⟨i, Nat.le_refl i, by omega, h⟩
    | false =>
      have hstep : is_cbs_enabled_loop adapter (k + 1) i = is_cbs_enabled_loop adapter k (i + 1) := by
        simp [is_cbs_enabled_loop, h]
      rw [hstep, ih]
      constructor
      · rintro ⟨j, h1, h2, h3⟩
        exact ⟨j, by omega, by omega, h3⟩
      · rintro ⟨j, h1, h2, h3⟩
        have hne : j ≠ i := by
          rintro rfl
          rw [h] at h3
          cases h3
        exact ⟨j, by omega, by omega, h3⟩

theorem is_cbs_enabled_iff (adapter : igc_adapter) :
    is_cbs_enabled adapter = true ↔
      ∃ i, i < adapter.num_tx_queues ∧ (adapter.tx_ring i).cbs_enable = true := by
  unfold is_cbs_enabled
  rw [is_cbs_enabled_loop_iff]
  constructor
  · rintro ⟨j, _, h2, h3⟩
    exact ⟨j, by omega, h3⟩
  · rintro ⟨j, h2, h3⟩
    exact ⟨j, Nat.zero_le j, by omega, h3⟩

/-- The bits of a 32-bit mask `k` in the new flag word: those contributed by each feature. -/
theorem igc_tsn_new_flags_and (c : igc_defines) (adapter : igc_adapter) (k : Nat)
    (hk : k < 4294967296) :
    igc_tsn_new_flags c adapter &&& k =
      (and_not32 adapter.flags c.IGC_FLAG_TSN_ANY_ENABLED &&& k) |||
      (if adapter.qbv_enable = true ∨ is_any_launchtime adapter = true
        then c.IGC_FLAG_TSN_QBV_ENABLED &&& k else 0) |||
      (if adapter.frame_preemption_active = true
        then c.IGC_FLAG_TSN_PREEMPT_ENABLED &&& k else 0) |||
      (if is_cbs_enabled adapter = true then c.IGC_FLAG_TSN_QAV_ENABLED &&& k else 0) := by
  unfold igc_tsn_new_flags
  cases adapter.qbv_enable <;> cases is_any_launchtime adapter <;>
    cases adapter.frame_preemption_active <;> cases is_cbs_enabled adapter <;>
    simp [or32_and _ _ _ hk, Nat.or_assoc]

/-! ## Register reads after writes, and what the enabler's loops leave alone -/

theorem u32_u32 (x : Nat) : u32 (u32 x) = u32 x := by
  unfold u32
  omega

theorem u32_lt (x : Nat) : u32 x < 4294967296 := by
  unfold u32
  omega

theorem u32_of_lt {x : Nat} (h : x < 4294967296) : u32 x = x := by
  unfold u32
  omega

theorem rd32_lt (hw : igc_hw) (r : Reg) : rd32 hw r < 4294967296 := u32_lt _

theorem rd32_wr32 (hw : igc_hw) (r r' : Reg) (v : Nat) :
    rd32 (wr32 hw r v) r' = if r' = r then u32 v else rd32 hw r' := by
  unfold rd32 wr32
  by_cases h : r' = r
  · simp [h, u32_u32]
  · simp [h]

theorem rd32_wr32_same (hw : igc_hw) (r : Reg) (v : Nat) : rd32 (wr32 hw r v) r = u32 v := by
  rw [rd32_wr32, if_pos rfl]

theorem rd32_wr32_other (hw : igc_hw) {r r' : Reg} (v : Nat) (h : r' ≠ r) :
    rd32 (wr32 hw r v) r' = rd32 hw r' := by
  rw [rd32_wr32, if_neg h]

theorem wr32_device_id (hw : igc_hw) (r : Reg) (v : Nat) :
    (wr32 hw r v).device_id = hw.device_id := rfl

theorem enable_queue_rd32_other (c : igc_defines) (adapter : igc_adapter) (hw : igc_hw)
    (i : Nat) (r : Reg) (h : r.queue ≠ some i) :
    rd32 (igc_tsn_enable_queue c adapter hw i) r = rd32 hw r := by
  have h1 : r ≠ .STQT i := by rintro rfl; exact h rfl
  have h2 : r ≠ .ENDQT i := by rintro rfl; exact h rfl
  have h3 : r ≠ .TXQCTL i := by rintro rfl; exact h rfl
  have h4 : r ≠ .TQAVCC i := by rintro rfl; exact h rfl
  have h5 : r ≠ .TQAVHC i := by rintro rfl; exact h rfl
  unfold igc_tsn_enable_queue
  simp only []
  split
  · simp only [rd32_wr32, h1, h2, h3, if_false]
  · split
    · simp only [rd32_wr32, h1, h2, h3, h4, h5, if_false]
    · simp only [rd32_wr32, h1, h2, h3, h4, h5, if_false]

theorem enable_queue_device_id (c : igc_defines) (adapter : igc_adapter) (hw : igc_hw)
    (i : Nat) : (igc_tsn_enable_queue c adapter hw i).device_id = hw.device_id := by
  unfold igc_tsn_enable_queue
  simp only []
  split
  · rfl
  · split <;> rfl

theorem enable_queues_rd32_other (c : igc_defines) (adapter : igc_adapter) (k i : Nat)
    (hw : igc_hw) (r : Reg) (h : ∀ j, i ≤ j → j < i + k → r.queue ≠ some j) :
    rd32 (igc_tsn_enable_queues c adapter k i hw) r = rd32 hw r := by
  induction k generalizing i hw with
  | zero => rfl
  | succ k ih =>
    simp only [igc_tsn_enable_queues]
    rw [ih (i + 1) _ (fun j h1 h2 => h j (by omega) (by omega))]
    exact enable_queue_rd32_other c adapter hw i r (h i (Nat.le_refl i) (by omega))

theorem enable_queues_device_id (c : igc_defines) (adapter : igc_adapter) (k i : Nat)
    (hw : igc_hw) : (igc_tsn_enable_queues c adapter k i hw).device_id = hw.device_id := by
  induction k generalizing i hw with
  | zero => rfl
  | succ k ih =>
    simp only [igc_tsn_enable_queues]
    rw [ih, enable_queue_device_id]

/-- The buffer sizing and the per-queue loop leave the clock, the base-time registers and the
shaping-control register as they were. -/
theorem enable_buffers_and_queues_rd32 (c : igc_defines) (adapter : igc_adapter) (r : Reg)
    (hq : r.queue = none) (h1 : r ≠ .GTXOFFSET) (h2 : r ≠ .TSAUXC) (h3 : r ≠ .DTXMXPKTSZ)
    (h4 : r ≠ .TXPBS) (h5 : r ≠ .RXPBS) :
    rd32 (igc_tsn_enable_buffers_and_queues c adapter) r = rd32 adapter.hw r := by
  unfold igc_tsn_enable_buffers_and_queues
  simp only []
  rw [enable_queues_rd32_other _ _ _ _ _ _ (fun j _ _ => by rw [hq]; exact Option.noConfusion)]
  simp only [rd32_wr32, h1, h2, h3, h4, h5, if_false]

theorem enable_buffers_and_queues_device_id (c : igc_defines) (adapter : igc_adapter) :
    (igc_tsn_enable_buffers_and_queues c adapter).device_id = adapter.hw.device_id := by
  unfold igc_tsn_enable_buffers_and_queues
  simp only []
  rw [enable_queues_device_id]
  rfl

/-! ## The clock sample and the synchronisation step -/

theorem s64_of_range {x : Int} (h1 : -9223372036854775808 ≤ x) (h2 : x < 9223372036854775808) :
    s64 x = x := by
  unfold s64
  omega

theorem systim_of_nonneg (hw : igc_hw) : 0 ≤ systim_of hw := by
  unfold systim_of
  omega

theorem systim_of_lt (hw : igc_hw) : systim_of hw < 4300000000000000000 := by
  have h1 := rd32_lt hw .SYSTIMH
  have h2 := rd32_lt hw .SYSTIML
  unfold systim_of
  omega

theorem ktime_set_rd32 (hw : igc_hw) :
    ktime_set (rd32 hw .SYSTIMH : Int) (rd32 hw .SYSTIML) = systim_of hw := by
  have h1 := rd32_lt hw .SYSTIMH
  have h2 := rd32_lt hw .SYSTIML
  have hmax : KTIME_SEC_MAX = 9223372036 := by decide
  unfold ktime_set systim_of
  rw [hmax, if_neg (by omega)]
  apply s64_of_range
  · simp only [NSEC_PER_SEC]
    omega
  · simp only [NSEC_PER_SEC]
    omega

theorem ktime_compare_pos (a b : Int) : ktime_compare a b > 0 ↔ b < a := by
  unfold ktime_compare
  split
  · omega
  · split <;> omega

/-- The synchronisation step when the clock sample is not later than `base_time`: the base
time is kept, and only the future-schedule-disable bit may be added to `tqavctrl`. -/
theorem enable_sync_future (c : igc_defines) (adapter : igc_adapter) (hw : igc_hw)
    (tqavctrl : Nat) (reconfig : Bool) (cycle : Nat) (h : systim_of hw ≤ adapter.base_time) :
    igc_tsn_enable_sync c adapter hw tqavctrl reconfig cycle =
      some (if (c.igc_is_device_id_i226 hw.device_id &&
                !(rd32 hw .BASET_H != 0 || rd32 hw .BASET_L != 0)) = true
            then or32 tqavctrl c.IGC_TQAVCTRL_FUTSCDDIS else tqavctrl,
        adapter.base_time, adapter) := by
  unfold igc_tsn_enable_sync
  simp only [ktime_set_rd32, ktime_compare_pos]
  rw [if_neg (by omega)]

/-- The synchronisation step when the clock sample is later than `base_time` and the cycle
is zero: the division has no result. -/
theorem enable_sync_fault (c : igc_defines) (adapter : igc_adapter) (hw : igc_hw)
    (tqavctrl : Nat) (reconfig : Bool) (h : adapter.base_time < systim_of hw) :
    igc_tsn_enable_sync c adapter hw tqavctrl reconfig 0 = none := by
  unfold igc_tsn_enable_sync
  simp only [ktime_set_rd32, ktime_compare_pos]
  rw [if_pos h]
  rfl

/-- The synchronisation step when the clock sample is later than `base_time` and the cycle
is not zero: the base time is advanced, `tqavctrl` is kept, and the error counter is
incremented when a schedule is running under taprio in TSN mode. -/
theorem enable_sync_past (c : igc_defines) (adapter : igc_adapter) (hw : igc_hw)
    (tqavctrl : Nat) (reconfig : Bool) (cycle : Nat) (h : adapter.base_time < systim_of hw)
    (hc : cycle ≠ 0) :
    igc_tsn_enable_sync c adapter hw tqavctrl reconfig cycle =
      some (tqavctrl,
        ktime_add_ns adapter.base_time
          (s64 (s64 (s64 (Int.tdiv (ktime_sub_ns (systim_of hw) adapter.base_time)
            (cycle : Int)) + 1) * (cycle : Int))),
        if ((rd32 hw .BASET_H != 0 || rd32 hw .BASET_L != 0) &&
            adapter.tc_setup_type == c.TC_SETUP_QDISC_TAPRIO && reconfig) = true
        then { adapter with
          qbv_config_change_errors :=
            (adapter.qbv_config_change_errors + 1) % 2 ^ c.qbv_config_change_errors_width }
        else adapter) := by
  unfold igc_tsn_enable_sync
  simp only [ktime_set_rd32, ktime_compare_pos]
  rw [if_pos h]
  have hc' : (cycle : Int) ≠ 0 := by omega
  simp only [div64_s64, if_neg hc']

/-- Advancing the base time: with `0 ≤ base < systim` (a clock sample) and `0 < cycle < 2^32`,
no 64-bit operation wraps and the new base time is
`base + ((systim - base) / cycle + 1) * cycle`. -/
theorem advance_base_time (base systim : Int) (cycle : Nat) (hb : 0 ≤ base)
    (hs : base < systim) (hs2 : systim < 4300000000000000000) (hc0 : 0 < cycle)
    (hc1 : cycle < 4294967296) :
    ktime_add_ns base
        (s64 (s64 (s64 (Int.tdiv (ktime_sub_ns systim base) (cycle : Int)) + 1) * (cycle : Int)))
      = base + ((systim - base) / (cycle : Int) + 1) * (cycle : Int) := by
  have hcz : (0 : Int) < (cycle : Int) := by omega
  have hd : ktime_sub_ns systim base = systim - base := by
    unfold ktime_sub_ns
    apply s64_of_range <;> omega
  have hq0 : 0 ≤ (systim - base) / (cycle : Int) := Int.ediv_nonneg (by omega) (by omega)
  have hq1 : (systim - base) / (cycle : Int) * (cycle : Int) ≤ systim - base :=
    Int.ediv_mul_le _ (by omega)
  have hq2 : (systim - base) / (cycle : Int) ≤ systim - base := by
    have : (systim - base) / (cycle : Int) * 1 ≤ (systim - base) / (cycle : Int) * (cycle : Int) :=
      Int.mul_le_mul_of_nonneg_left (by omega) hq0
    omega
  have hq3 : 0 ≤ (systim - base) / (cycle : Int) * (cycle : Int) :=
    Int.mul_nonneg hq0 (by omega)
  have hm : ((systim - base) / (cycle : Int) + 1) * (cycle : Int)
      = (systim - base) / (cycle : Int) * (cycle : Int) + (cycle : Int) := by ring
  have e1 : s64 (Int.tdiv (systim - base) (cycle : Int)) = (systim - base) / (cycle : Int) := by
    rw [Int.tdiv_eq_ediv (by omega) (by omega)]
    apply s64_of_range <;> omega
  have e2 : s64 ((systim - base) / (cycle : Int) + 1) = (systim - base) / (cycle : Int) + 1 := by
    apply s64_of_range <;> omega
  have e3 : s64 (((systim - base) / (cycle : Int) + 1) * (cycle : Int))
      = ((systim - base) / (cycle : Int) + 1) * (cycle : Int) := by
    apply s64_of_range <;> rw [hm] <;> omega
  rw [hd, e1, e2, e3]
  unfold ktime_add_ns
  apply s64_of_range <;> rw [hm] <;> omega

/-! ## The three ways the enabler ends -/

theorem enable_offload_systim (c : igc_defines) (adapter : igc_adapter) :
    systim_of (igc_tsn_enable_buffers_and_queues c adapter) = systim_of adapter.hw := by
  unfold systim_of
  rw [enable_buffers_and_queues_rd32 c adapter .SYSTIMH rfl (by decide) (by decide) (by decide)
      (by decide) (by decide),
    enable_buffers_and_queues_rd32 c adapter .SYSTIML rfl (by decide) (by decide) (by decide)
      (by decide) (by decide)]

/-- The enabler when the clock sample is not later than `base_time`. -/
theorem enable_offload_future (c : igc_defines) (adapter : igc_adapter)
    (h : systim_of adapter.hw ≤ adapter.base_time) :
    igc_tsn_enable_offload c adapter =
      .returned 0 { adapter with
        hw := igc_tsn_enable_program c (igc_tsn_enable_buffers_and_queues c adapter)
          (if (c.igc_is_device_id_i226 adapter.hw.device_id &&
                !(rd32 adapter.hw .BASET_H != 0 || rd32 adapter.hw .BASET_L != 0)) = true
            then or32 (igc_tsn_enable_tqavctrl c adapter
                (igc_tsn_enable_buffers_and_queues c adapter)).1 c.IGC_TQAVCTRL_FUTSCDDIS
            else (igc_tsn_enable_tqavctrl c adapter
                (igc_tsn_enable_buffers_and_queues c adapter)).1)
          (u32_of_int adapter.cycle_time) adapter.base_time } := by
  unfold igc_tsn_enable_offload
  simp only []
  rw [enable_sync_future _ _ _ _ _ _ (by rw [enable_offload_systim]; exact h)]
  simp only [enable_buffers_and_queues_device_id,
    enable_buffers_and_queues_rd32 c adapter .BASET_H rfl (by decide) (by decide) (by decide)
      (by decide) (by decide),
    enable_buffers_and_queues_rd32 c adapter .BASET_L rfl (by decide) (by decide) (by decide)
      (by decide) (by decide)]

/-- The enabler when the clock sample is later than `base_time` and the 32-bit cycle is zero:
it stops at the division, after the buffer and per-queue writes. -/
theorem enable_offload_fault (c : igc_defines) (adapter : igc_adapter)
    (h : adapter.base_time < systim_of adapter.hw) (hc : u32_of_int adapter.cycle_time = 0) :
    igc_tsn_enable_offload c adapter =
      .fault { adapter with hw := igc_tsn_enable_buffers_and_queues c adapter } := by
  unfold igc_tsn_enable_offload
  simp only []
  rw [hc, enable_sync_fault _ _ _ _ _ (by rw [enable_offload_systim]; exact h)]

/-- The enabler when the clock sample is later than `base_time` and the 32-bit cycle is not
zero. -/
theorem enable_offload_past (c : igc_defines) (adapter : igc_adapter)
    (h : adapter.base_time < systim_of adapter.hw) (hc : u32_of_int adapter.cycle_time ≠ 0) :
    igc_tsn_enable_offload c adapter =
      .returned 0
        { (if ((rd32 adapter.hw .BASET_H != 0 || rd32 adapter.hw .BASET_L != 0) &&
              adapter.tc_setup_type == c.TC_SETUP_QDISC_TAPRIO &&
              (igc_tsn_enable_tqavctrl c adapter
                (igc_tsn_enable_buffers_and_queues c adapter)).2) = true
            then { adapter with
              qbv_config_change_errors :=
                (adapter.qbv_config_change_errors + 1) %
                  2 ^ c.qbv_config_change_errors_width }
            else adapter) with
          hw := igc_tsn_enable_program c (igc_tsn_enable_buffers_and_queues c adapter)
            (igc_tsn_enable_tqavctrl c adapter (igc_tsn_enable_buffers_and_queues c adapter)).1
            (u32_of_int adapter.cycle_time)
            (ktime_add_ns adapter.base_time
              (s64 (s64 (s64 (Int.tdiv (ktime_sub_ns (systim_of adapter.hw) adapter.base_time)
                ((u32_of_int adapter.cycle_time : Nat) : Int)) + 1) *
                  ((u32_of_int adapter.cycle_time : Nat) : Int)))) } := by
  unfold igc_tsn_enable_offload
  simp only []
  rw [enable_sync_past _ _ _ _ _ _ (by rw [enable_offload_systim]; exact h) hc]
  simp only [enable_offload_systim,
    enable_buffers_and_queues_rd32 c adapter .BASET_H rfl (by decide) (by decide) (by decide)
      (by decide) (by decide),
    enable_buffers_and_queues_rd32 c adapter .BASET_L rfl (by decide) (by decide) (by decide)
      (by decide) (by decide)]

/-- The enabler returns 0 unless it divides by a zero cycle. -/
theorem enable_offload_returns (c : igc_defines) (adapter : igc_adapter)
    (h : u32_of_int adapter.cycle_time ≠ 0 ∨ systim_of adapter.hw ≤ adapter.base_time) :
    ∃ a, igc_tsn_enable_offload c adapter = .returned 0 a := by
  by_cases hs : systim_of adapter.hw ≤ adapter.base_time
  · exact ⟨_, enable_offload_future c adapter hs⟩
  · rcases h with h | h
    · exact ⟨_, enable_offload_past c adapter (by omega) h⟩
    · exact absurd h hs

/-- When the new flag word has no TSN bit, it is the old flag word with the TSN bits cleared. -/
theorem new_flags_eq_of_no_tsn (c : igc_defines) (adapter : igc_adapter) (hc : flag_bits_ok c)
    (h : igc_tsn_new_flags c adapter &&& c.IGC_FLAG_TSN_ANY_ENABLED = 0) :
    igc_tsn_new_flags c adapter = and_not32 adapter.flags c.IGC_FLAG_TSN_ANY_ENABLED := by
  obtain ⟨⟨nq, np, na⟩, ⟨lq, lp, la⟩, ⟨sq, sp, sa⟩, _⟩ := hc
  have sub : ∀ k, k &&& c.IGC_FLAG_TSN_ANY_ENABLED = k →
      igc_tsn_new_flags c adapter &&& k = 0 := by
    intro k hk
    rw [← hk, Nat.and_comm k, ← Nat.and_assoc, h, Nat.zero_and]
  have hq := sub _ sq
  have hp := sub _ sp
  have ha := sub _ sa
  rw [igc_tsn_new_flags_and c adapter _ lq] at hq
  rw [igc_tsn_new_flags_and c adapter _ lp] at hp
  rw [igc_tsn_new_flags_and c adapter _ la] at ha
  simp only [or_eq_zero_iff, Nat.and_self] at hq hp ha
  have h1 : ¬ (adapter.qbv_enable = true ∨ is_any_launchtime adapter = true) := by
    intro hh
    have := hq.1.1.2
    rw [if_pos hh] at this
    exact nq this
  have h2 : ¬ adapter.frame_preemption_active = true := by
    intro hh
    have := hp.1.2
    rw [if_pos hh] at this
    exact np this
  have h3 : ¬ is_cbs_enabled adapter = true := by
    intro hh
    have := ha.2
    rw [if_pos hh] at this
    exact na this
  simp only [not_or, Bool.not_eq_true] at h1 h2 h3
  unfold igc_tsn_new_flags
  simp only [h1.1, h1.2, h2, h3, Bool.false_eq_true, if_false]

/-! ## The final writes of the enabler -/

theorem u32_of_int_lt (x : Int) : u32_of_int x < 4294967296 := by
  unfold u32_of_int
  omega

theorem u32_u32_of_int (x : Int) : u32 (u32_of_int x) = u32_of_int x :=
  u32_of_lt (u32_of_int_lt x)

theorem u32_of_int_of_range {x : Int} (h0 : 0 ≤ x) (h1 : x < 4294967296) :
    (u32_of_int x : Int) = x := by
  unfold u32_of_int
  omega

theorem program_rd32_BASET_H (c : igc_defines) (hw : igc_hw) (tqavctrl cycle : Nat)
    (base_time : Int) :
    rd32 (igc_tsn_enable_program c hw tqavctrl cycle base_time) .BASET_H
      = u32_of_int (Int.tdiv base_time 1000000000) := by
  unfold igc_tsn_enable_program
  simp only []
  split <;>
    simp [rd32_wr32, u32_u32_of_int, div_s64_rem, NSEC_PER_SEC]

theorem program_rd32_BASET_L (c : igc_defines) (hw : igc_hw) (tqavctrl cycle : Nat)
    (base_time : Int) :
    rd32 (igc_tsn_enable_program c hw tqavctrl cycle base_time) .BASET_L
      = u32_of_int (Int.tmod base_time 1000000000) := by
  unfold igc_tsn_enable_program
  simp only []
  simp [rd32_wr32, u32_u32_of_int, div_s64_rem, NSEC_PER_SEC]

theorem program_rd32_TQAVCTRL (c : igc_defines) (hw : igc_hw) (tqavctrl cycle : Nat)
    (base_time : Int) :
    rd32 (igc_tsn_enable_program c hw tqavctrl cycle base_time) .TQAVCTRL = u32 tqavctrl := by
  unfold igc_tsn_enable_program
  simp only []
  split <;> simp [rd32_wr32]

theorem program_rd32_other (c : igc_defines) (hw : igc_hw) (tqavctrl cycle : Nat)
    (base_time : Int) (r : Reg) (h1 : r ≠ .TQAVCTRL) (h2 : r ≠ .QBVCYCLET_S)
    (h3 : r ≠ .QBVCYCLET) (h4 : r ≠ .BASET_H) (h5 : r ≠ .BASET_L) :
    rd32 (igc_tsn_enable_program c hw tqavctrl cycle base_time) r = rd32 hw r := by
  unfold igc_tsn_enable_program
  simp only []
  split <;> simp [rd32_wr32, h1, h2, h3, h4, h5]

/-- A base time in `[0, 2^32 * 10^9)` is programmed exactly: `BASET_H` holds its seconds,
`BASET_L` its nanoseconds below one second. -/
theorem program_base_time (c : igc_defines) (hw : igc_hw) (tqavctrl cycle : Nat)
    (base_time : Int) (h0 : 0 ≤ base_time) (h1 : base_time < 4294967296 * 1000000000) :
    (rd32 (igc_tsn_enable_program c hw tqavctrl cycle base_time) .BASET_H : Int)
        = base_time / 1000000000 ∧
    (rd32 (igc_tsn_enable_program c hw tqavctrl cycle base_time) .BASET_L : Int)
        = base_time % 1000000000 ∧
    programmed_base_time (igc_tsn_enable_program c hw tqavctrl cycle base_time) = base_time := by
  have hH := program_rd32_BASET_H c hw tqavctrl cycle base_time
  have hL := program_rd32_BASET_L c hw tqavctrl cycle base_time
  have eH : (u32_of_int (Int.tdiv base_time 1000000000) : Int) = base_time / 1000000000 := by
    rw [Int.tdiv_eq_ediv h0 (by omega)]
    apply u32_of_int_of_range <;> omega
  have eL : (u32_of_int (Int.tmod base_time 1000000000) : Int) = base_time % 1000000000 := by
    rw [Int.tmod_eq_emod h0 (by omega)]
    apply u32_of_int_of_range <;> omega
  unfold programmed_base_time
  rw [hH, hL, eH, eL]
  refine ⟨rfl, rfl, ?_⟩
  omega

/-! ## Feature flag aggregation: the result -/

/-- C1: the flag word computed by `igc_tsn_new_flags` has the QBV bit iff `qbv_enable` is set or
a transmit queue below `num_tx_queues` has `launchtime_enable`, the preemption bit iff
`frame_preemption_active` is set, and the QAV bit iff a transmit queue below `num_tx_queues`
has `cbs_enable`; when none of these holds, no TSN bit is set in the result. -/
theorem igc_tsn_new_flags_bits (c : igc_defines) (adapter : igc_adapter)
    (hc : flag_bits_ok c) :
    (igc_tsn_new_flags c adapter &&& c.IGC_FLAG_TSN_QBV_ENABLED ≠ 0 ↔
      (adapter.qbv_enable = true ∨
        ∃ i, i < adapter.num_tx_queues ∧ (adapter.tx_ring i).launchtime_enable = true)) ∧
    (igc_tsn_new_flags c adapter &&& c.IGC_FLAG_TSN_PREEMPT_ENABLED ≠ 0 ↔
      adapter.frame_preemption_active = true) ∧
    (igc_tsn_new_flags c adapter &&& c.IGC_FLAG_TSN_QAV_ENABLED ≠ 0 ↔
      ∃ i, i < adapter.num_tx_queues ∧ (adapter.tx_ring i).cbs_enable = true) ∧
    ((adapter.qbv_enable = false ∧ adapter.frame_preemption_active = false ∧
        ∀ i, i < adapter.num_tx_queues →
          (adapter.tx_ring i).launchtime_enable = false ∧
          (adapter.tx_ring i).cbs_enable = false) →
      igc_tsn_new_flags c adapter &&& c.IGC_FLAG_TSN_ANY_ENABLED = 0) := by
  obtain ⟨⟨nq, np, na⟩, ⟨lq, lp, la⟩, ⟨sq, sp, sa⟩, ⟨dqp, dqa, dpa⟩⟩ := hc
  have dpq : c.IGC_FLAG_TSN_PREEMPT_ENABLED &&& c.IGC_FLAG_TSN_QBV_ENABLED = 0 := by
    rw [Nat.and_comm]; exact dqp
  have daq : c.IGC_FLAG_TSN_QAV_ENABLED &&& c.IGC_FLAG_TSN_QBV_ENABLED = 0 := by
    rw [Nat.and_comm]; exact dqa
  have dap : c.IGC_FLAG_TSN_QAV_ENABLED &&& c.IGC_FLAG_TSN_PREEMPT_ENABLED = 0 := by
    rw [Nat.and_comm]; exact dpa
  refine ⟨?_, ?_, ?_, ?_⟩
  · rw [igc_tsn_new_flags_and c adapter _ lq, and_not32_and_eq_zero _ _ _ sq, dpq, daq,
      ← is_any_launchtime_iff, Nat.and_self]
    by_cases h : adapter.qbv_enable = true ∨ is_any_launchtime adapter = true
    · simp [h, nq]
    · simp [h]
  · rw [igc_tsn_new_flags_and c adapter _ lp, and_not32_and_eq_zero _ _ _ sp, dqp, dap,
      Nat.and_self]
    by_cases h : adapter.frame_preemption_active = true
    · simp [h, np]
    · simp [h]
  · rw [igc_tsn_new_flags_and c adapter _ la, and_not32_and_eq_zero _ _ _ sa, dqa, dpa,
      ← is_cbs_enabled_iff, Nat.and_self]
    by_cases h : is_cbs_enabled adapter = true
    · simp [h, na]
    · simp [h]
  · rintro ⟨hq, hp, hall⟩
    have hl : is_any_launchtime adapter = false := by
      cases h : is_any_launchtime adapter with
      | false => rfl
      | true =>
        obtain ⟨i, hi, hlt⟩ := (is_any_launchtime_iff adapter).1 h
        rw [(hall i hi).1] at hlt
        cases hlt
    have hcbs : is_cbs_enabled adapter = false := by
      cases h : is_cbs_enabled adapter with
      | false => rfl
      | true =>
        obtain ⟨i, hi, hlt⟩ := (is_cbs_enabled_iff adapter).1 h
        rw [(hall i hi).2] at hlt
        cases hlt
    unfold igc_tsn_new_flags
    simp only [hq, hp, hl, hcbs, Bool.false_eq_true, if_false]
    exact and_not32_and_eq_zero _ _ _ (Nat.and_self _)

/-- C1, at a concrete input: the header constants satisfy the assumptions, and an adapter whose
queue 1 has `cbs_enable` gets exactly the QAV bit. -/
theorem igc_tsn_new_flags_bits_witness :
    flag_bits_ok igc_headers ∧
    (igc_tsn_new_flags igc_headers
        { adapter_zero with
          tx_ring := fun i => if i = 1 then { ring_zero with cbs_enable := true } else ring_zero }
      &&& igc_headers.IGC_FLAG_TSN_QAV_ENABLED ≠ 0) :=
  ⟨by decide,
   ((igc_tsn_new_flags_bits igc_headers
      { adapter_zero with
        tx_ring := fun i => if i = 1 then { ring_zero with cbs_enable := true } else ring_zero }
      (by decide)).2.2.1).2 ⟨1, by decide, rfl⟩⟩

/-! ## The TSN-transmit-mode test and the disabler's registers -/

theorem and_not32_and_disjoint (x m k : Nat) (hx : x < 4294967296) (hk : k &&& m = 0) :
    and_not32 x m &&& k = x &&& k := by
  apply Nat.eq_of_testBit_eq
  intro i
  have h := (and_eq_zero_iff_testBit k m).1 hk i
  rw [Nat.testBit_and, Nat.testBit_and, testBit_and_not32]
  by_cases hi : i < 32
  · cases hx' : x.testBit i <;> cases hm : m.testBit i <;> cases hkk : k.testBit i <;>
      simp_all
  · rw [testBit_ge32 hx (Nat.le_of_not_lt hi)]
    simp

theorem and_not32_twice_and_eq_zero (x m1 m2 k : Nat) (hk : k &&& m1 = k) :
    and_not32 (and_not32 x m1) m2 &&& k = 0 := by
  rw [and_eq_zero_iff_testBit]
  intro i
  have h := congrArg (fun n => n.testBit i) hk
  simp only [Nat.testBit_and] at h
  rw [testBit_and_not32, testBit_and_not32]
  cases hx : x.testBit i <;> cases hm : m1.testBit i <;> cases hkk : k.testBit i <;>
    simp_all

theorem and_not32_lt (x m : Nat) : and_not32 x m < 4294967296 := by
  apply Nat.lt_pow_two_of_testBit (n := 32)
  intro i hi
  rw [testBit_and_not32]
  have : ¬ i < 32 := by omega
  simp [this]

/-- The value of `tsn_mode_reconfig`: whether `TQAVCTRL` had the TSN-transmit-mode bit. -/
theorem enable_tqavctrl_reconfig (c : igc_defines) (adapter : igc_adapter) (hw : igc_hw)
    (hc : tsn_mode_bit_ok c) :
    (igc_tsn_enable_tqavctrl c adapter hw).2 =
      decide (rd32 hw .TQAVCTRL &&& c.IGC_TQAVCTRL_TRANSMIT_MODE_TSN ≠ 0) := by
  unfold igc_tsn_enable_tqavctrl
  simp only []
  rw [and_not32_and_disjoint _ _ _ (rd32_lt _ _) hc]
  by_cases h : rd32 hw .TQAVCTRL &&& c.IGC_TQAVCTRL_TRANSMIT_MODE_TSN = 0
  · simp [h]
  · simp [h]

theorem disable_queues_rd32_other (k i : Nat) (hw : igc_hw) (r : Reg) (hq : r.queue = none) :
    rd32 (igc_tsn_disable_queues k i hw) r = rd32 hw r := by
  induction k generalizing i hw with
  | zero => rfl
  | succ k ih =>
    have h1 : r ≠ .TXQCTL i := by rintro rfl; cases hq
    have h2 : r ≠ .STQT i := by rintro rfl; cases hq
    have h3 : r ≠ .ENDQT i := by rintro rfl; cases hq
    simp only [igc_tsn_disable_queues]
    rw [ih]
    simp only [rd32_wr32, h1, h2, h3, if_false]

/-- After the disabler, `TQAVCTRL` holds its old value without the five mode bits. -/
theorem disable_offload_rd32_TQAVCTRL (c : igc_defines) (adapter : igc_adapter) :
    rd32 (igc_tsn_disable_offload c adapter).2.hw .TQAVCTRL =
      and_not32 (rd32 adapter.hw .TQAVCTRL)
        (c.IGC_TQAVCTRL_TRANSMIT_MODE_TSN ||| c.IGC_TQAVCTRL_ENHANCED_QAV |||
          c.IGC_TQAVCTRL_FUTSCDDIS ||| c.IGC_TQAVCTRL_PREEMPT_ENA |||
          c.IGC_TQAVCTRL_MIN_FRAG_MASK) := by
  unfold igc_tsn_disable_offload
  simp only [rd32_wr32, disable_queues_rd32_other _ _ _ _ (rfl : Reg.TQAVCTRL.queue = none)]
  simp [u32_of_lt (and_not32_lt _ _)]

theorem sub_mask_tsn_mode (c : igc_defines) :
    c.IGC_TQAVCTRL_TRANSMIT_MODE_TSN &&&
        (c.IGC_TQAVCTRL_TRANSMIT_MODE_TSN ||| c.IGC_TQAVCTRL_ENHANCED_QAV |||
          c.IGC_TQAVCTRL_FUTSCDDIS ||| c.IGC_TQAVCTRL_PREEMPT_ENA |||
          c.IGC_TQAVCTRL_MIN_FRAG_MASK)
      = c.IGC_TQAVCTRL_TRANSMIT_MODE_TSN := by
  apply Nat.eq_of_testBit_eq
  intro i
  simp only [Nat.testBit_and, Nat.testBit_or]
  cases c.IGC_TQAVCTRL_TRANSMIT_MODE_TSN.testBit i <;> simp

/-- Right after the disabler, the enabler does not see TSN transmit mode. -/
theorem enable_tqavctrl_reconfig_after_disable (c : igc_defines) (adapter : igc_adapter) :
    (igc_tsn_enable_tqavctrl c (igc_tsn_disable_offload c adapter).2
      (igc_tsn_enable_buffers_and_queues c (igc_tsn_disable_offload c adapter).2)).2 = false := by
  unfold igc_tsn_enable_tqavctrl
  simp only []
  rw [enable_buffers_and_queues_rd32 c _ .TQAVCTRL rfl (by decide) (by decide) (by decide)
      (by decide) (by decide),
    disable_offload_rd32_TQAVCTRL,
    and_not32_twice_and_eq_zero _ _ _ _ (sub_mask_tsn_mode c)]
  simp

/-! ## The per-queue registers after the enabler -/

/-- A register of queue `j` whose value after the loop body for queue `j` is a function `G` of
its value before: after the whole loop over a range containing `j`, it is `G` of its value
before the loop. -/
theorem enable_queues_rd32_queue (c : igc_defines) (adapter : igc_adapter) (r : Reg) (j : Nat)
    (G : Nat → Nat) (hr : r.queue = some j)
    (hG : ∀ hw, rd32 (igc_tsn_enable_queue c adapter hw j) r = G (rd32 hw r))
    (k i : Nat) (hw : igc_hw) (h1 : i ≤ j) (h2 : j < i + k) :
    rd32 (igc_tsn_enable_queues c adapter k i hw) r = G (rd32 hw r) := by
  induction k generalizing i hw with
  | zero => omega
  | succ k ih =>
    simp only [igc_tsn_enable_queues]
    by_cases hij : i = j
    · subst hij
      rw [enable_queues_rd32_other c adapter k (i + 1) _ r
        (fun l hl1 _ => by rw [hr]; intro h; injection h with h; omega)]
      exact hG hw
    · rw [ih (i + 1) _ (by omega) (by omega)]
      rw [enable_queue_rd32_other c adapter hw i r (by rw [hr]; intro h; injection h with h; omega)]

/-- The same for the whole first part of the enabler, for a queue below `num_tx_queues`. -/
theorem enable_buffers_and_queues_rd32_queue (c : igc_defines) (adapter : igc_adapter) (r : Reg)
    (j : Nat) (G : Nat → Nat) (hr : r.queue = some j)
    (hG : ∀ hw, rd32 (igc_tsn_enable_queue c adapter hw j) r = G (rd32 hw r))
    (hj : j < adapter.num_tx_queues) :
    rd32 (igc_tsn_enable_buffers_and_queues c adapter) r = G (rd32 adapter.hw r) := by
  have h1 : r ≠ .GTXOFFSET := by rintro rfl; cases hr
  have h2 : r ≠ .TSAUXC := by rintro rfl; cases hr
  have h3 : r ≠ .DTXMXPKTSZ := by rintro rfl; cases hr
  have h4 : r ≠ .TXPBS := by rintro rfl; cases hr
  have h5 : r ≠ .RXPBS := by rintro rfl; cases hr
  unfold igc_tsn_enable_buffers_and_queues
  simp only []
  rw [enable_queues_rd32_queue c adapter r j G hr hG _ 0 _ (Nat.zero_le j) (by omega)]
  simp only [rd32_wr32, h1, h2, h3, h4, h5, if_false]

/-- The last part of the enabler leaves the per-queue registers alone, however the call ends. -/
theorem enable_offload_rd32_queue (c : igc_defines) (adapter : igc_adapter) (r : Reg) (j : Nat)
    (hr : r.queue = some j) :
    rd32 (igc_tsn_enable_offload c adapter).adapter.hw r
      = rd32 (igc_tsn_enable_buffers_and_queues c adapter) r := by
  have h1 : r ≠ .TQAVCTRL := by rintro rfl; cases hr
  have h2 : r ≠ .QBVCYCLET_S := by rintro rfl; cases hr
  have h3 : r ≠ .QBVCYCLET := by rintro rfl; cases hr
  have h4 : r ≠ .BASET_H := by rintro rfl; cases hr
  have h5 : r ≠ .BASET_L := by rintro rfl; cases hr
  unfold igc_tsn_enable_offload
  simp only []
  split
  · rfl
  · simp only [Outcome.adapter]
    exact program_rd32_other c _ _ _ _ r h1 h2 h3 h4 h5

/-- A per-queue register after the enabler, for a queue below `num_tx_queues`. -/
theorem enable_offload_rd32_queue_eq (c : igc_defines) (adapter : igc_adapter) (r : Reg)
    (j : Nat) (G : Nat → Nat) (hr : r.queue = some j)
    (hG : ∀ hw, rd32 (igc_tsn_enable_queue c adapter hw j) r = G (rd32 hw r))
    (hj : j < adapter.num_tx_queues) :
    rd32 (igc_tsn_enable_offload c adapter).adapter.hw r = G (rd32 adapter.hw r) := by
  rw [enable_offload_rd32_queue c adapter r j hr,
    enable_buffers_and_queues_rd32_queue c adapter r j G hr hG hj]

theorem or32_lt (x m : Nat) : or32 x m < 4294967296 := u32_lt _

/-- The loop body on `TQAVCC` of a shaped queue 0 or 1. -/
theorem enable_queue_TQAVCC_cbs (c : igc_defines) (adapter : igc_adapter) (hw : igc_hw)
    (i : Nat) (hi : i ≤ 1) (hcbs : (adapter.tx_ring i).cbs_enable = true) :
    rd32 (igc_tsn_enable_queue c adapter hw i) (.TQAVCC i) =
      or32 (and_not32 (rd32 hw (.TQAVCC i)) c.IGC_TQAVCC_IDLESLOPE_MASK)
        (u16 (DIV_ROUND_UP_ULL (u64 (u64_of_int (adapter.tx_ring i).idleslope * 61036)) 2500000)
          ||| c.IGC_TQAVCC_KEEP_CREDITS) := by
  unfold igc_tsn_enable_queue
  simp only []
  rw [if_neg (by omega), if_pos hcbs]
  simp [rd32_wr32, u32_of_lt (or32_lt _ _)]

/-- The loop body on `TQAVHC` of a shaped queue 0 or 1. -/
theorem enable_queue_TQAVHC_cbs (c : igc_defines) (adapter : igc_adapter) (hw : igc_hw)
    (i : Nat) (hi : i ≤ 1) (hcbs : (adapter.tx_ring i).cbs_enable = true) :
    rd32 (igc_tsn_enable_queue c adapter hw i) (.TQAVHC i) =
      u32_of_int (0x80000000 + s32 ((adapter.tx_ring i).hicredit * 0x7736)) := by
  unfold igc_tsn_enable_queue
  simp only []
  rw [if_neg (by omega), if_pos hcbs]
  simp [rd32_wr32, u32_u32_of_int]

theorem txqctl_mode_bits_lt (c : igc_defines) (adapter : igc_adapter) (i : Nat) :
    txqctl_mode_bits c adapter i < 4294967296 := by
  unfold txqctl_mode_bits
  simp only []
  split
  · exact or32_lt _ _
  · split <;> exact or32_lt _ _

/-- The loop body on the registers of a queue with index above 1: the shaper registers are
not written, and `TXQCTL` gets the mode bits only. -/
theorem enable_queue_skip_cbs (c : igc_defines) (adapter : igc_adapter) (hw : igc_hw)
    (i : Nat) (hi : 1 < i) :
    rd32 (igc_tsn_enable_queue c adapter hw i) (.TQAVCC i) = rd32 hw (.TQAVCC i) ∧
    rd32 (igc_tsn_enable_queue c adapter hw i) (.TQAVHC i) = rd32 hw (.TQAVHC i) ∧
    rd32 (igc_tsn_enable_queue c adapter hw i) (.TXQCTL i) = txqctl_mode_bits c adapter i := by
  have hlt := txqctl_mode_bits_lt c adapter i
  unfold txqctl_mode_bits at hlt ⊢
  unfold igc_tsn_enable_queue
  simp only [] at hlt ⊢
  rw [if_pos hi]
  refine ⟨by simp [rd32_wr32], by simp [rd32_wr32], ?_⟩
  rw [rd32_wr32_same]
  exact u32_of_lt hlt

/-! ## Bit-level facts for the shaper registers -/

theorem testBit_mask16 (i : Nat) : (65535 : Nat).testBit i = decide (i < 16) :=
  Nat.testBit_two_pow_sub_one 16 i

theorem testBit_ge16 {k i : Nat} (hk : k < 65536) (hi : 16 ≤ i) : k.testBit i = false := by
  apply Nat.testBit_lt_two_pow
  calc k < 2 ^ 16 := hk
    _ ≤ 2 ^ i := Nat.pow_le_pow_right (by decide) hi

/-- The idle-slope field after `tqavcc &= ~MASK; tqavcc |= cbs_value | KEEP_CREDITS`. -/
theorem tqavcc_idleslope_field (old cbs keep : Nat) (hcbs : cbs < 65536)
    (hkeep : keep &&& 65535 = 0) :
    or32 (and_not32 old 65535) (cbs ||| keep) &&& 65535 = cbs := by
  apply Nat.eq_of_testBit_eq
  intro i
  have hk := (and_eq_zero_iff_testBit keep 65535).1 hkeep i
  rw [testBit_mask16] at hk
  rw [Nat.testBit_and, testBit_or32, testBit_and_not32, Nat.testBit_or, testBit_mask16]
  by_cases hi : i < 16
  · have hi32 : i < 32 := by omega
    simp only [hi, decide_True, Bool.and_true] at hk
    simp [hi, hi32, hk]
  · rw [testBit_ge16 hcbs (Nat.le_of_not_lt hi)]
    simp [hi]

/-- The keep-credits bits after `tqavcc |= cbs_value | KEEP_CREDITS`. -/
theorem tqavcc_keep_credits (x cbs keep : Nat) (hkeep : keep < 4294967296) :
    or32 x (cbs ||| keep) &&& keep = keep := by
  apply Nat.eq_of_testBit_eq
  intro i
  rw [Nat.testBit_and, testBit_or32, Nat.testBit_or]
  by_cases hi : i < 32
  · cases x.testBit i <;> cases cbs.testBit i <;> cases keep.testBit i <;> simp [hi]
  · rw [testBit_ge32 hkeep (Nat.le_of_not_lt hi)]
    simp

/-- The bits of `TQAVCC` outside the idle-slope field and the keep-credits mask are kept. -/
theorem tqavcc_other_bits (old cbs keep : Nat) (hcbs : cbs < 65536) :
    and_not32 (or32 (and_not32 old 65535) (cbs ||| keep)) (65535 ||| keep)
      = and_not32 old (65535 ||| keep) := by
  apply Nat.eq_of_testBit_eq
  intro i
  rw [testBit_and_not32, testBit_or32, testBit_and_not32, testBit_and_not32, Nat.testBit_or,
    Nat.testBit_or, testBit_mask16]
  by_cases hi : i < 16
  · simp [hi]
  · rw [testBit_ge16 hcbs (Nat.le_of_not_lt hi)]
    cases old.testBit i <;> cases keep.testBit i <;> cases decide (i < 32) <;> simp [hi]

/-- The idle-slope encoding without wrap-around or truncation, for
`0 ≤ idleslope ≤ 2,500,000`. -/
theorem cbs_value_eq (idleslope : Int) (h0 : 0 ≤ idleslope) (h1 : idleslope ≤ 2500000) :
    u16 (DIV_ROUND_UP_ULL (u64 (u64_of_int idleslope * 61036)) 2500000)
      = (idleslope.toNat * 61036 + 2499999) / 2500000 ∧
    DIV_ROUND_UP_ULL (u64 (u64_of_int idleslope * 61036)) 2500000
      = (idleslope.toNat * 61036 + 2499999) / 2500000 ∧
    (idleslope.toNat * 61036 + 2499999) / 2500000 ≤ 61036 := by
  unfold u16 DIV_ROUND_UP_ULL u64 u64_of_int
  have ht : (idleslope % 18446744073709551616).toNat = idleslope.toNat := by omega
  rw [ht]
  have hle : idleslope.toNat ≤ 2500000 := by omega
  generalize idleslope.toNat = t at hle ⊢
  have e1 : t * 61036 % 18446744073709551616 = t * 61036 := Nat.mod_eq_of_lt (by omega)
  have e2 : (t * 61036 + 2500000 - 1) % 18446744073709551616 = t * 61036 + 2499999 :=
    Nat.mod_eq_of_lt (by omega)
  have e3 : (t * 61036 + 2499999) / 2500000 ≤ 61036 := by omega
  rw [e1, e2]
  exact ⟨Nat.mod_eq_of_lt (by omega), rfl, e3⟩

/-- The quotient `(x * 61036 + 2499999) / 2500000` is the ceiling of `x * 61036 / 2500000`. -/
theorem cbs_value_ceil (idleslope : Int) (h0 : 0 ≤ idleslope) :
    (((idleslope.toNat * 61036 + 2499999) / 2500000 : Nat) : Int)
      = ⌈((idleslope : ℚ) * 61036) / 2500000⌉ := by
  symm
  rw [Int.ceil_eq_iff]
  have ht : ((idleslope.toNat : Nat) : Int) = idleslope := Int.toNat_of_nonneg h0
  generalize hn : (idleslope.toNat * 61036 + 2499999) / 2500000 = n
  have hlo : (n : Int) * 2500000 - 2500000 < idleslope * 61036 := by omega
  have hhi : idleslope * 61036 ≤ (n : Int) * 2500000 := by omega
  constructor
  · rw [lt_div_iff₀ (by norm_num)]
    have : (((n : Int) * 2500000 - 2500000 : Int) : ℚ) < ((idleslope * 61036 : Int) : ℚ) := by
      exact_mod_cast hlo
    push_cast at this
    push_cast
    linarith
  · rw [div_le_iff₀ (by norm_num)]
    have : ((idleslope * 61036 : Int) : ℚ) ≤ (((n : Int) * 2500000 : Int) : ℚ) := by
      exact_mod_cast hhi
    push_cast at this
    push_cast
    linarith

/-! ## The register image after the disabler -/

theorem disable_queues_rd32 (k i : Nat) (hw : igc_hw) (r : Reg) :
    rd32 (igc_tsn_disable_queues k i hw) r =
      match r with
      | .TXQCTL j => if i ≤ j ∧ j < i + k then 0 else rd32 hw r
      | .STQT j => if i ≤ j ∧ j < i + k then 0 else rd32 hw r
      | .ENDQT j => if i ≤ j ∧ j < i + k then 1000000000 else rd32 hw r
      | _ => rd32 hw r := by
  induction k generalizing i hw with
  | zero =>
    have hno : ∀ j, ¬ (i ≤ j ∧ j < i) := fun j h => by omega
    cases r <;> simp only [igc_tsn_disable_queues, Nat.add_zero, hno, if_false]
  | succ k ih =>
    simp only [igc_tsn_disable_queues]
    rw [ih]
    cases r with
    | TXQCTL j =>
      simp only [rd32_wr32, Reg.TXQCTL.injEq, reduceCtorEq, if_false]
      by_cases h1 : j = i
      · subst h1
        simp [u32]
      · by_cases h2 : i + 1 ≤ j ∧ j < i + 1 + k
        · rw [if_pos h2, if_pos (by omega)]
        · rw [if_neg h2, if_neg h1, if_neg (by omega)]
    | STQT j =>
      simp only [rd32_wr32, Reg.STQT.injEq, reduceCtorEq, if_false]
      by_cases h1 : j = i
      · subst h1
        simp [u32]
      · by_cases h2 : i + 1 ≤ j ∧ j < i + 1 + k
        · rw [if_pos h2, if_pos (by omega)]
        · rw [if_neg h2, if_neg h1, if_neg (by omega)]
    | ENDQT j =>
      simp only [rd32_wr32, Reg.ENDQT.injEq, reduceCtorEq, if_false]
      by_cases h1 : j = i
      · subst h1
        simp [u32, NSEC_PER_SEC]
      · by_cases h2 : i + 1 ≤ j ∧ j < i + 1 + k
        · rw [if_pos h2, if_pos (by omega)]
        · rw [if_neg h2, if_neg h1, if_neg (by omega)]
    | _ => simp [rd32_wr32]

/-- Every register after the disabler, in terms of the registers before. -/
theorem disable_offload_rd32 (c : igc_defines) (adapter : igc_adapter) (r : Reg) :
    rd32 (igc_tsn_disable_offload c adapter).2.hw r =
      disabled_reg c adapter.num_tx_queues (rd32 adapter.hw) r := by
  unfold igc_tsn_disable_offload disabled_reg
  simp only [rd32_wr32, disable_queues_rd32]
  cases r <;>
    simp [rd32_wr32, u32_of_lt (or32_lt _ _), u32_of_lt (and_not32_lt _ _), NSEC_PER_SEC]
  all_goals exact u32_of_lt (by decide)

theorem and_not32_idem (x m : Nat) : and_not32 (and_not32 x m) m = and_not32 x m := by
  apply Nat.eq_of_testBit_eq
  intro i
  rw [testBit_and_not32, testBit_and_not32]
  cases x.testBit i <;> cases m.testBit i <;> cases decide (i < 32) <;> rfl

theorem or32_and_not32_idem (x m d : Nat) :
    or32 (and_not32 (or32 (and_not32 x m) d) m) d = or32 (and_not32 x m) d := by
  apply Nat.eq_of_testBit_eq
  intro i
  rw [testBit_or32, testBit_and_not32, testBit_or32, testBit_and_not32]
  cases x.testBit i <;> cases m.testBit i <;> cases d.testBit i <;> cases decide (i < 32) <;> rfl

/-- The disabler's register image is a fixed point: applying `disabled_reg` to it gives it
back. -/
theorem disabled_reg_idem (c : igc_defines) (n : Nat) (old : Reg → Nat) (r : Reg) :
    disabled_reg c n (disabled_reg c n old) r = disabled_reg c n old r := by
  cases r <;> simp only [disabled_reg, and_not32_idem, or32_and_not32_idem]
  all_goals split <;> rfl

theorem disable_queues_device_id (k i : Nat) (hw : igc_hw) :
    (igc_tsn_disable_queues k i hw).device_id = hw.device_id := by
  induction k generalizing i hw with
  | zero => rfl
  | succ k ih =>
    simp only [igc_tsn_disable_queues]
    rw [ih]
    rfl

theorem disable_offload_device_id (c : igc_defines) (adapter : igc_adapter) :
    (igc_tsn_disable_offload c adapter).2.hw.device_id = adapter.hw.device_id := by
  unfold igc_tsn_disable_offload
  simp only [wr32_device_id, disable_queues_device_id]

/-- The fields of the adapter that the disabler only reads. -/
theorem disable_offload_same_config (c : igc_defines) (adapter : igc_adapter) :
    same_config (igc_tsn_disable_offload c adapter).2 adapter :=
  ⟨rfl, rfl, rfl, rfl, rfl, rfl, rfl, rfl, rfl, disable_offload_device_id c adapter⟩

/-! ## The adapter fields the enabler leaves alone -/

theorem program_device_id (c : igc_defines) (hw : igc_hw) (tqavctrl cycle : Nat)
    (base_time : Int) :
    (igc_tsn_enable_program c hw tqavctrl cycle base_time).device_id = hw.device_id := by
  unfold igc_tsn_enable_program
  simp only []
  split <;> rfl

/-- The enabler changes no adapter field other than the register bank and the error counter. -/
theorem enable_offload_fields (c : igc_defines) (adapter : igc_adapter) :
    same_config (igc_tsn_enable_offload c adapter).adapter adapter ∧
    (igc_tsn_enable_offload c adapter).adapter.flags = adapter.flags ∧
    (igc_tsn_enable_offload c adapter).adapter.add_frag_size = adapter.add_frag_size := by
  by_cases hs : adapter.base_time < systim_of adapter.hw
  · by_cases hz : u32_of_int adapter.cycle_time = 0
    · rw [enable_offload_fault c _ hs hz]
      exact ⟨⟨rfl, rfl, rfl, rfl, rfl, rfl, rfl, rfl, rfl,
        enable_buffers_and_queues_device_id c adapter⟩, rfl, rfl⟩
    · rw [enable_offload_past c _ hs hz]
      simp only [Outcome.adapter]
      have hdev := enable_buffers_and_queues_device_id c adapter
      split
      · exact ⟨⟨rfl, rfl, rfl, rfl, rfl, rfl, rfl, rfl, rfl,
          (program_device_id c _ _ _ _).trans hdev⟩, rfl, rfl⟩
      · exact ⟨⟨rfl, rfl, rfl, rfl, rfl, rfl, rfl, rfl, rfl,
          (program_device_id c _ _ _ _).trans hdev⟩, rfl, rfl⟩
  · rw [enable_offload_future c _ (by omega)]
    exact ⟨⟨rfl, rfl, rfl, rfl, rfl, rfl, rfl, rfl, rfl,
      (program_device_id c _ _ _ _).trans (enable_buffers_and_queues_device_id c adapter)⟩,
      rfl, rfl⟩

/-! ## The writes the enabler issues -/

theorem wr_seq_wr32 (hw : igc_hw) (r r' : Reg) (v : Nat) :
    wr_seq (wr32 hw r v) r' = if r' = r then wr_seq hw r' ++ [u32 v] else wr_seq hw r' := by
  unfold wr_seq wr32
  by_cases h : r' = r
  · subst h
    simp [List.filter_append]
  · have h' : ¬ r = r' := fun e => h e.symm
    simp [List.filter_append, h, h']

theorem enable_queue_wr_seq_other (c : igc_defines) (adapter : igc_adapter) (hw : igc_hw)
    (i : Nat) (r : Reg) (h : r.queue = none) :
    wr_seq (igc_tsn_enable_queue c adapter hw i) r = wr_seq hw r := by
  have h1 : r ≠ .STQT i := by rintro rfl; cases h
  have h2 : r ≠ .ENDQT i := by rintro rfl; cases h
  have h3 : r ≠ .TXQCTL i := by rintro rfl; cases h
  have h4 : r ≠ .TQAVCC i := by rintro rfl; cases h
  have h5 : r ≠ .TQAVHC i := by rintro rfl; cases h
  unfold igc_tsn_enable_queue
  simp only []
  split
  · simp only [wr_seq_wr32, h1, h2, h3, if_false]
  · split
    · simp only [wr_seq_wr32, h1, h2, h3, h4, h5, if_false]
    · simp only [wr_seq_wr32, h1, h2, h3, h4, h5, if_false]

theorem enable_queues_wr_seq_other (c : igc_defines) (adapter : igc_adapter) (k i : Nat)
    (hw : igc_hw) (r : Reg) (h : r.queue = none) :
    wr_seq (igc_tsn_enable_queues c adapter k i hw) r = wr_seq hw r := by
  induction k generalizing i hw with
  | zero => rfl
  | succ k ih =>
    simp only [igc_tsn_enable_queues]
    rw [ih, enable_queue_wr_seq_other c adapter hw i r h]

theorem enable_buffers_and_queues_wr_seq (c : igc_defines) (adapter : igc_adapter) (r : Reg)
    (hq : r.queue = none) (h1 : r ≠ .GTXOFFSET) (h2 : r ≠ .TSAUXC) (h3 : r ≠ .DTXMXPKTSZ)
    (h4 : r ≠ .TXPBS) (h5 : r ≠ .RXPBS) :
    wr_seq (igc_tsn_enable_buffers_and_queues c adapter) r = wr_seq adapter.hw r := by
  unfold igc_tsn_enable_buffers_and_queues
  simp only []
  rw [enable_queues_wr_seq_other _ _ _ _ _ _ hq]
  simp only [wr_seq_wr32, h1, h2, h3, h4, h5, if_false]

theorem program_wr_seq_TQAVCTRL (c : igc_defines) (hw : igc_hw) (tqavctrl cycle : Nat)
    (base_time : Int) :
    wr_seq (igc_tsn_enable_program c hw tqavctrl cycle base_time) .TQAVCTRL
      = wr_seq hw .TQAVCTRL ++ [u32 tqavctrl] := by
  unfold igc_tsn_enable_program
  simp only []
  split <;> simp [wr_seq_wr32]

theorem program_wr_seq_BASET_L (c : igc_defines) (hw : igc_hw) (tqavctrl cycle : Nat)
    (base_time : Int) :
    wr_seq (igc_tsn_enable_program c hw tqavctrl cycle base_time) .BASET_L
      = wr_seq hw .BASET_L ++
        (if tqavctrl &&& c.IGC_TQAVCTRL_FUTSCDDIS ≠ 0
          then [0, u32_of_int (Int.tmod base_time 1000000000)]
          else [u32_of_int (Int.tmod base_time 1000000000)]) := by
  unfold igc_tsn_enable_program
  simp only []
  split <;> simp [wr_seq_wr32, u32_u32_of_int, div_s64_rem, NSEC_PER_SEC, u32] <;>
    exact u32_of_int_lt _

theorem tqavctrl_value_lt (c : igc_defines) (old frag : Nat) (fpa futs : Bool) :
    tqavctrl_value c old frag fpa futs < 4294967296 := by
  unfold tqavctrl_value
  simp only []
  split <;> exact or32_lt _ _

/-- The value of `tqavctrl` before the clock is sampled. -/
theorem enable_tqavctrl_value (c : igc_defines) (adapter : igc_adapter) (hw : igc_hw) :
    (igc_tsn_enable_tqavctrl c adapter hw).1
      = tqavctrl_value c (rd32 hw .TQAVCTRL) (frag_size_bits c adapter)
        adapter.frame_preemption_active false := by
  unfold igc_tsn_enable_tqavctrl tqavctrl_value frag_size_bits
  simp

/-- Adding the future-schedule-disable bit to the value built so far. -/
theorem tqavctrl_value_futs (c : igc_defines) (old frag : Nat) (fpa : Bool) :
    or32 (tqavctrl_value c old frag fpa false) c.IGC_TQAVCTRL_FUTSCDDIS
      = tqavctrl_value c old frag fpa true := by
  unfold tqavctrl_value
  simp

/-! ## The enabler's last writes in closed form -/

theorem enable_base_time_future (c : igc_defines) (adapter : igc_adapter)
    (h : systim_of adapter.hw ≤ adapter.base_time) :
    enable_base_time c adapter = adapter.base_time := by
  unfold enable_base_time
  simp only []
  rw [enable_sync_future _ _ _ _ _ _ (by rw [enable_offload_systim]; exact h)]

theorem enable_base_time_past (c : igc_defines) (adapter : igc_adapter)
    (h : adapter.base_time < systim_of adapter.hw) (hc : u32_of_int adapter.cycle_time ≠ 0) :
    enable_base_time c adapter =
      ktime_add_ns adapter.base_time
        (s64 (s64 (s64 (Int.tdiv (ktime_sub_ns (systim_of adapter.hw) adapter.base_time)
          ((u32_of_int adapter.cycle_time : Nat) : Int)) + 1) *
            ((u32_of_int adapter.cycle_time : Nat) : Int))) := by
  unfold enable_base_time
  simp only []
  rw [enable_sync_past _ _ _ _ _ _ (by rw [enable_offload_systim]; exact h) hc]
  simp only [enable_offload_systim]

/-- With `0 < cycle_time < 2^32` and `base_time ≥ 0`, the base time after the synchronisation
step is the synchronised base time of the specification. -/
theorem enable_base_time_eq (c : igc_defines) (adapter : igc_adapter)
    (hc0 : 0 < adapter.cycle_time) (hc1 : adapter.cycle_time < 4294967296)
    (hb : 0 ≤ adapter.base_time) :
    enable_base_time c adapter =
      synchronised_base_time adapter.base_time (systim_of adapter.hw) adapter.cycle_time := by
  have hcyc : ((u32_of_int adapter.cycle_time : Nat) : Int) = adapter.cycle_time :=
    u32_of_int_of_range (by omega) hc1
  have hcyc0 : u32_of_int adapter.cycle_time ≠ 0 := by
    intro h0
    rw [h0] at hcyc
    simp at hcyc
    omega
  unfold synchronised_base_time
  by_cases hs : adapter.base_time < systim_of adapter.hw
  · rw [if_pos hs, enable_base_time_past c adapter hs hcyc0]
    have hadv := advance_base_time adapter.base_time (systim_of adapter.hw)
      (u32_of_int adapter.cycle_time) hb hs (systim_of_lt _) (by omega) (u32_of_int_lt _)
    rw [hcyc] at hadv
    rw [hcyc]
    exact hadv
  · rw [if_neg hs, enable_base_time_future c adapter (by omega)]

/-- When the enabler does not stop at the division, it returns 0 and its last writes program
the value `tqavctrl_value` and the base time `enable_base_time`. -/
theorem enable_offload_returned_form (c : igc_defines) (adapter : igc_adapter)
    (h : u32_of_int adapter.cycle_time ≠ 0 ∨ systim_of adapter.hw ≤ adapter.base_time) :
    ∃ a, igc_tsn_enable_offload c adapter = .returned 0 a ∧
      a.hw = igc_tsn_enable_program c (igc_tsn_enable_buffers_and_queues c adapter)
        (tqavctrl_value c (rd32 adapter.hw .TQAVCTRL) (frag_size_bits c adapter)
          adapter.frame_preemption_active (futscddis_wanted c adapter))
        (u32_of_int adapter.cycle_time) (enable_base_time c adapter) := by
  have htq : rd32 (igc_tsn_enable_buffers_and_queues c adapter) .TQAVCTRL
      = rd32 adapter.hw .TQAVCTRL :=
    enable_buffers_and_queues_rd32 c adapter .TQAVCTRL rfl (by decide) (by decide) (by decide)
      (by decide) (by decide)
  by_cases hs : systim_of adapter.hw ≤ adapter.base_time
  · refine ⟨_, enable_offload_future c adapter hs, ?_⟩
    simp only [enable_tqavctrl_value, htq, enable_base_time_future c adapter hs]
    have hw : futscddis_wanted c adapter
        = (c.igc_is_device_id_i226 adapter.hw.device_id &&
            !(rd32 adapter.hw .BASET_H != 0 || rd32 adapter.hw .BASET_L != 0)) := by
      unfold futscddis_wanted
      simp [hs]
    rw [hw]
    cases hcond : (c.igc_is_device_id_i226 adapter.hw.device_id &&
        !(rd32 adapter.hw .BASET_H != 0 || rd32 adapter.hw .BASET_L != 0))
    · simp
    · simp [tqavctrl_value_futs]
  · have hc : u32_of_int adapter.cycle_time ≠ 0 := by
      rcases h with h | h
      · exact h
      · exact absurd h hs
    refine ⟨_, enable_offload_past c adapter (by omega) hc, ?_⟩
    have hw : futscddis_wanted c adapter = false := by
      unfold futscddis_wanted
      simp [hs]
    simp only [enable_tqavctrl_value, htq, hw, enable_base_time_past c adapter (by omega) hc]

/-- When the enabler stops at the division, it has written neither `TQAVCTRL` nor a base-time
register. -/
theorem enable_offload_fault_form (c : igc_defines) (adapter : igc_adapter)
    (hs : adapter.base_time < systim_of adapter.hw) (hc : u32_of_int adapter.cycle_time = 0) :
    (igc_tsn_enable_offload c adapter).is_fault = true ∧
    wr_seq (igc_tsn_enable_offload c adapter).adapter.hw .TQAVCTRL
      = wr_seq adapter.hw .TQAVCTRL ∧
    wr_seq (igc_tsn_enable_offload c adapter).adapter.hw .BASET_L
      = wr_seq adapter.hw .BASET_L := by
  rw [enable_offload_fault c adapter hs hc]
  refine ⟨rfl, ?_, ?_⟩
  · exact enable_buffers_and_queues_wr_seq c adapter .TQAVCTRL rfl (by decide) (by decide)
      (by decide) (by decide) (by decide)
  · exact enable_buffers_and_queues_wr_seq c adapter .BASET_L rfl (by decide) (by decide)
      (by decide) (by decide) (by decide)

/-! ## Bit-level facts for the shaping-control register -/

theorem testBit_tqavctrl_value (c : igc_defines) (old frag : Nat) (fpa futs : Bool) (i : Nat) :
    (tqavctrl_value c old frag fpa futs).testBit i =
      (decide (i < 32) &&
        ((old.testBit i && !(c.IGC_TQAVCTRL_FUTSCDDIS.testBit i ||
            c.IGC_TQAVCTRL_MIN_FRAG_MASK.testBit i || c.IGC_TQAVCTRL_PREEMPT_ENA.testBit i)) ||
          (c.IGC_TQAVCTRL_TRANSMIT_MODE_TSN.testBit i ||
            c.IGC_TQAVCTRL_ENHANCED_QAV.testBit i) ||
          (fpa && c.IGC_TQAVCTRL_PREEMPT_ENA.testBit i) || frag.testBit i ||
          (futs && c.IGC_TQAVCTRL_FUTSCDDIS.testBit i))) := by
  unfold tqavctrl_value
  cases fpa <;> cases futs <;>
    simp only [Bool.false_eq_true, if_false, if_true, testBit_or32, testBit_and_not32,
      Nat.testBit_or] <;>
    cases decide (i < 32) <;> cases old.testBit i <;>
    cases c.IGC_TQAVCTRL_FUTSCDDIS.testBit i <;> cases c.IGC_TQAVCTRL_MIN_FRAG_MASK.testBit i <;>
    cases c.IGC_TQAVCTRL_PREEMPT_ENA.testBit i <;>
    cases c.IGC_TQAVCTRL_TRANSMIT_MODE_TSN.testBit i <;>
    cases c.IGC_TQAVCTRL_ENHANCED_QAV.testBit i <;> cases frag.testBit i <;> rfl

theorem testBit_lt_two_pow_of_le {k s i : Nat} (hk : k < 2 ^ s) (hi : s ≤ i) :
    k.testBit i = false := by
  apply Nat.testBit_lt_two_pow
  calc k < 2 ^ s := hk
    _ ≤ 2 ^ i := Nat.pow_le_pow_right (by decide) hi

/-- The fragment-size encoding has no bit below the field position. -/
theorem frag_size_bits_and_low (c : igc_defines) (adapter : igc_adapter) (k : Nat)
    (hk : k < 2 ^ c.IGC_TQAVCTRL_MIN_FRAG_SHIFT) :
    ∀ i, ((frag_size_bits c adapter).testBit i && k.testBit i) = false := by
  intro i
  unfold frag_size_bits
  rw [testBit_u32, Nat.testBit_shiftLeft]
  by_cases hi : c.IGC_TQAVCTRL_MIN_FRAG_SHIFT ≤ i
  · rw [testBit_lt_two_pow_of_le hk hi]
    simp
  · simp [hi]

/-- When the multiplier fits its field, the encoding is the shifted multiplier and lies in the
field mask. -/
theorem frag_size_bits_of_fits (c : igc_defines) (adapter : igc_adapter)
    (hm : c.IGC_TQAVCTRL_MIN_FRAG_MASK < 4294967296) (hfit : frag_size_fits c adapter) :
    frag_size_bits c adapter
      = u32 (c.ethtool_frag_size_to_mult adapter.add_frag_size)
          <<< c.IGC_TQAVCTRL_MIN_FRAG_SHIFT ∧
    ∀ i, (frag_size_bits c adapter).testBit i = true →
      c.IGC_TQAVCTRL_MIN_FRAG_MASK.testBit i = true := by
  unfold frag_size_fits at hfit
  have hlt : u32 (c.ethtool_frag_size_to_mult adapter.add_frag_size)
      <<< c.IGC_TQAVCTRL_MIN_FRAG_SHIFT < 4294967296 := by
    rw [← hfit]
    exact Nat.lt_of_le_of_lt Nat.and_le_right hm
  have heq : frag_size_bits c adapter
      = u32 (c.ethtool_frag_size_to_mult adapter.add_frag_size)
          <<< c.IGC_TQAVCTRL_MIN_FRAG_SHIFT := by
    unfold frag_size_bits
    exact u32_of_lt hlt
  refine ⟨heq, ?_⟩
  intro i hi
  rw [heq, ← hfit, Nat.testBit_and] at hi
  simp only [Bool.and_eq_true] at hi
  exact hi.2

/-- The bits of the value built for `TQAVCTRL` inside a mask `k` that is one of the four mode
masks: the bit of the mask is set exactly when the enabler ORs that mask in. -/
theorem tqavctrl_value_and (c : igc_defines) (adapter : igc_adapter) (old : Nat)
    (fpa futs : Bool) (hc : tqavctrl_bits_ok c) :
    tqavctrl_value c old (frag_size_bits c adapter) fpa futs
        &&& c.IGC_TQAVCTRL_TRANSMIT_MODE_TSN = c.IGC_TQAVCTRL_TRANSMIT_MODE_TSN ∧
    tqavctrl_value c old (frag_size_bits c adapter) fpa futs
        &&& c.IGC_TQAVCTRL_ENHANCED_QAV = c.IGC_TQAVCTRL_ENHANCED_QAV ∧
    tqavctrl_value c old (frag_size_bits c adapter) fpa futs &&& c.IGC_TQAVCTRL_PREEMPT_ENA
      = (if fpa = true then c.IGC_TQAVCTRL_PREEMPT_ENA else 0) ∧
    tqavctrl_value c old (frag_size_bits c adapter) fpa futs &&& c.IGC_TQAVCTRL_FUTSCDDIS
      = (if futs = true then c.IGC_TQAVCTRL_FUTSCDDIS else 0) := by
  obtain ⟨⟨lT, lE, lF, lP, _⟩, ⟨sT, sE, sF, sP⟩, _, ⟨dFT, dFE, dFP, dPT, dPE⟩, _⟩ := hc
  refine ⟨?_, ?_, ?_, ?_⟩
  · apply Nat.eq_of_testBit_eq
    intro i
    rw [Nat.testBit_and, testBit_tqavctrl_value]
    by_cases hi : i < 32
    · simp only [hi, decide_True, Bool.true_and]
      generalize c.IGC_TQAVCTRL_TRANSMIT_MODE_TSN.testBit i = t
      cases t <;> simp
    · rw [testBit_ge32 lT (Nat.le_of_not_lt hi)]
      simp
  · apply Nat.eq_of_testBit_eq
    intro i
    rw [Nat.testBit_and, testBit_tqavctrl_value]
    by_cases hi : i < 32
    · simp only [hi, decide_True, Bool.true_and]
      generalize c.IGC_TQAVCTRL_ENHANCED_QAV.testBit i = t
      cases t <;> simp
    · rw [testBit_ge32 lE (Nat.le_of_not_lt hi)]
      simp
  · apply Nat.eq_of_testBit_eq
    intro i
    have h1 := (and_eq_zero_iff_testBit _ _).1 dFP i
    have h2 := (and_eq_zero_iff_testBit _ _).1 dPT i
    have h3 := (and_eq_zero_iff_testBit _ _).1 dPE i
    have h4 := frag_size_bits_and_low c adapter _ sP i
    have h5 : decide (i < 32) = false → c.IGC_TQAVCTRL_PREEMPT_ENA.testBit i = false := by
      intro h
      exact testBit_ge32 lP (by simpa using h)
    have hrhs : (if fpa = true then c.IGC_TQAVCTRL_PREEMPT_ENA else 0).testBit i
        = (fpa && c.IGC_TQAVCTRL_PREEMPT_ENA.testBit i) := by
      cases fpa <;> simp
    rw [Nat.testBit_and, testBit_tqavctrl_value, hrhs]
    clear hrhs
    generalize decide (i < 32) = b at h5 ⊢
    generalize old.testBit i = o
    generalize (frag_size_bits c adapter).testBit i = f at h4 ⊢
    generalize c.IGC_TQAVCTRL_FUTSCDDIS.testBit i = xf at h1 ⊢
    generalize c.IGC_TQAVCTRL_MIN_FRAG_MASK.testBit i = xm
    generalize c.IGC_TQAVCTRL_PREEMPT_ENA.testBit i = xp at h1 h2 h3 h4 h5 ⊢
    generalize c.IGC_TQAVCTRL_TRANSMIT_MODE_TSN.testBit i = xt at h2 ⊢
    generalize c.IGC_TQAVCTRL_ENHANCED_QAV.testBit i = xe at h3 ⊢
    revert b o f xf xm xp xt xe fpa futs
    decide
  · apply Nat.eq_of_testBit_eq
    intro i
    have h1 := (and_eq_zero_iff_testBit _ _).1 dFP i
    have h2 := (and_eq_zero_iff_testBit _ _).1 dFT i
    have h3 := (and_eq_zero_iff_testBit _ _).1 dFE i
    have h4 := frag_size_bits_and_low c adapter _ sF i
    have h5 : decide (i < 32) = false → c.IGC_TQAVCTRL_FUTSCDDIS.testBit i = false := by
      intro h
      exact testBit_ge32 lF (by simpa using h)
    have hrhs : (if futs = true then c.IGC_TQAVCTRL_FUTSCDDIS else 0).testBit i
        = (futs && c.IGC_TQAVCTRL_FUTSCDDIS.testBit i) := by
      cases futs <;> simp
    rw [Nat.testBit_and, testBit_tqavctrl_value, hrhs]
    clear hrhs
    generalize decide (i < 32) = b at h5 ⊢
    generalize old.testBit i = o
    generalize (frag_size_bits c adapter).testBit i = f at h4 ⊢
    generalize c.IGC_TQAVCTRL_FUTSCDDIS.testBit i = xf at h1 h2 h3 h4 h5 ⊢
    generalize c.IGC_TQAVCTRL_MIN_FRAG_MASK.testBit i = xm
    generalize c.IGC_TQAVCTRL_PREEMPT_ENA.testBit i = xp at h1 ⊢
    generalize c.IGC_TQAVCTRL_TRANSMIT_MODE_TSN.testBit i = xt at h2 ⊢
    generalize c.IGC_TQAVCTRL_ENHANCED_QAV.testBit i = xe at h3 ⊢
    revert b o f xf xm xp xt xe fpa futs
    decide

/-- When the multiplier fits its field, the field of the value built for `TQAVCTRL` holds the
encoding, and the bits outside the five masks are those of the old register value. -/
theorem tqavctrl_value_field (c : igc_defines) (adapter : igc_adapter) (old : Nat)
    (fpa futs : Bool) (hc : tqavctrl_bits_ok c) (hfit : frag_size_fits c adapter) :
    tqavctrl_value c old (frag_size_bits c adapter) fpa futs &&& c.IGC_TQAVCTRL_MIN_FRAG_MASK
      = frag_size_bits c adapter ∧
    and_not32 (tqavctrl_value c old (frag_size_bits c adapter) fpa futs)
        (c.IGC_TQAVCTRL_TRANSMIT_MODE_TSN ||| c.IGC_TQAVCTRL_ENHANCED_QAV |||
          c.IGC_TQAVCTRL_FUTSCDDIS ||| c.IGC_TQAVCTRL_PREEMPT_ENA |||
          c.IGC_TQAVCTRL_MIN_FRAG_MASK)
      = and_not32 old
        (c.IGC_TQAVCTRL_TRANSMIT_MODE_TSN ||| c.IGC_TQAVCTRL_ENHANCED_QAV |||
          c.IGC_TQAVCTRL_FUTSCDDIS ||| c.IGC_TQAVCTRL_PREEMPT_ENA |||
          c.IGC_TQAVCTRL_MIN_FRAG_MASK) := by
  obtain ⟨⟨_, _, _, _, lM⟩, _, _, _, ⟨mT, mE, mF, mP⟩⟩ := hc
  obtain ⟨_, hsub⟩ := frag_size_bits_of_fits c adapter lM hfit
  constructor
  · apply Nat.eq_of_testBit_eq
    intro i
    have h1 := (and_eq_zero_iff_testBit _ _).1 mT i
    have h2 := (and_eq_zero_iff_testBit _ _).1 mE i
    have h3 := (and_eq_zero_iff_testBit _ _).1 mF i
    have h4 := (and_eq_zero_iff_testBit _ _).1 mP i
    have h5 := hsub i
    have h6 : decide (i < 32) = false → c.IGC_TQAVCTRL_MIN_FRAG_MASK.testBit i = false := by
      intro h
      exact testBit_ge32 lM (by simpa using h)
    rw [Nat.testBit_and, testBit_tqavctrl_value]
    generalize decide (i < 32) = b at h6 ⊢
    generalize old.testBit i = o
    generalize (frag_size_bits c adapter).testBit i = f at h5 ⊢
    generalize c.IGC_TQAVCTRL_FUTSCDDIS.testBit i = xf at h3 ⊢
    generalize c.IGC_TQAVCTRL_MIN_FRAG_MASK.testBit i = xm at h1 h2 h3 h4 h5 h6 ⊢
    generalize c.IGC_TQAVCTRL_PREEMPT_ENA.testBit i = xp at h4 ⊢
    generalize c.IGC_TQAVCTRL_TRANSMIT_MODE_TSN.testBit i = xt at h1 ⊢
    generalize c.IGC_TQAVCTRL_ENHANCED_QAV.testBit i = xe at h2 ⊢
    revert b o f xf xm xp xt xe fpa futs
    decide
  · apply Nat.eq_of_testBit_eq
    intro i
    have h5 := hsub i
    simp only [testBit_and_not32, testBit_tqavctrl_value, Nat.testBit_or]
    generalize decide (i < 32) = b
    generalize old.testBit i = o
    generalize (frag_size_bits c adapter).testBit i = f at h5 ⊢
    generalize c.IGC_TQAVCTRL_FUTSCDDIS.testBit i = xf
    generalize c.IGC_TQAVCTRL_MIN_FRAG_MASK.testBit i = xm at h5 ⊢
    generalize c.IGC_TQAVCTRL_PREEMPT_ENA.testBit i = xp
    generalize c.IGC_TQAVCTRL_TRANSMIT_MODE_TSN.testBit i = xt
    generalize c.IGC_TQAVCTRL_ENHANCED_QAV.testBit i = xe
    revert b o f xf xm xp xt xe fpa futs
    decide

/-- The bits of the value built for `TQAVCTRL` outside the five masks, for any encoding
`frag`: those of the old register value, together with the bits of `frag` that lie outside the
five masks. -/
theorem tqavctrl_value_frame (c : igc_defines) (old frag : Nat) (fpa futs : Bool) :
    and_not32 (tqavctrl_value c old frag fpa futs)
        (c.IGC_TQAVCTRL_TRANSMIT_MODE_TSN ||| c.IGC_TQAVCTRL_ENHANCED_QAV |||
          c.IGC_TQAVCTRL_FUTSCDDIS ||| c.IGC_TQAVCTRL_PREEMPT_ENA |||
          c.IGC_TQAVCTRL_MIN_FRAG_MASK)
      = and_not32 old
          (c.IGC_TQAVCTRL_TRANSMIT_MODE_TSN ||| c.IGC_TQAVCTRL_ENHANCED_QAV |||
            c.IGC_TQAVCTRL_FUTSCDDIS ||| c.IGC_TQAVCTRL_PREEMPT_ENA |||
            c.IGC_TQAVCTRL_MIN_FRAG_MASK) |||
        and_not32 frag
          (c.IGC_TQAVCTRL_TRANSMIT_MODE_TSN ||| c.IGC_TQAVCTRL_ENHANCED_QAV |||
            c.IGC_TQAVCTRL_FUTSCDDIS ||| c.IGC_TQAVCTRL_PREEMPT_ENA |||
            c.IGC_TQAVCTRL_MIN_FRAG_MASK) := by
  apply Nat.eq_of_testBit_eq
  intro i
  simp only [testBit_and_not32, testBit_tqavctrl_value, Nat.testBit_or]
  generalize decide (i < 32) = b
  generalize old.testBit i = o
  generalize frag.testBit i = f
  generalize c.IGC_TQAVCTRL_FUTSCDDIS.testBit i = xf
  generalize c.IGC_TQAVCTRL_MIN_FRAG_MASK.testBit i = xm
  generalize c.IGC_TQAVCTRL_PREEMPT_ENA.testBit i = xp
  generalize c.IGC_TQAVCTRL_TRANSMIT_MODE_TSN.testBit i = xt
  generalize c.IGC_TQAVCTRL_ENHANCED_QAV.testBit i = xe
  revert b o f xf xm xp xt xe fpa futs
  decide

/-! ## The queue-control register: value and bits -/

theorem txqctl_value_lt (c : igc_defines) (adapter : igc_adapter) (i : Nat) :
    txqctl_value c adapter i < 4294967296 := by
  unfold txqctl_value
  simp only []
  split
  · exact txqctl_mode_bits_lt c adapter i
  · split
    · split <;> exact or32_lt _ _
    · exact and_not32_lt _ _

/-- The loop body of the enabler leaves `txqctl_value` in `TXQCTL(i)` and the gate window in
`STQT(i)` and `ENDQT(i)`, whatever the registers held. -/
theorem enable_queue_window_and_control (c : igc_defines) (adapter : igc_adapter) (hw : igc_hw)
    (i : Nat) :
    rd32 (igc_tsn_enable_queue c adapter hw i) (.STQT i) = u32 (adapter.tx_ring i).start_time ∧
    rd32 (igc_tsn_enable_queue c adapter hw i) (.ENDQT i) = u32 (adapter.tx_ring i).end_time ∧
    rd32 (igc_tsn_enable_queue c adapter hw i) (.TXQCTL i) = txqctl_value c adapter i := by
  have hlt := txqctl_value_lt c adapter i
  unfold txqctl_value txqctl_mode_bits at hlt ⊢
  unfold igc_tsn_enable_queue
  simp only [] at hlt ⊢
  split
  · rename_i h1
    rw [if_pos h1] at hlt
    refine ⟨by simp [rd32_wr32], by simp [rd32_wr32], ?_⟩
    rw [rd32_wr32_same]
    exact u32_of_lt hlt
  · rename_i h1
    rw [if_neg h1] at hlt
    split
    · rename_i h2
      rw [if_pos h2] at hlt
      refine ⟨by simp [rd32_wr32], by simp [rd32_wr32], ?_⟩
      rw [rd32_wr32_same]
      exact u32_of_lt hlt
    · rename_i h2
      rw [if_neg h2] at hlt
      refine ⟨by simp [rd32_wr32], by simp [rd32_wr32], ?_⟩
      rw [rd32_wr32_same]
      exact u32_of_lt hlt

theorem testBit_txqctl_mode_bits (c : igc_defines) (adapter : igc_adapter) (i j : Nat) :
    (txqctl_mode_bits c adapter i).testBit j =
      (decide (j < 32) &&
        (c.IGC_TXQCTL_STRICT_CYCLE.testBit j || c.IGC_TXQCTL_STRICT_END.testBit j ||
          ((adapter.tx_ring i).launchtime_enable &&
            c.IGC_TXQCTL_QUEUE_MODE_LAUNCHT.testBit j) ||
          ((adapter.frame_preemption_active && (adapter.tx_ring i).preemptible) &&
            c.IGC_TXQCTL_PREEMPTABLE.testBit j))) := by
  unfold txqctl_mode_bits
  cases (adapter.tx_ring i).launchtime_enable <;>
    cases (adapter.frame_preemption_active && (adapter.tx_ring i).preemptible) <;>
    simp only [Bool.false_eq_true, if_false, if_true, testBit_or32, Nat.testBit_or,
      Nat.zero_testBit] <;>
    cases decide (j < 32) <;> cases c.IGC_TXQCTL_STRICT_CYCLE.testBit j <;>
    cases c.IGC_TXQCTL_STRICT_END.testBit j <;>
    cases c.IGC_TXQCTL_QUEUE_MODE_LAUNCHT.testBit j <;>
    cases c.IGC_TXQCTL_PREEMPTABLE.testBit j <;> rfl

/-- The selector the enabler chooses for queue `i`: CBS0 for a shaped queue 0, CBS1 for a shaped
queue 1, none otherwise. -/
theorem testBit_txqctl_value (c : igc_defines) (adapter : igc_adapter) (i j : Nat) :
    (txqctl_value c adapter i).testBit j =
      if 1 < i then (txqctl_mode_bits c adapter i).testBit j
      else if (adapter.tx_ring i).cbs_enable = true then
        (if i = 0 then
          (decide (j < 32) &&
            ((txqctl_mode_bits c adapter i).testBit j || c.IGC_TXQCTL_QAV_SEL_CBS0.testBit j))
        else
          (decide (j < 32) &&
            ((txqctl_mode_bits c adapter i).testBit j || c.IGC_TXQCTL_QAV_SEL_CBS1.testBit j)))
      else ((txqctl_mode_bits c adapter i).testBit j &&
        (decide (j < 32) && !c.IGC_TXQCTL_QAV_SEL_MASK.testBit j)) := by
  unfold txqctl_value
  simp only []
  split
  · rfl
  · split
    · split <;> rw [testBit_or32]
    · rw [testBit_and_not32]

theorem or32_and_of_lt (x m k : Nat) (hx : x < 4294967296) (hm : m < 4294967296) :
    or32 x m &&& k = (x &&& k) ||| (m &&& k) := by
  apply Nat.eq_of_testBit_eq
  intro i
  rw [Nat.testBit_and, testBit_or32, Nat.testBit_or, Nat.testBit_and, Nat.testBit_and]
  by_cases hi : i < 32
  · simp [hi, Bool.and_or_distrib_right]
  · rw [testBit_ge32 hx (Nat.le_of_not_lt hi), testBit_ge32 hm (Nat.le_of_not_lt hi)]
    simp

theorem and_eq_zero_of_sub (s x m : Nat) (hs : s &&& m = s) (hx : x &&& m = 0) :
    s &&& x = 0 := by
  rw [← hs, Nat.and_assoc, Nat.and_comm m x, hx, Nat.and_zero]

/-- The mode bits of `TXQCTL(i)`, mask by mask. -/
theorem txqctl_mode_bits_facts (c : igc_defines) (adapter : igc_adapter) (i : Nat)
    (hc : txqctl_fields_ok c) :
    txqctl_mode_bits c adapter i &&& c.IGC_TXQCTL_STRICT_CYCLE = c.IGC_TXQCTL_STRICT_CYCLE ∧
    txqctl_mode_bits c adapter i &&& c.IGC_TXQCTL_STRICT_END = c.IGC_TXQCTL_STRICT_END ∧
    txqctl_mode_bits c adapter i &&& c.IGC_TXQCTL_QUEUE_MODE_LAUNCHT
      = (if (adapter.tx_ring i).launchtime_enable = true
          then c.IGC_TXQCTL_QUEUE_MODE_LAUNCHT else 0) ∧
    txqctl_mode_bits c adapter i &&& c.IGC_TXQCTL_PREEMPTABLE
      = (if (adapter.frame_preemption_active && (adapter.tx_ring i).preemptible) = true
          then c.IGC_TXQCTL_PREEMPTABLE else 0) ∧
    txqctl_mode_bits c adapter i &&& c.IGC_TXQCTL_QAV_SEL_MASK = 0 := by
  obtain ⟨⟨lSC, lSE, lL, lP, _, _⟩, _, ⟨dLC, dLE, dLP, dPC, dPE⟩, ⟨mC, mE, mL, mP⟩, _⟩ := hc
  refine ⟨?_, ?_, ?_, ?_, ?_⟩
  · apply Nat.eq_of_testBit_eq
    intro j
    rw [Nat.testBit_and, testBit_txqctl_mode_bits]
    by_cases hj : j < 32
    · simp only [hj, decide_True, Bool.true_and]
      generalize c.IGC_TXQCTL_STRICT_CYCLE.testBit j = t
      cases t <;> simp
    · rw [testBit_ge32 lSC (Nat.le_of_not_lt hj)]
      simp
  · apply Nat.eq_of_testBit_eq
    intro j
    rw [Nat.testBit_and, testBit_txqctl_mode_bits]
    by_cases hj : j < 32
    · simp only [hj, decide_True, Bool.true_and]
      generalize c.IGC_TXQCTL_STRICT_END.testBit j = t
      cases t <;> simp
    · rw [testBit_ge32 lSE (Nat.le_of_not_lt hj)]
      simp
  · apply Nat.eq_of_testBit_eq
    intro j
    have h1 := (and_eq_zero_iff_testBit _ _).1 dLC j
    have h2 := (and_eq_zero_iff_testBit _ _).1 dLE j
    have h3 := (and_eq_zero_iff_testBit _ _).1 dLP j
    have h5 : decide (j < 32) = false → c.IGC_TXQCTL_QUEUE_MODE_LAUNCHT.testBit j = false := by
      intro h
      exact testBit_ge32 lL (by simpa using h)
    have hrhs : (if (adapter.tx_ring i).launchtime_enable = true
          then c.IGC_TXQCTL_QUEUE_MODE_LAUNCHT else 0).testBit j
        = ((adapter.tx_ring i).launchtime_enable &&
            c.IGC_TXQCTL_QUEUE_MODE_LAUNCHT.testBit j) := by
      cases (adapter.tx_ring i).launchtime_enable <;> simp
    rw [Nat.testBit_and, testBit_txqctl_mode_bits, hrhs]
    clear hrhs
    generalize decide (j < 32) = b at h5 ⊢
    generalize (adapter.tx_ring i).launchtime_enable = la
    generalize (adapter.frame_preemption_active && (adapter.tx_ring i).preemptible) = pr
    generalize c.IGC_TXQCTL_QUEUE_MODE_LAUNCHT.testBit j = xl at h1 h2 h3 h5 ⊢
    generalize c.IGC_TXQCTL_STRICT_CYCLE.testBit j = xc at h1 ⊢
    generalize c.IGC_TXQCTL_STRICT_END.testBit j = xe at h2 ⊢
    generalize c.IGC_TXQCTL_PREEMPTABLE.testBit j = xp at h3 ⊢
    revert b la pr xl xc xe xp
    decide
  · apply Nat.eq_of_testBit_eq
    intro j
    have h1 := (and_eq_zero_iff_testBit _ _).1 dPC j
    have h2 := (and_eq_zero_iff_testBit _ _).1 dPE j
    have h3 := (and_eq_zero_iff_testBit _ _).1 dLP j
    have h5 : decide (j < 32) = false → c.IGC_TXQCTL_PREEMPTABLE.testBit j = false := by
      intro h
      exact testBit_ge32 lP (by simpa using h)
    have hrhs : (if (adapter.frame_preemption_active && (adapter.tx_ring i).preemptible) = true
          then c.IGC_TXQCTL_PREEMPTABLE else 0).testBit j
        = ((adapter.frame_preemption_active && (adapter.tx_ring i).preemptible) &&
            c.IGC_TXQCTL_PREEMPTABLE.testBit j) := by
      cases (adapter.frame_preemption_active && (adapter.tx_ring i).preemptible) <;> simp
    rw [Nat.testBit_and, testBit_txqctl_mode_bits, hrhs]
    clear hrhs
    generalize decide (j < 32) = b at h5 ⊢
    generalize (adapter.tx_ring i).launchtime_enable = la
    generalize (adapter.frame_preemption_active && (adapter.tx_ring i).preemptible) = pr
    generalize c.IGC_TXQCTL_PREEMPTABLE.testBit j = xp at h1 h2 h3 h5 ⊢
    generalize c.IGC_TXQCTL_QUEUE_MODE_LAUNCHT.testBit j = xl at h3 ⊢
    generalize c.IGC_TXQCTL_STRICT_CYCLE.testBit j = xc at h1 ⊢
    generalize c.IGC_TXQCTL_STRICT_END.testBit j = xe at h2 ⊢
    revert b la pr xl xc xe xp
    decide
  · rw [and_eq_zero_iff_testBit]
    intro j
    have h1 := (and_eq_zero_iff_testBit _ _).1 mC j
    have h2 := (and_eq_zero_iff_testBit _ _).1 mE j
    have h3 := (and_eq_zero_iff_testBit _ _).1 mL j
    have h4 := (and_eq_zero_iff_testBit _ _).1 mP j
    rw [testBit_txqctl_mode_bits]
    generalize decide (j < 32) = b
    generalize (adapter.tx_ring i).launchtime_enable = la
    generalize (adapter.frame_preemption_active && (adapter.tx_ring i).preemptible) = pr
    generalize c.IGC_TXQCTL_QAV_SEL_MASK.testBit j = xm at h1 h2 h3 h4 ⊢
    generalize c.IGC_TXQCTL_PREEMPTABLE.testBit j = xp at h4 ⊢
    generalize c.IGC_TXQCTL_QUEUE_MODE_LAUNCHT.testBit j = xl at h3 ⊢
    generalize c.IGC_TXQCTL_STRICT_CYCLE.testBit j = xc at h1 ⊢
    generalize c.IGC_TXQCTL_STRICT_END.testBit j = xe at h2 ⊢
    revert b la pr xl xc xe xp xm
    decide

/-- The bits of `txqctl_value` inside a mask `k` outside the selector field are those of the mode
bits, and its selector field holds the selector chosen for the queue. -/
theorem txqctl_value_facts (c : igc_defines) (adapter : igc_adapter) (i : Nat)
    (hc : txqctl_fields_ok c) :
    (∀ k, k &&& c.IGC_TXQCTL_QAV_SEL_MASK = 0 →
      txqctl_value c adapter i &&& k = txqctl_mode_bits c adapter i &&& k) ∧
    txqctl_value c adapter i &&& c.IGC_TXQCTL_QAV_SEL_MASK
      = (if 1 < i then 0
        else if (adapter.tx_ring i).cbs_enable = true then
          (if i = 0 then c.IGC_TXQCTL_QAV_SEL_CBS0 else c.IGC_TXQCTL_QAV_SEL_CBS1)
        else 0) := by
  have hmode := (txqctl_mode_bits_facts c adapter i hc).2.2.2.2
  obtain ⟨⟨_, _, _, _, l0, l1⟩, _, _, _, ⟨s0, s1⟩⟩ := hc
  have hlt := txqctl_mode_bits_lt c adapter i
  unfold txqctl_value
  simp only []
  constructor
  · intro k hk
    split
    · rfl
    · split
      · split
        · rw [or32_and_of_lt _ _ _ hlt l0, and_eq_zero_of_sub _ _ _ s0 hk, Nat.or_zero]
        · rw [or32_and_of_lt _ _ _ hlt l1, and_eq_zero_of_sub _ _ _ s1 hk, Nat.or_zero]
      · exact and_not32_and_disjoint _ _ _ hlt hk
  · split
    · exact hmode
    · split
      · split
        · rw [or32_and_of_lt _ _ _ hlt l0, hmode, s0, Nat.zero_or]
        · rw [or32_and_of_lt _ _ _ hlt l1, hmode, s1, Nat.zero_or]
      · exact and_not32_and_eq_zero _ _ _ (Nat.and_self _)

/-! ## Reset orchestrator -/

/-- C2 (as amended): unless a TSN feature is requested while the clock sample is later than
`base_time` and the 32-bit cycle value is zero, `igc_tsn_reset` returns 0 and leaves
`adapter.flags` equal to `igc_tsn_new_flags` of the state before the call; the state is the
disabler's when that flag word has no TSN bit, and otherwise the enabler's with the new flag word
stored. -/
theorem igc_tsn_reset_result (c : igc_defines) (adapter : igc_adapter) (hc : flag_bits_ok c)
    (hdiv : igc_tsn_new_flags c adapter &&& c.IGC_FLAG_TSN_ANY_ENABLED = 0 ∨
      u32_of_int adapter.cycle_time ≠ 0 ∨ systim_of adapter.hw ≤ adapter.base_time) :
    ∃ a, igc_tsn_reset c adapter = .returned 0 a ∧
      a.flags = igc_tsn_new_flags c adapter ∧
      (igc_tsn_new_flags c adapter &&& c.IGC_FLAG_TSN_ANY_ENABLED = 0 →
        a = (igc_tsn_disable_offload c adapter).2) ∧
      (igc_tsn_new_flags c adapter &&& c.IGC_FLAG_TSN_ANY_ENABLED ≠ 0 →
        ∃ a1, igc_tsn_enable_offload c adapter = .returned 0 a1 ∧
          a = { a1 with flags := igc_tsn_new_flags c adapter }) := by
  by_cases hany : igc_tsn_new_flags c adapter &&& c.IGC_FLAG_TSN_ANY_ENABLED = 0
  · refine ⟨(igc_tsn_disable_offload c adapter).2, ?_, ?_, fun _ => rfl, fun h => absurd hany h⟩
    · unfold igc_tsn_reset igc_tsn_reset_with
      simp only [hany, if_true]
      rfl
    · rw [new_flags_eq_of_no_tsn c adapter hc hany]
      rfl
  · have hret : ∃ a1, igc_tsn_enable_offload c adapter = .returned 0 a1 := by
      apply enable_offload_returns
      rcases hdiv with h | h
      · exact absurd h hany
      · exact h
    obtain ⟨a1, ha1⟩ := hret
    refine ⟨{ a1 with flags := igc_tsn_new_flags c adapter }, ?_, rfl,
      fun h => absurd h hany, fun _ => ⟨a1, ha1, rfl⟩⟩
    unfold igc_tsn_reset igc_tsn_reset_with
    simp only [hany, if_false, ha1]
    rfl

/-- C2, at a concrete input: with queues 0 to 2 shaped and a one-second cycle, the reset
returns 0 with the new flag word stored. -/
theorem igc_tsn_reset_result_witness :
    ∃ a, igc_tsn_reset igc_headers adapter_cbs = .returned 0 a ∧
      a.flags = igc_tsn_new_flags igc_headers adapter_cbs ∧
      (igc_tsn_new_flags igc_headers adapter_cbs &&& igc_headers.IGC_FLAG_TSN_ANY_ENABLED = 0 →
        a = (igc_tsn_disable_offload igc_headers adapter_cbs).2) ∧
      (igc_tsn_new_flags igc_headers adapter_cbs &&& igc_headers.IGC_FLAG_TSN_ANY_ENABLED ≠ 0 →
        ∃ a1, igc_tsn_enable_offload igc_headers adapter_cbs = .returned 0 a1 ∧
          a = { a1 with flags := igc_tsn_new_flags igc_headers adapter_cbs }) :=
  igc_tsn_reset_result igc_headers adapter_cbs (by decide) (Or.inr (Or.inl (by decide)))

/-- C2, where it fails as stated: on an adapter with `qbv_enable`, `cycle_time = 0`,
`base_time = 0` and the clock at 1 ns, `igc_tsn_reset` takes the enabler path and stops at the
division by the cycle; it does not return, and `adapter.flags` stays 0 although
`igc_tsn_new_flags` is the QBV bit. -/
theorem igc_tsn_reset_zero_cycle_fault :
    (igc_tsn_reset igc_headers adapter_zero_cycle).is_fault = true ∧
    (igc_tsn_reset igc_headers adapter_zero_cycle).adapter.flags = 0 ∧
    igc_tsn_new_flags igc_headers adapter_zero_cycle = 0x20000 := by
  decide

/-! ## Clock synchronisation: the past-scheduled case -/

/-- C3 (as amended): with `0 < cycle_time < 2^32`, `base_time ≥ 0`, a clock sample later than
`base_time`, and an advanced base time below `2^32 * 10^9` ns (so that its seconds fit
`BASET_H`), the enabler returns 0 and programs
`base_time + ((systim - base_time) / cycle_time + 1) * cycle_time` into `BASET_H`/`BASET_L`
(`BASET_L < 10^9`); that value is later than the clock sample, at most one cycle later, and a
whole number of cycles after `base_time`. -/
theorem enable_offload_past_base_time (c : igc_defines) (adapter : igc_adapter)
    (hc0 : 0 < adapter.cycle_time) (hc1 : adapter.cycle_time < 4294967296)
    (hb : 0 ≤ adapter.base_time) (hs : adapter.base_time < systim_of adapter.hw)
    (hfit : adapter.base_time +
        ((systim_of adapter.hw - adapter.base_time) / adapter.cycle_time + 1) *
          adapter.cycle_time < 4294967296 * 1000000000) :
    ∃ a, igc_tsn_enable_offload c adapter = .returned 0 a ∧
      rd32 a.hw .BASET_L < 1000000000 ∧
      programmed_base_time a.hw = adapter.base_time +
        ((systim_of adapter.hw - adapter.base_time) / adapter.cycle_time + 1) *
          adapter.cycle_time ∧
      systim_of adapter.hw < programmed_base_time a.hw ∧
      programmed_base_time a.hw ≤ systim_of adapter.hw + adapter.cycle_time ∧
      adapter.cycle_time ∣ programmed_base_time a.hw - adapter.base_time := by
  have hcyc : ((u32_of_int adapter.cycle_time : Nat) : Int) = adapter.cycle_time :=
    u32_of_int_of_range (by omega) hc1
  have hcyc0 : u32_of_int adapter.cycle_time ≠ 0 := by
    intro h0
    rw [h0] at hcyc
    simp at hcyc
    omega
  have hadv := advance_base_time adapter.base_time (systim_of adapter.hw)
    (u32_of_int adapter.cycle_time) hb hs (systim_of_lt _) (by omega) (u32_of_int_lt _)
  rw [hcyc] at hadv
  have hq1 : (systim_of adapter.hw - adapter.base_time) / adapter.cycle_time * adapter.cycle_time
      ≤ systim_of adapter.hw - adapter.base_time := Int.ediv_mul_le _ (by omega)
  have hq2 : systim_of adapter.hw - adapter.base_time
      < ((systim_of adapter.hw - adapter.base_time) / adapter.cycle_time + 1) *
        adapter.cycle_time := Int.lt_ediv_add_one_mul_self _ hc0
  have hm : ((systim_of adapter.hw - adapter.base_time) / adapter.cycle_time + 1) *
        adapter.cycle_time
      = (systim_of adapter.hw - adapter.base_time) / adapter.cycle_time * adapter.cycle_time
        + adapter.cycle_time := by ring
  have hnb0 : 0 ≤ adapter.base_time +
      ((systim_of adapter.hw - adapter.base_time) / adapter.cycle_time + 1) *
        adapter.cycle_time := by omega
  refine ⟨_, enable_offload_past c adapter hs hcyc0, ?_⟩
  simp only [hcyc, hadv]
  obtain ⟨_, pL, pB⟩ := program_base_time c (igc_tsn_enable_buffers_and_queues c adapter)
    (igc_tsn_enable_tqavctrl c adapter (igc_tsn_enable_buffers_and_queues c adapter)).1
    (u32_of_int adapter.cycle_time) _ hnb0 hfit
  rw [pB]
  refine ⟨?_, rfl, by omega, by omega, ?_⟩
  · omega
  · exact ⟨(systim_of adapter.hw - adapter.base_time) / adapter.cycle_time + 1, by ring⟩

/-- C3, at the example of the specification: a cycle of 1,000,000 ns, base time 0 and the clock at
2,500,000 ns give `n = 2` and the programmed base time 3,000,000 ns. -/
theorem enable_offload_past_base_time_witness :
    (∃ a, igc_tsn_enable_offload igc_headers adapter_past_example = .returned 0 a ∧
      rd32 a.hw .BASET_L < 1000000000 ∧
      programmed_base_time a.hw = adapter_past_example.base_time +
        ((systim_of adapter_past_example.hw - adapter_past_example.base_time) /
          adapter_past_example.cycle_time + 1) * adapter_past_example.cycle_time ∧
      systim_of adapter_past_example.hw < programmed_base_time a.hw ∧
      programmed_base_time a.hw ≤
        systim_of adapter_past_example.hw + adapter_past_example.cycle_time ∧
      adapter_past_example.cycle_time ∣
        programmed_base_time a.hw - adapter_past_example.base_time) ∧
    systim_of adapter_past_example.hw = 2500000 ∧
    (systim_of adapter_past_example.hw - adapter_past_example.base_time) /
      adapter_past_example.cycle_time = 2 ∧
    programmed_base_time (igc_tsn_enable_offload igc_headers adapter_past_example).adapter.hw
      = 3000000 :=
  ⟨enable_offload_past_base_time igc_headers adapter_past_example (by decide) (by decide)
      (by decide) (by decide) (by decide),
    by decide, by decide, by decide⟩

/-- C3, where it fails as stated: with the clock at `SYSTIMH = 2^32 - 1`, `SYSTIML = 999,999,999`,
a cycle of one second and base time 0, the hypotheses of the claim hold and the next cycle
boundary is `2^32 * 10^9` ns, but its seconds do not fit the 32-bit `BASET_H`: the enabler
programs base time 0, which is before the clock sample. -/
theorem enable_offload_clock_end_wraps :
    (0 < adapter_clock_end.cycle_time ∧ adapter_clock_end.cycle_time < 4294967296 ∧
      0 ≤ adapter_clock_end.base_time ∧
      adapter_clock_end.base_time < systim_of adapter_clock_end.hw) ∧
    systim_of adapter_clock_end.hw = 4294967295999999999 ∧
    adapter_clock_end.base_time +
      ((systim_of adapter_clock_end.hw - adapter_clock_end.base_time) /
        adapter_clock_end.cycle_time + 1) * adapter_clock_end.cycle_time
      = 4294967296000000000 ∧
    (igc_tsn_enable_offload igc_headers adapter_clock_end).is_fault = false ∧
    programmed_base_time (igc_tsn_enable_offload igc_headers adapter_clock_end).adapter.hw
      = 0 := by
  decide

/-! ## Clock synchronisation: the programmed base time is not in the past -/

/-- C4 (as amended): with `0 < cycle_time < 2^32`, `base_time ≥ 0`, and a synchronised base time
below `2^32 * 10^9` ns (so that its seconds fit `BASET_H`), the enabler returns 0 and programs
the synchronised base time; it is never before the clock sample, and it is strictly later than
the clock sample unless the clock sample equals `base_time` exactly, in which case it equals the
clock sample. -/
theorem enable_offload_base_time_not_past (c : igc_defines) (adapter : igc_adapter)
    (hc0 : 0 < adapter.cycle_time) (hc1 : adapter.cycle_time < 4294967296)
    (hb : 0 ≤ adapter.base_time)
    (hfit : synchronised_base_time adapter.base_time (systim_of adapter.hw) adapter.cycle_time
      < 4294967296 * 1000000000) :
    ∃ a, igc_tsn_enable_offload c adapter = .returned 0 a ∧
      programmed_base_time a.hw =
        synchronised_base_time adapter.base_time (systim_of adapter.hw) adapter.cycle_time ∧
      systim_of adapter.hw ≤ programmed_base_time a.hw ∧
      (systim_of adapter.hw ≠ adapter.base_time →
        systim_of adapter.hw < programmed_base_time a.hw) ∧
      (systim_of adapter.hw = adapter.base_time →
        programmed_base_time a.hw = systim_of adapter.hw) := by
  by_cases hs : adapter.base_time < systim_of adapter.hw
  · have hsync : synchronised_base_time adapter.base_time (systim_of adapter.hw)
        adapter.cycle_time = adapter.base_time +
          ((systim_of adapter.hw - adapter.base_time) / adapter.cycle_time + 1) *
            adapter.cycle_time := by
      unfold synchronised_base_time
      rw [if_pos hs]
    rw [hsync] at hfit ⊢
    have hcyc : ((u32_of_int adapter.cycle_time : Nat) : Int) = adapter.cycle_time :=
      u32_of_int_of_range (by omega) hc1
    have hcyc0 : u32_of_int adapter.cycle_time ≠ 0 := by
      intro h0
      rw [h0] at hcyc
      simp at hcyc
      omega
    have hadv := advance_base_time adapter.base_time (systim_of adapter.hw)
      (u32_of_int adapter.cycle_time) hb hs (systim_of_lt _) (by omega) (u32_of_int_lt _)
    rw [hcyc] at hadv
    have hq2 : systim_of adapter.hw - adapter.base_time
        < ((systim_of adapter.hw - adapter.base_time) / adapter.cycle_time + 1) *
          adapter.cycle_time := Int.lt_ediv_add_one_mul_self _ hc0
    refine ⟨_, enable_offload_past c adapter hs hcyc0, ?_⟩
    simp only [hcyc, hadv]
    obtain ⟨_, _, pB⟩ := program_base_time c (igc_tsn_enable_buffers_and_queues c adapter)
      (igc_tsn_enable_tqavctrl c adapter (igc_tsn_enable_buffers_and_queues c adapter)).1
      (u32_of_int adapter.cycle_time) _ (by omega) hfit
    rw [pB]
    exact ⟨rfl, by omega, fun _ => by omega, fun h => by omega⟩
  · have hsync : synchronised_base_time adapter.base_time (systim_of adapter.hw)
        adapter.cycle_time = adapter.base_time := by
      unfold synchronised_base_time
      rw [if_neg hs]
    rw [hsync] at hfit ⊢
    refine ⟨_, enable_offload_future c adapter (by omega), ?_⟩
    simp only []
    obtain ⟨_, _, pB⟩ := program_base_time c (igc_tsn_enable_buffers_and_queues c adapter)
      (if (c.igc_is_device_id_i226 adapter.hw.device_id &&
            !(rd32 adapter.hw .BASET_H != 0 || rd32 adapter.hw .BASET_L != 0)) = true
        then or32 (igc_tsn_enable_tqavctrl c adapter
            (igc_tsn_enable_buffers_and_queues c adapter)).1 c.IGC_TQAVCTRL_FUTSCDDIS
        else (igc_tsn_enable_tqavctrl c adapter
            (igc_tsn_enable_buffers_and_queues c adapter)).1)
      (u32_of_int adapter.cycle_time) _ hb hfit
    rw [pB]
    exact ⟨rfl, by omega, fun h => by omega, fun h => h.symm⟩

/-- C4, at a concrete input: the example of the specification (cycle 1,000,000 ns, base time 0,
clock at 2,500,000 ns). -/
theorem enable_offload_base_time_not_past_witness :
    ∃ a, igc_tsn_enable_offload igc_headers adapter_past_example = .returned 0 a ∧
      programmed_base_time a.hw =
        synchronised_base_time adapter_past_example.base_time
          (systim_of adapter_past_example.hw) adapter_past_example.cycle_time ∧
      systim_of adapter_past_example.hw ≤ programmed_base_time a.hw ∧
      (systim_of adapter_past_example.hw ≠ adapter_past_example.base_time →
        systim_of adapter_past_example.hw < programmed_base_time a.hw) ∧
      (systim_of adapter_past_example.hw = adapter_past_example.base_time →
        programmed_base_time a.hw = systim_of adapter_past_example.hw) :=
  enable_offload_base_time_not_past igc_headers adapter_past_example (by decide) (by decide)
    (by decide) (by decide)

/-- C4, where it fails as stated.  First input: an i225 whose clock sample equals `base_time`
(5 ns): the enabler programs base time 5, which is not later than the clock sample, and the
future-schedule-disable bit is not set.  Second input: `base_time = 2^32 * 10^9 + 5` ns with the
clock at 10 ns: the seconds do not fit `BASET_H`, the enabler programs base time 5, which is
before the clock sample, and the future-schedule-disable bit is not set. -/
theorem enable_offload_base_time_counterexample :
    ((0 < adapter_clock_equal.cycle_time ∧ adapter_clock_equal.cycle_time < 4294967296 ∧
        0 ≤ adapter_clock_equal.base_time) ∧
      (igc_tsn_enable_offload igc_headers adapter_clock_equal).is_fault = false ∧
      systim_of adapter_clock_equal.hw = 5 ∧
      programmed_base_time (igc_tsn_enable_offload igc_headers adapter_clock_equal).adapter.hw
        = 5 ∧
      rd32 (igc_tsn_enable_offload igc_headers adapter_clock_equal).adapter.hw .TQAVCTRL
        &&& igc_headers.IGC_TQAVCTRL_FUTSCDDIS = 0) ∧
    ((0 < adapter_far_base.cycle_time ∧ adapter_far_base.cycle_time < 4294967296 ∧
        0 ≤ adapter_far_base.base_time) ∧
      (igc_tsn_enable_offload igc_headers adapter_far_base).is_fault = false ∧
      systim_of adapter_far_base.hw = 10 ∧
      programmed_base_time (igc_tsn_enable_offload igc_headers adapter_far_base).adapter.hw
        = 5 ∧
      rd32 (igc_tsn_enable_offload igc_headers adapter_far_base).adapter.hw .TQAVCTRL
        &&& igc_headers.IGC_TQAVCTRL_FUTSCDDIS = 0) := by
  decide

/-! ## Clock synchronisation: the future-scheduled case -/

/-- C5: with `0 ≤ base_time < 2^32 * 10^9` and a clock sample before `base_time`, the enabler
returns 0 and programs the base time unchanged: `BASET_H = base_time div 10^9`,
`BASET_L = base_time mod 10^9`, so `BASET_H * 10^9 + BASET_L = base_time`. -/
theorem enable_offload_future_base_time (c : igc_defines) (adapter : igc_adapter)
    (hb0 : 0 ≤ adapter.base_time) (hb1 : adapter.base_time < 4294967296 * 1000000000)
    (hs : systim_of adapter.hw < adapter.base_time) :
    ∃ a, igc_tsn_enable_offload c adapter = .returned 0 a ∧
      (rd32 a.hw .BASET_H : Int) = adapter.base_time / 1000000000 ∧
      (rd32 a.hw .BASET_L : Int) = adapter.base_time % 1000000000 ∧
      programmed_base_time a.hw = adapter.base_time := by
  refine ⟨_, enable_offload_future c adapter (by omega), ?_⟩
  exact program_base_time c _ _ _ _ hb0 hb1

/-- C5, at a concrete input: base time `7 * 10^9 + 250` ns with the clock at 3 s gives
`BASET_H = 7` and `BASET_L = 250`. -/
theorem enable_offload_future_base_time_witness :
    (∃ a, igc_tsn_enable_offload igc_headers adapter_future_example = .returned 0 a ∧
      (rd32 a.hw .BASET_H : Int) = adapter_future_example.base_time / 1000000000 ∧
      (rd32 a.hw .BASET_L : Int) = adapter_future_example.base_time % 1000000000 ∧
      programmed_base_time a.hw = adapter_future_example.base_time) ∧
    rd32 (igc_tsn_enable_offload igc_headers adapter_future_example).adapter.hw .BASET_H = 7 ∧
    rd32 (igc_tsn_enable_offload igc_headers adapter_future_example).adapter.hw .BASET_L = 250 :=
  ⟨enable_offload_future_base_time igc_headers adapter_future_example (by decide) (by decide)
      (by decide),
    by decide, by decide⟩

/-! ## The schedule-change error counter -/

/-- C6 (as amended): when the enabler does not stop at the division (`cycle_time` is not 0
modulo `2^32`, or the clock sample is not later than `base_time`), it returns 0; if the clock
sample is later than `base_time`, the base-time registers read non-zero, `tc_setup_type` is
`TC_SETUP_QDISC_TAPRIO`, and `TQAVCTRL` had the TSN-transmit-mode bit, all on the state before
the call, it increments `qbv_config_change_errors` as the fixed-width field that it is, which
is an increase by exactly one whenever the counter is below the maximum of the field; in every
other case the counter is unchanged. -/
theorem enable_offload_error_counter (c : igc_defines) (adapter : igc_adapter)
    (hc : tsn_mode_bit_ok c)
    (hnf : u32_of_int adapter.cycle_time ≠ 0 ∨ systim_of adapter.hw ≤ adapter.base_time) :
    ∃ a, igc_tsn_enable_offload c adapter = .returned 0 a ∧
      ((adapter.base_time < systim_of adapter.hw ∧
          (rd32 adapter.hw .BASET_H ≠ 0 ∨ rd32 adapter.hw .BASET_L ≠ 0) ∧
          adapter.tc_setup_type = c.TC_SETUP_QDISC_TAPRIO ∧
          rd32 adapter.hw .TQAVCTRL &&& c.IGC_TQAVCTRL_TRANSMIT_MODE_TSN ≠ 0) →
        a.qbv_config_change_errors
            = (adapter.qbv_config_change_errors + 1) % 2 ^ c.qbv_config_change_errors_width ∧
          (adapter.qbv_config_change_errors + 1 < 2 ^ c.qbv_config_change_errors_width →
            a.qbv_config_change_errors = adapter.qbv_config_change_errors + 1)) ∧
      (¬ (adapter.base_time < systim_of adapter.hw ∧
          (rd32 adapter.hw .BASET_H ≠ 0 ∨ rd32 adapter.hw .BASET_L ≠ 0) ∧
          adapter.tc_setup_type = c.TC_SETUP_QDISC_TAPRIO ∧
          rd32 adapter.hw .TQAVCTRL &&& c.IGC_TQAVCTRL_TRANSMIT_MODE_TSN ≠ 0) →
        a.qbv_config_change_errors = adapter.qbv_config_change_errors) := by
  by_cases hs : adapter.base_time < systim_of adapter.hw
  · have hcyc : u32_of_int adapter.cycle_time ≠ 0 := by
      rcases hnf with h | h
      · exact h
      · omega
    refine ⟨_, enable_offload_past c adapter hs hcyc, ?_⟩
    rw [enable_tqavctrl_reconfig c adapter _ hc,
      enable_buffers_and_queues_rd32 c adapter .TQAVCTRL rfl (by decide) (by decide) (by decide)
        (by decide) (by decide)]
    by_cases hcond : (rd32 adapter.hw .BASET_H ≠ 0 ∨ rd32 adapter.hw .BASET_L ≠ 0) ∧
        adapter.tc_setup_type = c.TC_SETUP_QDISC_TAPRIO ∧
        rd32 adapter.hw .TQAVCTRL &&& c.IGC_TQAVCTRL_TRANSMIT_MODE_TSN ≠ 0
    · have hb : ((rd32 adapter.hw .BASET_H != 0 || rd32 adapter.hw .BASET_L != 0) &&
          adapter.tc_setup_type == c.TC_SETUP_QDISC_TAPRIO &&
          decide (rd32 adapter.hw .TQAVCTRL &&& c.IGC_TQAVCTRL_TRANSMIT_MODE_TSN ≠ 0))
          = true := by
        simpa [and_assoc] using hcond
      rw [if_pos hb]
      exact ⟨fun _ => ⟨rfl, fun hmax => Nat.mod_eq_of_lt hmax⟩, fun h => absurd ⟨hs, hcond⟩ h⟩
    · have hb : ¬ ((rd32 adapter.hw .BASET_H != 0 || rd32 adapter.hw .BASET_L != 0) &&
          adapter.tc_setup_type == c.TC_SETUP_QDISC_TAPRIO &&
          decide (rd32 adapter.hw .TQAVCTRL &&& c.IGC_TQAVCTRL_TRANSMIT_MODE_TSN ≠ 0))
          = true := by
        simpa [and_assoc] using hcond
      rw [if_neg hb]
      exact ⟨fun h => absurd h.2 hcond, fun _ => rfl⟩
  · refine ⟨_, enable_offload_future c adapter (by omega), ?_⟩
    exact ⟨fun h => absurd h.1 hs, fun _ => rfl⟩

/-- C6, at concrete inputs: under taprio with a schedule running in TSN mode, a one-second cycle
and the clock past the base time, the enabler counts one error, from 0 to 1; from the all-zero
register bank it counts none. -/
theorem enable_offload_error_counter_witness :
    tsn_mode_bit_ok igc_headers ∧
    (u32_of_int (adapter_running 1000000000).cycle_time ≠ 0 ∨
      systim_of (adapter_running 1000000000).hw ≤ (adapter_running 1000000000).base_time) ∧
    (∃ a, igc_tsn_enable_offload igc_headers (adapter_running 1000000000) = .returned 0 a ∧
      (((adapter_running 1000000000).base_time < systim_of (adapter_running 1000000000).hw ∧
          (rd32 (adapter_running 1000000000).hw .BASET_H ≠ 0 ∨
            rd32 (adapter_running 1000000000).hw .BASET_L ≠ 0) ∧
          (adapter_running 1000000000).tc_setup_type = igc_headers.TC_SETUP_QDISC_TAPRIO ∧
          rd32 (adapter_running 1000000000).hw .TQAVCTRL &&&
            igc_headers.IGC_TQAVCTRL_TRANSMIT_MODE_TSN ≠ 0) →
        a.qbv_config_change_errors
            = ((adapter_running 1000000000).qbv_config_change_errors + 1) %
              2 ^ igc_headers.qbv_config_change_errors_width ∧
          ((adapter_running 1000000000).qbv_config_change_errors + 1
              < 2 ^ igc_headers.qbv_config_change_errors_width →
            a.qbv_config_change_errors
              = (adapter_running 1000000000).qbv_config_change_errors + 1)) ∧
      (¬ ((adapter_running 1000000000).base_time < systim_of (adapter_running 1000000000).hw ∧
          (rd32 (adapter_running 1000000000).hw .BASET_H ≠ 0 ∨
            rd32 (adapter_running 1000000000).hw .BASET_L ≠ 0) ∧
          (adapter_running 1000000000).tc_setup_type = igc_headers.TC_SETUP_QDISC_TAPRIO ∧
          rd32 (adapter_running 1000000000).hw .TQAVCTRL &&&
            igc_headers.IGC_TQAVCTRL_TRANSMIT_MODE_TSN ≠ 0) →
        a.qbv_config_change_errors = (adapter_running 1000000000).qbv_config_change_errors)) ∧
    ((adapter_running 1000000000).qbv_config_change_errors = 0 ∧
      ((igc_tsn_enable_offload igc_headers (adapter_running 1000000000)).adapter
        ).qbv_config_change_errors = 1) ∧
    ((igc_tsn_enable_offload igc_headers adapter_past_example).adapter
      ).qbv_config_change_errors = 0 :=
  ⟨by decide, Or.inl (by decide),
    enable_offload_error_counter igc_headers (adapter_running 1000000000) (by decide)
      (Or.inl (by decide)),
    by decide, by decide⟩

/-- C6, where it fails as stated, in two ways.  With `cycle_time = 2^32` (greater than 0),
base time 0, the clock at 1 ns, `BASET_L = 1`, taprio, and `TQAVCTRL` in TSN transmit mode, all
four conditions hold, but the 32-bit cycle is 0: the enabler stops at the division and the
counter is not increased.  With a one-second cycle, the same four conditions and the 32-bit
counter at its maximum `2^32 - 1`, the enabler returns 0 and the counter wraps to 0. -/
theorem enable_offload_error_counter_counterexample :
    ((0 < (adapter_running 4294967296).cycle_time ∧
        (adapter_running 4294967296).base_time < systim_of (adapter_running 4294967296).hw ∧
        rd32 (adapter_running 4294967296).hw .BASET_L ≠ 0 ∧
        (adapter_running 4294967296).tc_setup_type = igc_headers.TC_SETUP_QDISC_TAPRIO ∧
        rd32 (adapter_running 4294967296).hw .TQAVCTRL &&&
          igc_headers.IGC_TQAVCTRL_TRANSMIT_MODE_TSN ≠ 0) ∧
      (igc_tsn_enable_offload igc_headers (adapter_running 4294967296)).is_fault = true ∧
      ((igc_tsn_enable_offload igc_headers (adapter_running 4294967296)).adapter
        ).qbv_config_change_errors
          = (adapter_running 4294967296).qbv_config_change_errors) ∧
    ((0 < adapter_running_counter_max.cycle_time ∧
        adapter_running_counter_max.base_time < systim_of adapter_running_counter_max.hw ∧
        rd32 adapter_running_counter_max.hw .BASET_L ≠ 0 ∧
        adapter_running_counter_max.tc_setup_type = igc_headers.TC_SETUP_QDISC_TAPRIO ∧
        rd32 adapter_running_counter_max.hw .TQAVCTRL &&&
          igc_headers.IGC_TQAVCTRL_TRANSMIT_MODE_TSN ≠ 0) ∧
      adapter_running_counter_max.qbv_config_change_errors = 4294967295 ∧
      (igc_tsn_enable_offload igc_headers adapter_running_counter_max).is_fault = false ∧
      ((igc_tsn_enable_offload igc_headers adapter_running_counter_max).adapter
        ).qbv_config_change_errors = 0) := by
  decide

/-! ## First-time enable after a disable -/

/-- C7: with `cycle_time > 0`, running the disabler and then the enabler leaves
`qbv_config_change_errors` exactly as it was before the two calls, whatever the clock sample,
`base_time`, the base-time registers and `tc_setup_type` are; and when moreover
`cycle_time < 2^32` the enabler returns 0. -/
theorem disable_then_enable_error_counter (c : igc_defines) (adapter : igc_adapter)
    (hc0 : 0 < adapter.cycle_time) :
    ((igc_tsn_enable_offload c (igc_tsn_disable_offload c adapter).2).adapter
        ).qbv_config_change_errors = adapter.qbv_config_change_errors ∧
    (adapter.cycle_time < 4294967296 →
      ∃ a, igc_tsn_enable_offload c (igc_tsn_disable_offload c adapter).2 = .returned 0 a) := by
  have hcyc : (igc_tsn_disable_offload c adapter).2.cycle_time = adapter.cycle_time := rfl
  have herr : (igc_tsn_disable_offload c adapter).2.qbv_config_change_errors
      = adapter.qbv_config_change_errors := rfl
  constructor
  · by_cases hs : (igc_tsn_disable_offload c adapter).2.base_time
        < systim_of (igc_tsn_disable_offload c adapter).2.hw
    · by_cases hz : u32_of_int (igc_tsn_disable_offload c adapter).2.cycle_time = 0
      · rw [enable_offload_fault c _ hs hz]
        rfl
      · rw [enable_offload_past c _ hs hz, enable_tqavctrl_reconfig_after_disable]
        simp only [Bool.and_false, Bool.false_eq_true, if_false]
        rfl
    · rw [enable_offload_future c _ (by omega)]
      rfl
  · intro hc1
    apply enable_offload_returns
    left
    rw [hcyc]
    intro h0
    have := u32_of_int_of_range (by omega : 0 ≤ adapter.cycle_time) hc1
    rw [h0] at this
    simp at this
    omega

/-- C7, at a concrete input: a schedule running in TSN mode under taprio with the clock past the
base time, where the enabler alone would count an error; after the disabler it counts none. -/
theorem disable_then_enable_error_counter_witness :
    (((igc_tsn_enable_offload igc_headers
        (igc_tsn_disable_offload igc_headers (adapter_running 1000000000)).2).adapter
        ).qbv_config_change_errors = (adapter_running 1000000000).qbv_config_change_errors ∧
      ((adapter_running 1000000000).cycle_time < 4294967296 →
        ∃ a, igc_tsn_enable_offload igc_headers
          (igc_tsn_disable_offload igc_headers (adapter_running 1000000000)).2
            = .returned 0 a)) ∧
    ((igc_tsn_enable_offload igc_headers (adapter_running 1000000000)).adapter
      ).qbv_config_change_errors = 1 :=
  ⟨disable_then_enable_error_counter igc_headers (adapter_running 1000000000) (by decide),
    by decide⟩

/-! ## Credit-based shaping: the encodings -/

/-- C8: for a queue `i` in `{0, 1}` (below `num_tx_queues`) whose ring has `cbs_enable` and
`0 ≤ idleslope ≤ 2,500,000`, the idle-slope field of `TQAVCC(i)` after the enabler is exactly
`ceil(idleslope * 61036 / 2500000)`; it is at most 61036, so the 16-bit `cbs_value` does not
truncate it; the keep-credits bit is set, and every bit of `TQAVCC(i)` outside the idle-slope
field and the keep-credits bit keeps its previous value. -/
theorem enable_offload_idleslope_encoding (c : igc_defines) (adapter : igc_adapter) (i : Nat)
    (hc : cbs_field_ok c) (hi : i ≤ 1) (hq : i < adapter.num_tx_queues)
    (hcbs : (adapter.tx_ring i).cbs_enable = true)
    (h0 : 0 ≤ (adapter.tx_ring i).idleslope) (h1 : (adapter.tx_ring i).idleslope ≤ 2500000) :
    ((rd32 (igc_tsn_enable_offload c adapter).adapter.hw (.TQAVCC i)
        &&& c.IGC_TQAVCC_IDLESLOPE_MASK : Nat) : Int)
      = ⌈(((adapter.tx_ring i).idleslope : ℚ) * 61036) / 2500000⌉ ∧
    rd32 (igc_tsn_enable_offload c adapter).adapter.hw (.TQAVCC i)
        &&& c.IGC_TQAVCC_IDLESLOPE_MASK ≤ 61036 ∧
    u16 (DIV_ROUND_UP_ULL (u64 (u64_of_int (adapter.tx_ring i).idleslope * 61036)) 2500000)
      = DIV_ROUND_UP_ULL (u64 (u64_of_int (adapter.tx_ring i).idleslope * 61036)) 2500000 ∧
    rd32 (igc_tsn_enable_offload c adapter).adapter.hw (.TQAVCC i)
        &&& c.IGC_TQAVCC_KEEP_CREDITS = c.IGC_TQAVCC_KEEP_CREDITS ∧
    and_not32 (rd32 (igc_tsn_enable_offload c adapter).adapter.hw (.TQAVCC i))
        (c.IGC_TQAVCC_IDLESLOPE_MASK ||| c.IGC_TQAVCC_KEEP_CREDITS)
      = and_not32 (rd32 adapter.hw (.TQAVCC i))
        (c.IGC_TQAVCC_IDLESLOPE_MASK ||| c.IGC_TQAVCC_KEEP_CREDITS) := by
  obtain ⟨hmask, hkeep, hkeep32⟩ := hc
  obtain ⟨hval, hfull, hle⟩ := cbs_value_eq _ h0 h1
  have hlt : (((adapter.tx_ring i).idleslope).toNat * 61036 + 2499999) / 2500000 < 65536 := by
    omega
  have hreg := enable_offload_rd32_queue_eq c adapter (.TQAVCC i) i
    (fun old => or32 (and_not32 old c.IGC_TQAVCC_IDLESLOPE_MASK)
      (u16 (DIV_ROUND_UP_ULL (u64 (u64_of_int (adapter.tx_ring i).idleslope * 61036)) 2500000)
        ||| c.IGC_TQAVCC_KEEP_CREDITS))
    rfl (fun hw => enable_queue_TQAVCC_cbs c adapter hw i hi hcbs) hq
  simp only [] at hreg
  rw [hreg, hval, hmask]
  refine ⟨?_, ?_, ?_, ?_, ?_⟩
  · rw [tqavcc_idleslope_field _ _ _ hlt hkeep]
    exact cbs_value_ceil _ h0
  · rw [tqavcc_idleslope_field _ _ _ hlt hkeep]
    exact hle
  · exact hfull.symm
  · exact tqavcc_keep_credits _ _ _ hkeep32
  · exact tqavcc_other_bits _ _ _ hlt

/-- C8, at concrete inputs: queue 1 with `idleslope = 100000` gets the idle-slope field 2442, and
queue 0 with `idleslope = 0` gets 0, both with the keep-credits bit. -/
theorem enable_offload_idleslope_encoding_witness :
    (((rd32 (igc_tsn_enable_offload igc_headers adapter_cbs).adapter.hw (.TQAVCC 1)
          &&& igc_headers.IGC_TQAVCC_IDLESLOPE_MASK : Nat) : Int)
        = ⌈(((adapter_cbs.tx_ring 1).idleslope : ℚ) * 61036) / 2500000⌉ ∧
      rd32 (igc_tsn_enable_offload igc_headers adapter_cbs).adapter.hw (.TQAVCC 1)
          &&& igc_headers.IGC_TQAVCC_IDLESLOPE_MASK ≤ 61036 ∧
      u16 (DIV_ROUND_UP_ULL (u64 (u64_of_int (adapter_cbs.tx_ring 1).idleslope * 61036)) 2500000)
        = DIV_ROUND_UP_ULL (u64 (u64_of_int (adapter_cbs.tx_ring 1).idleslope * 61036)) 2500000 ∧
      rd32 (igc_tsn_enable_offload igc_headers adapter_cbs).adapter.hw (.TQAVCC 1)
          &&& igc_headers.IGC_TQAVCC_KEEP_CREDITS = igc_headers.IGC_TQAVCC_KEEP_CREDITS ∧
      and_not32 (rd32 (igc_tsn_enable_offload igc_headers adapter_cbs).adapter.hw (.TQAVCC 1))
          (igc_headers.IGC_TQAVCC_IDLESLOPE_MASK ||| igc_headers.IGC_TQAVCC_KEEP_CREDITS)
        = and_not32 (rd32 adapter_cbs.hw (.TQAVCC 1))
          (igc_headers.IGC_TQAVCC_IDLESLOPE_MASK ||| igc_headers.IGC_TQAVCC_KEEP_CREDITS)) ∧
    cbs_field_ok igc_headers ∧
    (adapter_cbs.tx_ring 1).idleslope = 100000 ∧
    rd32 (igc_tsn_enable_offload igc_headers adapter_cbs).adapter.hw (.TQAVCC 1)
      &&& igc_headers.IGC_TQAVCC_IDLESLOPE_MASK = 2442 ∧
    (adapter_cbs.tx_ring 0).idleslope = 0 ∧
    rd32 (igc_tsn_enable_offload igc_headers adapter_cbs).adapter.hw (.TQAVCC 0)
      &&& igc_headers.IGC_TQAVCC_IDLESLOPE_MASK = 0 :=
  ⟨enable_offload_idleslope_encoding igc_headers adapter_cbs 1 (by decide) (by decide)
      (by decide) (by decide) (by decide) (by decide),
    by decide, by decide, by decide, by decide, by decide⟩

/-! ## Credit-based shaping: the hi-credit register -/

/-- C9: for a queue `i` in `{0, 1}` (below `num_tx_queues`) whose ring has `cbs_enable`, with
`0 ≤ hicredit` and `hicredit * 0x7736 < 2^31`, the enabler leaves
`TQAVHC(i) = 0x80000000 + hicredit * 0x7736` exactly: no 32-bit wrap-around, bit 31 set, and
the low 31 bits equal to `hicredit * 0x7736`. -/
theorem enable_offload_hicredit_encoding (c : igc_defines) (adapter : igc_adapter) (i : Nat)
    (hi : i ≤ 1) (hq : i < adapter.num_tx_queues)
    (hcbs : (adapter.tx_ring i).cbs_enable = true)
    (h0 : 0 ≤ (adapter.tx_ring i).hicredit)
    (h1 : (adapter.tx_ring i).hicredit * 0x7736 < 2147483648) :
    (rd32 (igc_tsn_enable_offload c adapter).adapter.hw (.TQAVHC i) : Int)
      = 0x80000000 + (adapter.tx_ring i).hicredit * 0x7736 ∧
    (rd32 (igc_tsn_enable_offload c adapter).adapter.hw (.TQAVHC i)).testBit 31 = true ∧
    ((rd32 (igc_tsn_enable_offload c adapter).adapter.hw (.TQAVHC i) % 2147483648 : Nat) : Int)
      = (adapter.tx_ring i).hicredit * 0x7736 := by
  have hreg := enable_offload_rd32_queue_eq c adapter (.TQAVHC i) i
    (fun _ => u32_of_int (0x80000000 + s32 ((adapter.tx_ring i).hicredit * 0x7736)))
    rfl (fun hw => enable_queue_TQAVHC_cbs c adapter hw i hi hcbs) hq
  simp only [] at hreg
  rw [hreg]
  have hs : s32 ((adapter.tx_ring i).hicredit * 0x7736) = (adapter.tx_ring i).hicredit * 0x7736 := by
    unfold s32
    omega
  rw [hs]
  have hv : (u32_of_int (0x80000000 + (adapter.tx_ring i).hicredit * 0x7736) : Int)
      = 0x80000000 + (adapter.tx_ring i).hicredit * 0x7736 := by
    unfold u32_of_int
    omega
  refine ⟨hv, ?_, ?_⟩
  · have hlo : 2147483648 ≤ u32_of_int (0x80000000 + (adapter.tx_ring i).hicredit * 0x7736) := by
      omega
    have hhi : u32_of_int (0x80000000 + (adapter.tx_ring i).hicredit * 0x7736) < 4294967296 :=
      u32_of_int_lt _
    generalize u32_of_int (0x80000000 + (adapter.tx_ring i).hicredit * 0x7736) = v at hlo hhi
    rw [Nat.testBit_to_div_mod]
    have h31 : (2 : Nat) ^ 31 = 2147483648 := by norm_num
    simp only [decide_eq_true_eq, h31]
    omega
  · omega

/-- C9, at concrete inputs: `hicredit = 0` gives `TQAVHC = 0x80000000`, and `hicredit = 5`
gives `0x80000000 + 5 * 0x7736`. -/
theorem enable_offload_hicredit_encoding_witness :
    ((rd32 (igc_tsn_enable_offload igc_headers adapter_cbs).adapter.hw (.TQAVHC 0) : Int)
        = 0x80000000 + (adapter_cbs.tx_ring 0).hicredit * 0x7736 ∧
      (rd32 (igc_tsn_enable_offload igc_headers adapter_cbs).adapter.hw (.TQAVHC 0)).testBit 31
        = true ∧
      ((rd32 (igc_tsn_enable_offload igc_headers adapter_cbs).adapter.hw (.TQAVHC 0)
          % 2147483648 : Nat) : Int)
        = (adapter_cbs.tx_ring 0).hicredit * 0x7736) ∧
    (adapter_cbs.tx_ring 0).hicredit = 0 ∧
    rd32 (igc_tsn_enable_offload igc_headers adapter_cbs).adapter.hw (.TQAVHC 0) = 0x80000000 ∧
    (adapter_cbs.tx_ring 1).hicredit = 5 ∧
    rd32 (igc_tsn_enable_offload igc_headers adapter_cbs).adapter.hw (.TQAVHC 1)
      = 0x80000000 + 5 * 0x7736 :=
  ⟨enable_offload_hicredit_encoding igc_headers adapter_cbs 0 (by decide) (by decide)
      (by decide) (by decide) (by decide),
    by decide, by decide, by decide, by decide⟩

/-! ## Credit-based shaping: queues above index 1 -/

theorem or_and_eq_zero (a b k : Nat) (h : (a ||| b) &&& k = 0) : a &&& k = 0 ∧ b &&& k = 0 := by
  rw [Nat.and_comm, Nat.and_or_distrib_left, or_eq_zero_iff] at h
  rw [Nat.and_comm a, Nat.and_comm b]
  exact h

theorem or32_and_eq_zero (x m k : Nat) (hx : x &&& k = 0) (hm : m &&& k = 0) :
    or32 x m &&& k = 0 := by
  rw [and_eq_zero_iff_testBit] at hx hm ⊢
  intro i
  have hxi := hx i
  have hmi := hm i
  clear hx hm
  rw [testBit_or32]
  revert hxi hmi
  cases x.testBit i <;> cases m.testBit i <;> cases k.testBit i <;> cases decide (i < 32) <;>
    simp

/-- The mode bits of `TXQCTL` contain no bit of a mask that is disjoint from the four mode
constants. -/
theorem txqctl_mode_bits_and (c : igc_defines) (adapter : igc_adapter) (i k : Nat)
    (h : (c.IGC_TXQCTL_STRICT_CYCLE ||| c.IGC_TXQCTL_STRICT_END |||
      c.IGC_TXQCTL_QUEUE_MODE_LAUNCHT ||| c.IGC_TXQCTL_PREEMPTABLE) &&& k = 0) :
    txqctl_mode_bits c adapter i &&& k = 0 := by
  obtain ⟨h123, hp⟩ := or_and_eq_zero _ _ _ h
  obtain ⟨h12, hl⟩ := or_and_eq_zero _ _ _ h123
  have hbase : or32 0 (c.IGC_TXQCTL_STRICT_CYCLE ||| c.IGC_TXQCTL_STRICT_END) &&& k = 0 :=
    or32_and_eq_zero _ _ _ (Nat.zero_and k) h12
  unfold txqctl_mode_bits
  simp only []
  split
  · apply or32_and_eq_zero _ _ _ _ hp
    split
    · exact or32_and_eq_zero _ _ _ hbase hl
    · exact hbase
  · split
    · exact or32_and_eq_zero _ _ _ hbase hl
    · exact hbase

/-- C10: for a queue index `i` with `2 ≤ i < num_tx_queues` and every ring configuration, the
enabler leaves `TQAVCC(i)` and `TQAVHC(i)` as they were before the call, and the value it writes
to `TXQCTL(i)` has neither the `QAV_SEL_CBS0` nor the `QAV_SEL_CBS1` bits. -/
theorem enable_offload_skip_cbs (c : igc_defines) (adapter : igc_adapter) (i : Nat)
    (hc : txqctl_mode_bits_ok c) (h2 : 2 ≤ i) (hq : i < adapter.num_tx_queues) :
    rd32 (igc_tsn_enable_offload c adapter).adapter.hw (.TQAVCC i)
      = rd32 adapter.hw (.TQAVCC i) ∧
    rd32 (igc_tsn_enable_offload c adapter).adapter.hw (.TQAVHC i)
      = rd32 adapter.hw (.TQAVHC i) ∧
    rd32 (igc_tsn_enable_offload c adapter).adapter.hw (.TXQCTL i)
      &&& c.IGC_TXQCTL_QAV_SEL_CBS0 = 0 ∧
    rd32 (igc_tsn_enable_offload c adapter).adapter.hw (.TXQCTL i)
      &&& c.IGC_TXQCTL_QAV_SEL_CBS1 = 0 := by
  have hi : 1 < i := by omega
  have hcc := enable_offload_rd32_queue_eq c adapter (.TQAVCC i) i (fun old => old) rfl
    (fun hw => (enable_queue_skip_cbs c adapter hw i hi).1) hq
  have hhc := enable_offload_rd32_queue_eq c adapter (.TQAVHC i) i (fun old => old) rfl
    (fun hw => (enable_queue_skip_cbs c adapter hw i hi).2.1) hq
  have htx := enable_offload_rd32_queue_eq c adapter (.TXQCTL i) i
    (fun _ => txqctl_mode_bits c adapter i) rfl
    (fun hw => (enable_queue_skip_cbs c adapter hw i hi).2.2) hq
  simp only [] at htx
  have hboth := txqctl_mode_bits_and c adapter i _ hc
  rw [Nat.and_or_distrib_left, or_eq_zero_iff] at hboth
  refine ⟨hcc, hhc, ?_, ?_⟩
  · rw [htx]
    exact hboth.1
  · rw [htx]
    exact hboth.2

/-- C10, at a concrete input: queue 2 has `cbs_enable`, `idleslope = 100000` and `hicredit = 5`,
and its shaper registers stay 0 while `TXQCTL(2)` gets the strict-cycle and strict-end bits
only. -/
theorem enable_offload_skip_cbs_witness :
    (rd32 (igc_tsn_enable_offload igc_headers adapter_cbs).adapter.hw (.TQAVCC 2)
        = rd32 adapter_cbs.hw (.TQAVCC 2) ∧
      rd32 (igc_tsn_enable_offload igc_headers adapter_cbs).adapter.hw (.TQAVHC 2)
        = rd32 adapter_cbs.hw (.TQAVHC 2) ∧
      rd32 (igc_tsn_enable_offload igc_headers adapter_cbs).adapter.hw (.TXQCTL 2)
        &&& igc_headers.IGC_TXQCTL_QAV_SEL_CBS0 = 0 ∧
      rd32 (igc_tsn_enable_offload igc_headers adapter_cbs).adapter.hw (.TXQCTL 2)
        &&& igc_headers.IGC_TXQCTL_QAV_SEL_CBS1 = 0) ∧
    txqctl_mode_bits_ok igc_headers ∧
    (adapter_cbs.tx_ring 2).cbs_enable = true ∧
    rd32 (igc_tsn_enable_offload igc_headers adapter_cbs).adapter.hw (.TXQCTL 2) = 6 :=
  ⟨enable_offload_skip_cbs igc_headers adapter_cbs 2 (by decide) (by decide) (by decide),
    by decide, by decide, by decide⟩

/-! ## The disabler: idempotence and postcondition -/

/-- C11: running the disabler twice yields the same register image and the same adapter state
as running it once (both runs return 0), and after each run no TSN bit is set in
`adapter.flags`. -/
theorem disable_offload_idempotent (c : igc_defines) (adapter : igc_adapter) :
    (igc_tsn_disable_offload c adapter).1 = 0 ∧
    (igc_tsn_disable_offload c (igc_tsn_disable_offload c adapter).2).1 = 0 ∧
    same_state (igc_tsn_disable_offload c (igc_tsn_disable_offload c adapter).2).2
      (igc_tsn_disable_offload c adapter).2 ∧
    (igc_tsn_disable_offload c adapter).2.flags &&& c.IGC_FLAG_TSN_ANY_ENABLED = 0 ∧
    (igc_tsn_disable_offload c (igc_tsn_disable_offload c adapter).2).2.flags
      &&& c.IGC_FLAG_TSN_ANY_ENABLED = 0 := by
  have hflags : ∀ a, (igc_tsn_disable_offload c a).2.flags
      = and_not32 a.flags c.IGC_FLAG_TSN_ANY_ENABLED := fun _ => rfl
  refine ⟨rfl, rfl, ⟨disable_offload_same_config c _, ?_, rfl, rfl, ?_⟩, ?_, ?_⟩
  · rw [hflags, hflags, and_not32_idem]
  · intro r
    rw [disable_offload_rd32]
    have hn : (igc_tsn_disable_offload c adapter).2.num_tx_queues = adapter.num_tx_queues := rfl
    have himg : rd32 (igc_tsn_disable_offload c adapter).2.hw
        = disabled_reg c adapter.num_tx_queues (rd32 adapter.hw) :=
      funext (disable_offload_rd32 c adapter)
    rw [hn, himg, disabled_reg_idem]
  · rw [hflags]
    exact and_not32_and_eq_zero _ _ _ (Nat.and_self _)
  · rw [hflags]
    exact and_not32_and_eq_zero _ _ _ (Nat.and_self _)

/-! ## The disabler: postcondition -/

theorem or32_and_not32_field (x m d : Nat) (hd : d < 4294967296) (hdm : d &&& m = d) :
    or32 (and_not32 x m) d &&& m = d ∧
    and_not32 (or32 (and_not32 x m) d) m = and_not32 x m := by
  have hbit : ∀ i, d.testBit i = true → m.testBit i = true := by
    intro i hi
    have h := congrArg (fun n => n.testBit i) hdm
    simp only [Nat.testBit_and, hi, Bool.true_and] at h
    exact h
  constructor
  · apply Nat.eq_of_testBit_eq
    intro i
    rw [Nat.testBit_and, testBit_or32, testBit_and_not32]
    by_cases hi : i < 32
    · have := hbit i
      revert this
      cases x.testBit i <;> cases m.testBit i <;> cases d.testBit i <;> simp [hi]
    · rw [testBit_ge32 hd (Nat.le_of_not_lt hi)]
      simp [hi]
  · apply Nat.eq_of_testBit_eq
    intro i
    simp only [testBit_and_not32, testBit_or32]
    have := hbit i
    revert this
    cases x.testBit i <;> cases m.testBit i <;> cases d.testBit i <;> cases decide (i < 32) <;>
      simp

/-- C12: `igc_tsn_disable_offload` returns 0, and afterwards (a) for every queue below
`num_tx_queues`, `TXQCTL(i) = 0`, `STQT(i) = 0` and `ENDQT(i) = 10^9`; (b) `QBVCYCLET = 10^9`
and `QBVCYCLET_S = 0`; (c) `TXPBS` and `DTXMXPKTSZ` hold their default constants, and the size
field of `RXPBS` holds the default receive size with the other bits of `RXPBS` unchanged;
(d) `TQAVCTRL` has the TSN-transmit-mode, enhanced-shaping, future-schedule-disable,
preemption-enable and minimum-fragment bits cleared and every other bit unchanged;
(e) `add_frag_size` is the default, and `flags` has every TSN bit cleared and every other bit
unchanged. -/
theorem disable_offload_postcondition (c : igc_defines) (adapter : igc_adapter)
    (hc : disable_defaults_ok c) :
    (igc_tsn_disable_offload c adapter).1 = 0 ∧
    (∀ i, i < adapter.num_tx_queues →
      rd32 (igc_tsn_disable_offload c adapter).2.hw (.TXQCTL i) = 0 ∧
      rd32 (igc_tsn_disable_offload c adapter).2.hw (.STQT i) = 0 ∧
      rd32 (igc_tsn_disable_offload c adapter).2.hw (.ENDQT i) = 1000000000) ∧
    (rd32 (igc_tsn_disable_offload c adapter).2.hw .QBVCYCLET = 1000000000 ∧
      rd32 (igc_tsn_disable_offload c adapter).2.hw .QBVCYCLET_S = 0) ∧
    (rd32 (igc_tsn_disable_offload c adapter).2.hw .TXPBS = c.I225_TXPBSIZE_DEFAULT ∧
      rd32 (igc_tsn_disable_offload c adapter).2.hw .DTXMXPKTSZ = c.IGC_DTXMXPKTSZ_DEFAULT ∧
      rd32 (igc_tsn_disable_offload c adapter).2.hw .RXPBS &&& c.IGC_RXPBSIZE_SIZE_MASK
        = c.I225_RXPBSIZE_DEFAULT ∧
      and_not32 (rd32 (igc_tsn_disable_offload c adapter).2.hw .RXPBS) c.IGC_RXPBSIZE_SIZE_MASK
        = and_not32 (rd32 adapter.hw .RXPBS) c.IGC_RXPBSIZE_SIZE_MASK) ∧
    (rd32 (igc_tsn_disable_offload c adapter).2.hw .TQAVCTRL &&&
        (c.IGC_TQAVCTRL_TRANSMIT_MODE_TSN ||| c.IGC_TQAVCTRL_ENHANCED_QAV |||
          c.IGC_TQAVCTRL_FUTSCDDIS ||| c.IGC_TQAVCTRL_PREEMPT_ENA |||
          c.IGC_TQAVCTRL_MIN_FRAG_MASK) = 0 ∧
      and_not32 (rd32 (igc_tsn_disable_offload c adapter).2.hw .TQAVCTRL)
          (c.IGC_TQAVCTRL_TRANSMIT_MODE_TSN ||| c.IGC_TQAVCTRL_ENHANCED_QAV |||
            c.IGC_TQAVCTRL_FUTSCDDIS ||| c.IGC_TQAVCTRL_PREEMPT_ENA |||
            c.IGC_TQAVCTRL_MIN_FRAG_MASK)
        = and_not32 (rd32 adapter.hw .TQAVCTRL)
          (c.IGC_TQAVCTRL_TRANSMIT_MODE_TSN ||| c.IGC_TQAVCTRL_ENHANCED_QAV |||
            c.IGC_TQAVCTRL_FUTSCDDIS ||| c.IGC_TQAVCTRL_PREEMPT_ENA |||
            c.IGC_TQAVCTRL_MIN_FRAG_MASK)) ∧
    ((igc_tsn_disable_offload c adapter).2.add_frag_size = c.IGC_I225_MIN_FRAG_SIZE_DEFAULT ∧
      (igc_tsn_disable_offload c adapter).2.flags &&& c.IGC_FLAG_TSN_ANY_ENABLED = 0 ∧
      and_not32 (igc_tsn_disable_offload c adapter).2.flags c.IGC_FLAG_TSN_ANY_ENABLED
        = and_not32 adapter.flags c.IGC_FLAG_TSN_ANY_ENABLED) := by
  obtain ⟨htx, hdt, hrx, hrxm⟩ := hc
  have hflags : (igc_tsn_disable_offload c adapter).2.flags
      = and_not32 adapter.flags c.IGC_FLAG_TSN_ANY_ENABLED := rfl
  obtain ⟨hf1, hf2⟩ := or32_and_not32_field (rd32 adapter.hw .RXPBS) _ _ hrx hrxm
  refine ⟨rfl, ?_, ?_, ?_, ?_, ?_⟩
  · intro i hi
    simp only [disable_offload_rd32, disabled_reg, hi, if_true, and_self]
  · simp only [disable_offload_rd32, disabled_reg, and_self]
  · simp only [disable_offload_rd32, disabled_reg]
    exact ⟨u32_of_lt htx, u32_of_lt hdt, hf1, hf2⟩
  · simp only [disable_offload_rd32, disabled_reg]
    exact ⟨and_not32_and_eq_zero _ _ _ (Nat.and_self _), and_not32_idem _ _⟩
  · rw [hflags]
    exact ⟨rfl, and_not32_and_eq_zero _ _ _ (Nat.and_self _), and_not32_idem _ _⟩

/-- C12, at a concrete input: from a bank in which every register reads `0xFFFFFFFF` and with
all TSN flags set, the disabler leaves `TQAVCTRL = 0xFFFF3F74`, `RXPBS = 0xFFFE00A2`, the
flag word 1 and the default minimum fragment size. -/
theorem disable_offload_postcondition_witness :
    disable_defaults_ok igc_headers ∧
    rd32 (igc_tsn_disable_offload igc_headers adapter_all_ones).2.hw .TQAVCTRL = 0xFFFF3F74 ∧
    rd32 (igc_tsn_disable_offload igc_headers adapter_all_ones).2.hw .RXPBS = 0xFFFE00A2 ∧
    (igc_tsn_disable_offload igc_headers adapter_all_ones).2.flags = 1 ∧
    ((igc_tsn_disable_offload igc_headers adapter_all_ones).2.add_frag_size
        = igc_headers.IGC_I225_MIN_FRAG_SIZE_DEFAULT ∧
      (igc_tsn_disable_offload igc_headers adapter_all_ones).2.flags
        &&& igc_headers.IGC_FLAG_TSN_ANY_ENABLED = 0 ∧
      and_not32 (igc_tsn_disable_offload igc_headers adapter_all_ones).2.flags
          igc_headers.IGC_FLAG_TSN_ANY_ENABLED
        = and_not32 adapter_all_ones.flags igc_headers.IGC_FLAG_TSN_ANY_ENABLED) :=
  ⟨by decide, by decide, by decide, by decide,
    (disable_offload_postcondition igc_headers adapter_all_ones (by decide)).2.2.2.2.2⟩

/-! ## The disabler after the enabler -/

/-- The transmit-offset compensation and the auxiliary timestamp control after the enabler:
the constants it writes first, however it ends. -/
theorem enable_offload_rd32_offsets (c : igc_defines) (adapter : igc_adapter) :
    rd32 (igc_tsn_enable_offload c adapter).adapter.hw .GTXOFFSET = 1500 ∧
    rd32 (igc_tsn_enable_offload c adapter).adapter.hw .TSAUXC = 0 := by
  have hb : rd32 (igc_tsn_enable_buffers_and_queues c adapter) .GTXOFFSET = 1500 ∧
      rd32 (igc_tsn_enable_buffers_and_queues c adapter) .TSAUXC = 0 := by
    unfold igc_tsn_enable_buffers_and_queues
    simp only []
    rw [enable_queues_rd32_other _ _ _ _ _ _ (fun j _ _ => Option.noConfusion),
      enable_queues_rd32_other _ _ _ _ _ _ (fun j _ _ => Option.noConfusion)]
    constructor <;> simp [rd32_wr32, u32]
  by_cases h : u32_of_int adapter.cycle_time ≠ 0 ∨ systim_of adapter.hw ≤ adapter.base_time
  · obtain ⟨a, ha, hhw⟩ := enable_offload_returned_form c adapter h
    rw [ha]
    show rd32 a.hw .GTXOFFSET = 1500 ∧ rd32 a.hw .TSAUXC = 0
    rw [hhw, program_rd32_other _ _ _ _ _ _ (by decide) (by decide) (by decide) (by decide)
      (by decide), program_rd32_other _ _ _ _ _ _ (by decide) (by decide) (by decide)
      (by decide) (by decide)]
    exact hb
  · have hs : adapter.base_time < systim_of adapter.hw := by
      by_contra h2
      exact h (Or.inr (by omega))
    have hz : u32_of_int adapter.cycle_time = 0 := by
      by_contra h2
      exact h (Or.inl h2)
    rw [enable_offload_fault c adapter hs hz]
    exact hb

/-- C13 (as amended): after the enabler and then the disabler, every register that the enabler
writes, other than `TQAVCC(i)`, `TQAVHC(i)`, `BASET_H` and `BASET_L`, holds a value that does
not depend on the configuration the enabler was given: `TXPBS` and `DTXMXPKTSZ` their default
constants, the size field of `RXPBS` the default receive size, the five mode bits of `TQAVCTRL`
cleared, `TXQCTL(i) = 0`, `STQT(i) = 0` and `ENDQT(i) = 10^9` for every queue below
`num_tx_queues`, `QBVCYCLET_S = 0` and `QBVCYCLET = 10^9`; `GTXOFFSET` and `TSAUXC`, which the
disabler does not write, hold the enabler's constants 1500 and 0. -/
theorem enable_then_disable_defaults (c : igc_defines) (adapter : igc_adapter)
    (hc : disable_defaults_ok c) :
    rd32 (igc_tsn_disable_offload c (igc_tsn_enable_offload c adapter).adapter).2.hw .TXPBS
      = c.I225_TXPBSIZE_DEFAULT ∧
    rd32 (igc_tsn_disable_offload c (igc_tsn_enable_offload c adapter).adapter).2.hw .DTXMXPKTSZ
      = c.IGC_DTXMXPKTSZ_DEFAULT ∧
    rd32 (igc_tsn_disable_offload c (igc_tsn_enable_offload c adapter).adapter).2.hw .RXPBS
      &&& c.IGC_RXPBSIZE_SIZE_MASK = c.I225_RXPBSIZE_DEFAULT ∧
    rd32 (igc_tsn_disable_offload c (igc_tsn_enable_offload c adapter).adapter).2.hw .TQAVCTRL
      &&& (c.IGC_TQAVCTRL_TRANSMIT_MODE_TSN ||| c.IGC_TQAVCTRL_ENHANCED_QAV |||
          c.IGC_TQAVCTRL_FUTSCDDIS ||| c.IGC_TQAVCTRL_PREEMPT_ENA |||
          c.IGC_TQAVCTRL_MIN_FRAG_MASK) = 0 ∧
    (∀ i, i < adapter.num_tx_queues →
      rd32 (igc_tsn_disable_offload c (igc_tsn_enable_offload c adapter).adapter).2.hw
        (.TXQCTL i) = 0 ∧
      rd32 (igc_tsn_disable_offload c (igc_tsn_enable_offload c adapter).adapter).2.hw
        (.STQT i) = 0 ∧
      rd32 (igc_tsn_disable_offload c (igc_tsn_enable_offload c adapter).adapter).2.hw
        (.ENDQT i) = 1000000000) ∧
    rd32 (igc_tsn_disable_offload c (igc_tsn_enable_offload c adapter).adapter).2.hw .QBVCYCLET_S
      = 0 ∧
    rd32 (igc_tsn_disable_offload c (igc_tsn_enable_offload c adapter).adapter).2.hw .QBVCYCLET
      = 1000000000 ∧
    rd32 (igc_tsn_disable_offload c (igc_tsn_enable_offload c adapter).adapter).2.hw .GTXOFFSET
      = 1500 ∧
    rd32 (igc_tsn_disable_offload c (igc_tsn_enable_offload c adapter).adapter).2.hw .TSAUXC
      = 0 := by
  obtain ⟨htx, hdt, hrx, hrxm⟩ := hc
  have hn : (igc_tsn_enable_offload c adapter).adapter.num_tx_queues = adapter.num_tx_queues :=
    (enable_offload_fields c adapter).1.1
  refine ⟨?_, ?_, ?_, ?_, ?_, ?_, ?_, ?_, ?_⟩
  · rw [disable_offload_rd32]
    exact u32_of_lt htx
  · rw [disable_offload_rd32]
    exact u32_of_lt hdt
  · rw [disable_offload_rd32]
    exact (or32_and_not32_field _ _ _ hrx hrxm).1
  · rw [disable_offload_rd32]
    exact and_not32_and_eq_zero _ _ _ (Nat.and_self _)
  · intro i hi
    simp only [disable_offload_rd32, disabled_reg, hn, hi, if_true, and_self]
  · rw [disable_offload_rd32]
    rfl
  · rw [disable_offload_rd32]
    rfl
  · rw [disable_offload_rd32]
    exact (enable_offload_rd32_offsets c adapter).1
  · rw [disable_offload_rd32]
    exact (enable_offload_rd32_offsets c adapter).2

/-- C13, at a concrete input: after the enabler on the shaped adapter and then the disabler,
`TXPBS` holds its default and `TXQCTL(1)` is 0. -/
theorem enable_then_disable_defaults_witness :
    disable_defaults_ok igc_headers ∧
    rd32 (igc_tsn_disable_offload igc_headers
      (igc_tsn_enable_offload igc_headers adapter_cbs).adapter).2.hw .TXPBS
      = igc_headers.I225_TXPBSIZE_DEFAULT ∧
    rd32 (igc_tsn_disable_offload igc_headers
      (igc_tsn_enable_offload igc_headers adapter_cbs).adapter).2.hw (.TXQCTL 1) = 0 :=
  ⟨by decide,
    (enable_then_disable_defaults igc_headers adapter_cbs (by decide)).1,
    ((enable_then_disable_defaults igc_headers adapter_cbs (by decide)).2.2.2.2.1 1
      (by decide)).1⟩

/-- C13, where it fails as stated: two configurations on the same all-zero register bank, one
with queue 1 shaped (`idleslope = 100000`, `hicredit = 5`, base time 0) and one with only
`qbv_enable` and base time `7 * 10^9 + 250` ns.  After the enabler and then the disabler,
`TQAVCC(1)`, `TQAVHC(1)`, `BASET_H` and `BASET_L` still hold what the enabler wrote, which
differs between the two configurations. -/
theorem enable_then_disable_keeps_shaper_and_base_time :
    adapter_cbs.hw = adapter_qbv_future.hw ∧
    (rd32 (igc_tsn_disable_offload igc_headers
        (igc_tsn_enable_offload igc_headers adapter_cbs).adapter).2.hw (.TQAVCC 1) = 0x4000098A ∧
      rd32 (igc_tsn_disable_offload igc_headers
        (igc_tsn_enable_offload igc_headers adapter_qbv_future).adapter).2.hw (.TQAVCC 1) = 0) ∧
    (rd32 (igc_tsn_disable_offload igc_headers
        (igc_tsn_enable_offload igc_headers adapter_cbs).adapter).2.hw (.TQAVHC 1)
        = 0x80000000 + 5 * 0x7736 ∧
      rd32 (igc_tsn_disable_offload igc_headers
        (igc_tsn_enable_offload igc_headers adapter_qbv_future).adapter).2.hw (.TQAVHC 1) = 0) ∧
    (rd32 (igc_tsn_disable_offload igc_headers
        (igc_tsn_enable_offload igc_headers adapter_cbs).adapter).2.hw .BASET_H = 0 ∧
      rd32 (igc_tsn_disable_offload igc_headers
        (igc_tsn_enable_offload igc_headers adapter_qbv_future).adapter).2.hw .BASET_H = 7) ∧
    (rd32 (igc_tsn_disable_offload igc_headers
        (igc_tsn_enable_offload igc_headers adapter_cbs).adapter).2.hw .BASET_L = 0 ∧
      rd32 (igc_tsn_disable_offload igc_headers
        (igc_tsn_enable_offload igc_headers adapter_qbv_future).adapter).2.hw .BASET_L = 250) :=
  ⟨rfl, by decide, by decide, by decide, by decide⟩

/-! ## Reset orchestrator: flag commit -/

/-- C14: in `igc_tsn_reset`, with the enabler treated as any operation that leaves
`adapter.flags` alone and returns an error code: when the enabler path is taken and the enabler
returns a negative code, `igc_tsn_reset` returns that code with the adapter exactly as the
enabler left it, so `adapter.flags` is what it was before the call; when the enabler returns a
code that is not negative, the new flag word is stored. -/
theorem igc_tsn_reset_flag_commit (c : igc_defines) (enable_offload : igc_adapter → Outcome)
    (adapter : igc_adapter) (err : Int) (a : igc_adapter)
    (hflags : ∀ x, (enable_offload x).adapter.flags = x.flags)
    (hany : igc_tsn_new_flags c adapter &&& c.IGC_FLAG_TSN_ANY_ENABLED ≠ 0)
    (hret : enable_offload adapter = .returned err a) :
    (err < 0 →
      igc_tsn_reset_with c enable_offload adapter = .returned err a ∧
      (igc_tsn_reset_with c enable_offload adapter).adapter.flags = adapter.flags) ∧
    (¬ err < 0 →
      igc_tsn_reset_with c enable_offload adapter
        = .returned err { a with flags := igc_tsn_new_flags c adapter } ∧
      (igc_tsn_reset_with c enable_offload adapter).adapter.flags
        = igc_tsn_new_flags c adapter) := by
  have hfl : a.flags = adapter.flags := by
    have := hflags adapter
    rw [hret] at this
    exact this
  constructor
  · intro hneg
    have h : igc_tsn_reset_with c enable_offload adapter = .returned err a := by
      unfold igc_tsn_reset_with
      simp only [hany, if_false, hret, hneg, if_true]
    rw [h]
    exact ⟨rfl, hfl⟩
  · intro hpos
    have h : igc_tsn_reset_with c enable_offload adapter
        = .returned err { a with flags := igc_tsn_new_flags c adapter } := by
      unfold igc_tsn_reset_with
      simp only [hany, if_false, hret, hpos]
    rw [h]
    exact ⟨rfl, rfl⟩

/-- C14, at a concrete input: with an enabler that reports `-EBUSY` on the shaped adapter, the
reset returns `-16` and the flag word stays 0, although the new flag word is the QAV bit. -/
theorem igc_tsn_reset_flag_commit_witness :
    ((-16 : Int) < 0 →
      igc_tsn_reset_with igc_headers enable_offload_busy adapter_cbs
        = .returned (-16) adapter_cbs ∧
      (igc_tsn_reset_with igc_headers enable_offload_busy adapter_cbs).adapter.flags
        = adapter_cbs.flags) ∧
    adapter_cbs.flags = 0 ∧
    igc_tsn_new_flags igc_headers adapter_cbs = 0x40000 :=
  ⟨(igc_tsn_reset_flag_commit igc_headers enable_offload_busy adapter_cbs (-16) adapter_cbs
      (fun _ => rfl) (by decide) rfl).1,
    by decide, by decide⟩

/-! ## Apply dispatcher -/

/-- The reset returns 0 unless the enabler path divides by a zero cycle. -/
theorem igc_tsn_reset_returns (c : igc_defines) (adapter : igc_adapter)
    (hdiv : igc_tsn_new_flags c adapter &&& c.IGC_FLAG_TSN_ANY_ENABLED = 0 ∨
      u32_of_int adapter.cycle_time ≠ 0 ∨ systim_of adapter.hw ≤ adapter.base_time) :
    ∃ a, igc_tsn_reset c adapter = .returned 0 a := by
  by_cases hany : igc_tsn_new_flags c adapter &&& c.IGC_FLAG_TSN_ANY_ENABLED = 0
  · refine ⟨(igc_tsn_disable_offload c adapter).2, ?_⟩
    unfold igc_tsn_reset igc_tsn_reset_with
    simp only [hany, if_true]
    rfl
  · obtain ⟨a1, ha1⟩ := enable_offload_returns c adapter (by
      rcases hdiv with h | h
      · exact absurd h hany
      · exact h)
    refine ⟨{ a1 with flags := igc_tsn_new_flags c adapter }, ?_⟩
    unfold igc_tsn_reset igc_tsn_reset_with
    simp only [hany, if_false, ha1]
    rfl

/-- C15 (as amended): `igc_tsn_offload_apply` returns 0, except when it resets synchronously
and the enabler divides by a zero 32-bit cycle.  When the interface is running and the device
is an i225, it writes no register and changes no adapter field other than scheduling the reset
task; in every other case the resulting adapter state and register image are exactly those of
`igc_tsn_reset` on the same input. -/
theorem igc_tsn_offload_apply_result (c : igc_defines) (adapter : igc_adapter)
    (hdiv : (adapter.netif_running && c.igc_is_device_id_i225 adapter.hw.device_id) = true ∨
      igc_tsn_new_flags c adapter &&& c.IGC_FLAG_TSN_ANY_ENABLED = 0 ∨
      u32_of_int adapter.cycle_time ≠ 0 ∨ systim_of adapter.hw ≤ adapter.base_time) :
    ∃ a, igc_tsn_offload_apply c adapter = .returned 0 a ∧
      ((adapter.netif_running && c.igc_is_device_id_i225 adapter.hw.device_id) = true →
        a = { adapter with reset_task_scheduled := true }) ∧
      ((adapter.netif_running && c.igc_is_device_id_i225 adapter.hw.device_id) = false →
        a = (igc_tsn_reset c adapter).adapter) := by
  cases hdefer : (adapter.netif_running && c.igc_is_device_id_i225 adapter.hw.device_id) with
  | true =>
    refine ⟨{ adapter with reset_task_scheduled := true }, ?_, (fun _ => rfl),
      (fun h => by cases h)⟩
    unfold igc_tsn_offload_apply
    rw [hdefer]
    rfl
  | false =>
    obtain ⟨a1, ha1⟩ := igc_tsn_reset_returns c adapter (by
      rcases hdiv with h | h
      · rw [hdefer] at h
        cases h
      · exact h)
    refine ⟨a1, ?_, (fun h => by cases h), (fun _ => by rw [ha1]; rfl)⟩
    unfold igc_tsn_offload_apply
    rw [hdefer, ha1]
    rfl

/-- C15, at concrete inputs: on a running i225 the dispatcher only schedules the reset task and
issues no register write; on the same adapter with the interface down it ends in the state of
`igc_tsn_reset`. -/
theorem igc_tsn_offload_apply_result_witness :
    (∃ a, igc_tsn_offload_apply igc_headers adapter_cbs_running = .returned 0 a ∧
      ((adapter_cbs_running.netif_running &&
          igc_headers.igc_is_device_id_i225 adapter_cbs_running.hw.device_id) = true →
        a = { adapter_cbs_running with reset_task_scheduled := true }) ∧
      ((adapter_cbs_running.netif_running &&
          igc_headers.igc_is_device_id_i225 adapter_cbs_running.hw.device_id) = false →
        a = (igc_tsn_reset igc_headers adapter_cbs_running).adapter)) ∧
    (igc_tsn_offload_apply igc_headers adapter_cbs_running).adapter.hw.wr_log = [] ∧
    (igc_tsn_offload_apply igc_headers adapter_cbs_running).adapter.reset_task_scheduled = true ∧
    (igc_tsn_offload_apply igc_headers adapter_cbs).adapter.flags = 0x40000 :=
  ⟨igc_tsn_offload_apply_result igc_headers adapter_cbs_running (Or.inl (by decide)),
    by decide, by decide, by decide⟩

/-- C15, where it fails as stated: with the interface down, `qbv_enable`, `cycle_time = 0`,
base time 0 and the clock at 1 ns, the dispatcher resets synchronously and the enabler stops at
the division by the cycle; the dispatcher does not return 0. -/
theorem igc_tsn_offload_apply_zero_cycle_fault :
    adapter_zero_cycle.netif_running = false ∧
    (igc_tsn_offload_apply igc_headers adapter_zero_cycle).is_fault = true := by
  decide

/-! ## Future-schedule-disable and the base-time re-arm sequence -/

theorem futscddis_wanted_iff (c : igc_defines) (adapter : igc_adapter) :
    futscddis_wanted c adapter = true ↔
      (systim_of adapter.hw ≤ adapter.base_time ∧
        c.igc_is_device_id_i226 adapter.hw.device_id = true ∧
        rd32 adapter.hw .BASET_H = 0 ∧ rd32 adapter.hw .BASET_L = 0) := by
  unfold futscddis_wanted
  simp

theorem synchronised_base_time_nonneg (base_time systim cycle_time : Int)
    (hb : 0 ≤ base_time) (hc : 0 < cycle_time) :
    0 ≤ synchronised_base_time base_time systim cycle_time := by
  unfold synchronised_base_time
  split
  · have hq : 0 ≤ (systim - base_time) / cycle_time := Int.ediv_nonneg (by omega) (by omega)
    have : 0 ≤ ((systim - base_time) / cycle_time + 1) * cycle_time :=
      Int.mul_nonneg (by omega) (by omega)
    omega
  · exact hb

/-- C16 (as amended): when the enabler does not stop at the division (the 32-bit cycle is not
zero, or the clock sample is not later than `base_time`), it returns 0 and writes `TQAVCTRL`
once; the value written has the future-schedule-disable bit if and only if the clock sample is
not later than `base_time`, the device is an i226, and both base-time registers read zero
before the call, whatever the old register value was; the writes it issues to `BASET_L` are
`[0, baset_l]` when that bit is set and `[baset_l]` otherwise, and `BASET_L` ends holding
`baset_l`, the sub-second part of the base time after synchronisation. -/
theorem enable_offload_futscddis (c : igc_defines) (adapter : igc_adapter)
    (hc : tqavctrl_bits_ok c)
    (hnf : u32_of_int adapter.cycle_time ≠ 0 ∨ systim_of adapter.hw ≤ adapter.base_time) :
    ∃ a v, igc_tsn_enable_offload c adapter = .returned 0 a ∧
      wr_seq a.hw .TQAVCTRL = wr_seq adapter.hw .TQAVCTRL ++ [v] ∧
      (v &&& c.IGC_TQAVCTRL_FUTSCDDIS ≠ 0 ↔
        (systim_of adapter.hw ≤ adapter.base_time ∧
          c.igc_is_device_id_i226 adapter.hw.device_id = true ∧
          rd32 adapter.hw .BASET_H = 0 ∧ rd32 adapter.hw .BASET_L = 0)) ∧
      wr_seq a.hw .BASET_L = wr_seq adapter.hw .BASET_L ++
        (if v &&& c.IGC_TQAVCTRL_FUTSCDDIS ≠ 0
          then [0, u32_of_int (Int.tmod (enable_base_time c adapter) 1000000000)]
          else [u32_of_int (Int.tmod (enable_base_time c adapter) 1000000000)]) ∧
      rd32 a.hw .BASET_L = u32_of_int (Int.tmod (enable_base_time c adapter) 1000000000) ∧
      (0 < adapter.cycle_time → adapter.cycle_time < 4294967296 → 0 ≤ adapter.base_time →
        (rd32 a.hw .BASET_L : Int) =
          synchronised_base_time adapter.base_time (systim_of adapter.hw) adapter.cycle_time
            % 1000000000) := by
  obtain ⟨a, hret, hhw⟩ := enable_offload_returned_form c adapter hnf
  have hF := (tqavctrl_value_and c adapter (rd32 adapter.hw .TQAVCTRL)
    adapter.frame_preemption_active (futscddis_wanted c adapter) hc).2.2.2
  have hF0 : c.IGC_TQAVCTRL_FUTSCDDIS ≠ 0 := hc.2.2.1.1
  have hiff : tqavctrl_value c (rd32 adapter.hw .TQAVCTRL) (frag_size_bits c adapter)
      adapter.frame_preemption_active (futscddis_wanted c adapter)
        &&& c.IGC_TQAVCTRL_FUTSCDDIS ≠ 0 ↔ futscddis_wanted c adapter = true := by
    rw [hF]
    cases futscddis_wanted c adapter <;> simp [hF0]
  refine ⟨a, tqavctrl_value c (rd32 adapter.hw .TQAVCTRL) (frag_size_bits c adapter)
    adapter.frame_preemption_active (futscddis_wanted c adapter), hret, ?_, ?_, ?_, ?_, ?_⟩
  · rw [hhw, program_wr_seq_TQAVCTRL, u32_of_lt (tqavctrl_value_lt _ _ _ _ _),
      enable_buffers_and_queues_wr_seq c adapter .TQAVCTRL rfl (by decide) (by decide)
        (by decide) (by decide) (by decide)]
  · rw [hiff, futscddis_wanted_iff]
  · rw [hhw, program_wr_seq_BASET_L,
      enable_buffers_and_queues_wr_seq c adapter .BASET_L rfl (by decide) (by decide)
        (by decide) (by decide) (by decide)]
  · rw [hhw, program_rd32_BASET_L]
  · intro hc0 hc1 hb
    rw [hhw, program_rd32_BASET_L, enable_base_time_eq c adapter hc0 hc1 hb]
    have hn := synchronised_base_time_nonneg adapter.base_time (systim_of adapter.hw)
      adapter.cycle_time hb hc0
    rw [Int.tmod_eq_emod hn (by omega)]
    apply u32_of_int_of_range <;> omega

/-- C16, at concrete inputs: on an idle i226 with the base time in the future the enabler writes
`TQAVCTRL = 0x40F9` (future-schedule-disable set, the stale bits cleared) and `BASET_L` twice,
`[0, 250]`; on an i225 it writes `0x4079` and `BASET_L` once, `[250]`. -/
theorem enable_offload_futscddis_witness :
    (∃ a v, igc_tsn_enable_offload igc_headers adapter_i226_idle = .returned 0 a ∧
      wr_seq a.hw .TQAVCTRL = wr_seq adapter_i226_idle.hw .TQAVCTRL ++ [v] ∧
      (v &&& igc_headers.IGC_TQAVCTRL_FUTSCDDIS ≠ 0 ↔
        (systim_of adapter_i226_idle.hw ≤ adapter_i226_idle.base_time ∧
          igc_headers.igc_is_device_id_i226 adapter_i226_idle.hw.device_id = true ∧
          rd32 adapter_i226_idle.hw .BASET_H = 0 ∧ rd32 adapter_i226_idle.hw .BASET_L = 0)) ∧
      wr_seq a.hw .BASET_L = wr_seq adapter_i226_idle.hw .BASET_L ++
        (if v &&& igc_headers.IGC_TQAVCTRL_FUTSCDDIS ≠ 0
          then [0, u32_of_int (Int.tmod (enable_base_time igc_headers adapter_i226_idle)
            1000000000)]
          else [u32_of_int (Int.tmod (enable_base_time igc_headers adapter_i226_idle)
            1000000000)]) ∧
      rd32 a.hw .BASET_L
        = u32_of_int (Int.tmod (enable_base_time igc_headers adapter_i226_idle) 1000000000) ∧
      (0 < adapter_i226_idle.cycle_time → adapter_i226_idle.cycle_time < 4294967296 →
        0 ≤ adapter_i226_idle.base_time →
        (rd32 a.hw .BASET_L : Int) =
          synchronised_base_time adapter_i226_idle.base_time (systim_of adapter_i226_idle.hw)
            adapter_i226_idle.cycle_time % 1000000000)) ∧
    tqavctrl_bits_ok igc_headers ∧
    wr_seq (igc_tsn_enable_offload igc_headers adapter_i226_idle).adapter.hw .TQAVCTRL
      = [0x40F9] ∧
    wr_seq (igc_tsn_enable_offload igc_headers adapter_i226_idle).adapter.hw .BASET_L
      = [0, 250] ∧
    wr_seq (igc_tsn_enable_offload igc_headers adapter_i225_idle).adapter.hw .TQAVCTRL
      = [0x4079] ∧
    wr_seq (igc_tsn_enable_offload igc_headers adapter_i225_idle).adapter.hw .BASET_L
      = [250] :=
  ⟨enable_offload_futscddis igc_headers adapter_i226_idle (by decide) (Or.inl (by decide)),
    by decide, by decide, by decide, by decide, by decide⟩

/-- C16, where it fails as stated: under taprio with a schedule running (`BASET_L = 1`),
`cycle_time = 0`, base time 0 and the clock at 1 ns the enabler stops at the division; it issues
no write to `TQAVCTRL` and none to `BASET_L`, which keeps its old value 1. -/
theorem enable_offload_futscddis_fault :
    (igc_tsn_enable_offload igc_headers (adapter_running 0)).is_fault = true ∧
    wr_seq (igc_tsn_enable_offload igc_headers (adapter_running 0)).adapter.hw .TQAVCTRL = [] ∧
    wr_seq (igc_tsn_enable_offload igc_headers (adapter_running 0)).adapter.hw .BASET_L = [] ∧
    rd32 (igc_tsn_enable_offload igc_headers (adapter_running 0)).adapter.hw .BASET_L = 1 := by
  decide

/-! ## The shaping-control register after enable -/

/-- C18: for every queue index `i < num_tx_queues` (with 32-bit `start_time` and `end_time`),
after the enabler `STQT(i) = start_time` and `ENDQT(i) = end_time`, and `TXQCTL(i)` does not
depend on the register bank before the call; it has the strict-cycle and strict-end bits set,
the launch-time bit if and only if `launchtime_enable`, the preemptable bit if and only if
`frame_preemption_active` and `preemptible` both hold, and its selector field (the bits of
`IGC_TXQCTL_QAV_SEL_MASK`) holds the CBS0 selector if and only if `i = 0` and `cbs_enable`, and
the CBS1 selector if and only if `i = 1` and `cbs_enable`. -/
theorem enable_offload_queue_programming (c : igc_defines) (adapter : igc_adapter) (i : Nat)
    (hc : txqctl_fields_ok c) (hq : i < adapter.num_tx_queues)
    (hst : (adapter.tx_ring i).start_time < 4294967296)
    (het : (adapter.tx_ring i).end_time < 4294967296) :
    rd32 (igc_tsn_enable_offload c adapter).adapter.hw (.STQT i)
      = (adapter.tx_ring i).start_time ∧
    rd32 (igc_tsn_enable_offload c adapter).adapter.hw (.ENDQT i)
      = (adapter.tx_ring i).end_time ∧
    (∀ hw, rd32 (igc_tsn_enable_offload c { adapter with hw := hw }).adapter.hw (.TXQCTL i)
      = rd32 (igc_tsn_enable_offload c adapter).adapter.hw (.TXQCTL i)) ∧
    (rd32 (igc_tsn_enable_offload c adapter).adapter.hw (.TXQCTL i)
        &&& c.IGC_TXQCTL_STRICT_CYCLE = c.IGC_TXQCTL_STRICT_CYCLE ∧
      rd32 (igc_tsn_enable_offload c adapter).adapter.hw (.TXQCTL i)
        &&& c.IGC_TXQCTL_STRICT_END = c.IGC_TXQCTL_STRICT_END) ∧
    (rd32 (igc_tsn_enable_offload c adapter).adapter.hw (.TXQCTL i)
        &&& c.IGC_TXQCTL_QUEUE_MODE_LAUNCHT ≠ 0 ↔
      (adapter.tx_ring i).launchtime_enable = true) ∧
    (rd32 (igc_tsn_enable_offload c adapter).adapter.hw (.TXQCTL i)
        &&& c.IGC_TXQCTL_PREEMPTABLE ≠ 0 ↔
      (adapter.frame_preemption_active = true ∧ (adapter.tx_ring i).preemptible = true)) ∧
    (rd32 (igc_tsn_enable_offload c adapter).adapter.hw (.TXQCTL i)
        &&& c.IGC_TXQCTL_QAV_SEL_MASK = c.IGC_TXQCTL_QAV_SEL_CBS0 ↔
      (i = 0 ∧ (adapter.tx_ring i).cbs_enable = true)) ∧
    (rd32 (igc_tsn_enable_offload c adapter).adapter.hw (.TXQCTL i)
        &&& c.IGC_TXQCTL_QAV_SEL_MASK = c.IGC_TXQCTL_QAV_SEL_CBS1 ↔
      (i = 1 ∧ (adapter.tx_ring i).cbs_enable = true)) := by
  have hS := enable_offload_rd32_queue_eq c adapter (.STQT i) i
    (fun _ => u32 (adapter.tx_ring i).start_time) rfl
    (fun hw => (enable_queue_window_and_control c adapter hw i).1) hq
  have hE := enable_offload_rd32_queue_eq c adapter (.ENDQT i) i
    (fun _ => u32 (adapter.tx_ring i).end_time) rfl
    (fun hw => (enable_queue_window_and_control c adapter hw i).2.1) hq
  have hV : ∀ a : igc_adapter, i < a.num_tx_queues →
      rd32 (igc_tsn_enable_offload c a).adapter.hw (.TXQCTL i) = txqctl_value c a i :=
    fun a ha => enable_offload_rd32_queue_eq c a (.TXQCTL i) i
      (fun _ => txqctl_value c a i) rfl
      (fun hw => (enable_queue_window_and_control c a hw i).2.2) ha
  obtain ⟨hSC, hSE, hL, hP, _⟩ := txqctl_mode_bits_facts c adapter i hc
  obtain ⟨hout, hsel⟩ := txqctl_value_facts c adapter i hc
  obtain ⟨_, ⟨nL, nP, n0, n1, n01⟩, _, ⟨mC, mE, mL, mP⟩, _⟩ := hc
  simp only [] at hS hE
  rw [hV adapter hq, hS, hE, hout _ mC, hout _ mE, hout _ mL, hout _ mP, hSC, hSE, hL, hP, hsel]
  refine ⟨u32_of_lt hst, u32_of_lt het, ?_, ⟨rfl, rfl⟩, ?_, ?_, ?_, ?_⟩
  · intro hw
    rw [hV { adapter with hw := hw } hq]
    rfl
  · cases (adapter.tx_ring i).launchtime_enable <;> simp [nL]
  · cases adapter.frame_preemption_active <;> cases (adapter.tx_ring i).preemptible <;>
      simp [nP]
  · by_cases h1 : 1 < i
    · simp only [h1, if_true]
      constructor
      · intro h
        exact absurd h.symm n0
      · rintro ⟨h0, _⟩
        omega
    · cases hcbs : (adapter.tx_ring i).cbs_enable
      · simp only [h1, if_false, Bool.false_eq_true, and_false, iff_false]
        exact fun h => n0 h.symm
      · by_cases h0 : i = 0
        · simp [h1, h0]
        · simp only [h1, h0, if_false, if_true, false_and, iff_false]
          exact fun h => n01 h.symm
  · by_cases h1 : 1 < i
    · simp only [h1, if_true]
      constructor
      · intro h
        exact absurd h.symm n1
      · rintro ⟨h0, _⟩
        omega
    · cases hcbs : (adapter.tx_ring i).cbs_enable
      · simp only [h1, if_false, Bool.false_eq_true, and_false, iff_false]
        exact fun h => n1 h.symm
      · by_cases h0 : i = 0
        · have hne : i ≠ 1 := by omega
          simp only [h1, h0, if_false, if_true]
          constructor
          · intro h
            exact absurd h n01
          · rintro ⟨h, _⟩
            omega
        · have h1' : i = 1 := by omega
          simp [h1, h0, h1']

/-- C18, at a concrete input: on the shaped adapter, `TXQCTL(1) = 0xC6` (strict cycle, strict
end, selector CBS1), `TXQCTL(0) = 0x86` (selector CBS0), and `TXQCTL(3) = 0x06`. -/
theorem enable_offload_queue_programming_witness :
    txqctl_fields_ok igc_headers ∧
    (rd32 (igc_tsn_enable_offload igc_headers adapter_cbs).adapter.hw (.TXQCTL 1)
        &&& igc_headers.IGC_TXQCTL_QAV_SEL_MASK = igc_headers.IGC_TXQCTL_QAV_SEL_CBS1 ↔
      (1 = 1 ∧ (adapter_cbs.tx_ring 1).cbs_enable = true)) ∧
    rd32 (igc_tsn_enable_offload igc_headers adapter_cbs).adapter.hw (.TXQCTL 1) = 0xC6 ∧
    rd32 (igc_tsn_enable_offload igc_headers adapter_cbs).adapter.hw (.TXQCTL 0) = 0x86 ∧
    rd32 (igc_tsn_enable_offload igc_headers adapter_cbs).adapter.hw (.TXQCTL 3) = 0x06 :=
  ⟨by decide,
    (enable_offload_queue_programming igc_headers adapter_cbs 1 (by decide) (by decide)
      (by decide) (by decide)).2.2.2.2.2.2.2,
    by decide, by decide, by decide⟩

/-! ## Shaping disabled for a queue without `cbs_enable` -/

theorem and_or_self_left (a b : Nat) : a &&& (a ||| b) = a := by
  apply Nat.eq_of_testBit_eq
  intro i
  rw [Nat.testBit_and, Nat.testBit_or]
  cases a.testBit i <;> cases b.testBit i <;> rfl

theorem and_or_self_right (a b : Nat) : b &&& (a ||| b) = b := by
  apply Nat.eq_of_testBit_eq
  intro i
  rw [Nat.testBit_and, Nat.testBit_or]
  cases a.testBit i <;> cases b.testBit i <;> rfl

theorem and_not32_and_of_zero (x m k : Nat) (h : x &&& k = 0) : and_not32 x m &&& k = 0 := by
  rw [and_eq_zero_iff_testBit] at h ⊢
  intro i
  have hi := h i
  rw [testBit_and_not32]
  revert hi
  cases x.testBit i <;> cases k.testBit i <;> simp

/-- The loop body on the shaper registers of a queue 0 or 1 without `cbs_enable`. -/
theorem enable_queue_no_cbs (c : igc_defines) (adapter : igc_adapter) (hw : igc_hw)
    (i : Nat) (hi : i ≤ 1) (hcbs : (adapter.tx_ring i).cbs_enable = false) :
    rd32 (igc_tsn_enable_queue c adapter hw i) (.TQAVCC i) =
      and_not32 (rd32 hw (.TQAVCC i))
        (c.IGC_TQAVCC_IDLESLOPE_MASK ||| c.IGC_TQAVCC_KEEP_CREDITS) ∧
    rd32 (igc_tsn_enable_queue c adapter hw i) (.TQAVHC i) = 0 := by
  unfold igc_tsn_enable_queue
  simp only []
  rw [if_neg (by omega), hcbs]
  simp only [Bool.false_eq_true, if_false]
  constructor
  · simp [rd32_wr32, u32_of_lt (and_not32_lt _ _)]
  · simp [rd32_wr32, u32]

/-- C19: for a queue `i` in `{0, 1}` (below `num_tx_queues`) whose ring has `cbs_enable = false`,
after the enabler the idle-slope field and the keep-credits bit of `TQAVCC(i)` are zero with
every other bit of `TQAVCC(i)` unchanged, `TQAVHC(i) = 0`, and `TXQCTL(i)` has no CBS-selector
bit set (its selector field is zero), whatever `idleslope` and `hicredit` the ring holds. -/
theorem enable_offload_no_cbs (c : igc_defines) (adapter : igc_adapter) (i : Nat)
    (hc : txqctl_mode_bits_ok c) (hi : i ≤ 1) (hq : i < adapter.num_tx_queues)
    (hcbs : (adapter.tx_ring i).cbs_enable = false) :
    (rd32 (igc_tsn_enable_offload c adapter).adapter.hw (.TQAVCC i)
        &&& c.IGC_TQAVCC_IDLESLOPE_MASK = 0 ∧
      rd32 (igc_tsn_enable_offload c adapter).adapter.hw (.TQAVCC i)
        &&& c.IGC_TQAVCC_KEEP_CREDITS = 0 ∧
      and_not32 (rd32 (igc_tsn_enable_offload c adapter).adapter.hw (.TQAVCC i))
          (c.IGC_TQAVCC_IDLESLOPE_MASK ||| c.IGC_TQAVCC_KEEP_CREDITS)
        = and_not32 (rd32 adapter.hw (.TQAVCC i))
          (c.IGC_TQAVCC_IDLESLOPE_MASK ||| c.IGC_TQAVCC_KEEP_CREDITS)) ∧
    rd32 (igc_tsn_enable_offload c adapter).adapter.hw (.TQAVHC i) = 0 ∧
    (rd32 (igc_tsn_enable_offload c adapter).adapter.hw (.TXQCTL i)
        &&& c.IGC_TXQCTL_QAV_SEL_CBS0 = 0 ∧
      rd32 (igc_tsn_enable_offload c adapter).adapter.hw (.TXQCTL i)
        &&& c.IGC_TXQCTL_QAV_SEL_CBS1 = 0 ∧
      rd32 (igc_tsn_enable_offload c adapter).adapter.hw (.TXQCTL i)
        &&& c.IGC_TXQCTL_QAV_SEL_MASK = 0) := by
  have hcc := enable_offload_rd32_queue_eq c adapter (.TQAVCC i) i
    (fun old => and_not32 old (c.IGC_TQAVCC_IDLESLOPE_MASK ||| c.IGC_TQAVCC_KEEP_CREDITS)) rfl
    (fun hw => (enable_queue_no_cbs c adapter hw i hi hcbs).1) hq
  have hhc := enable_offload_rd32_queue_eq c adapter (.TQAVHC i) i (fun _ => 0) rfl
    (fun hw => (enable_queue_no_cbs c adapter hw i hi hcbs).2) hq
  have htx := enable_offload_rd32_queue_eq c adapter (.TXQCTL i) i
    (fun _ => txqctl_value c adapter i) rfl
    (fun hw => (enable_queue_window_and_control c adapter hw i).2.2) hq
  have hval : txqctl_value c adapter i
      = and_not32 (txqctl_mode_bits c adapter i) c.IGC_TXQCTL_QAV_SEL_MASK := by
    unfold txqctl_value
    simp only []
    rw [if_neg (by omega), hcbs]
    simp
  have hboth := txqctl_mode_bits_and c adapter i _ hc
  rw [Nat.and_or_distrib_left, or_eq_zero_iff] at hboth
  simp only [] at hcc hhc htx
  rw [hcc, hhc, htx, hval]
  refine ⟨⟨?_, ?_, and_not32_idem _ _⟩, rfl, ?_, ?_, ?_⟩
  · exact and_not32_and_eq_zero _ _ _ (and_or_self_left _ _)
  · exact and_not32_and_eq_zero _ _ _ (and_or_self_right _ _)
  · exact and_not32_and_of_zero _ _ _ hboth.1
  · exact and_not32_and_of_zero _ _ _ hboth.2
  · exact and_not32_and_eq_zero _ _ _ (Nat.and_self _)

/-- C19, at a concrete input: queue 1 holds `idleslope = 100000` and `hicredit = 5` without
`cbs_enable`; from registers reading `0xFFFFFFFF` the enabler leaves `TQAVCC(1) = 0xBFFF0000`,
`TQAVHC(1) = 0` and `TXQCTL(1) = 6`. -/
theorem enable_offload_no_cbs_witness :
    (rd32 (igc_tsn_enable_offload igc_headers adapter_unshaped).adapter.hw (.TQAVHC 1) = 0) ∧
    rd32 (igc_tsn_enable_offload igc_headers adapter_unshaped).adapter.hw (.TQAVCC 1)
      = 0xBFFF0000 ∧
    rd32 (igc_tsn_enable_offload igc_headers adapter_unshaped).adapter.hw (.TXQCTL 1) = 6 :=
  ⟨(enable_offload_no_cbs igc_headers adapter_unshaped 1 (by decide) (by decide) (by decide)
      (by decide)).2.1,
    by decide, by decide⟩

/-! ## Frame of the reset on the adapter state -/

/-- The bits of any mask `k` in the new flag word. -/
theorem igc_tsn_new_flags_and_any (c : igc_defines) (adapter : igc_adapter) (k : Nat)
    (hc : flag_bits_ok c) :
    igc_tsn_new_flags c adapter &&& k =
      (and_not32 adapter.flags c.IGC_FLAG_TSN_ANY_ENABLED &&& k) |||
      (if adapter.qbv_enable = true ∨ is_any_launchtime adapter = true
        then c.IGC_FLAG_TSN_QBV_ENABLED &&& k else 0) |||
      (if adapter.frame_preemption_active = true
        then c.IGC_FLAG_TSN_PREEMPT_ENABLED &&& k else 0) |||
      (if is_cbs_enabled adapter = true then c.IGC_FLAG_TSN_QAV_ENABLED &&& k else 0) := by
  obtain ⟨_, ⟨lq, lp, la⟩, _, _⟩ := hc
  have h0 := and_not32_lt adapter.flags c.IGC_FLAG_TSN_ANY_ENABLED
  unfold igc_tsn_new_flags
  cases adapter.qbv_enable <;> cases is_any_launchtime adapter <;>
    cases adapter.frame_preemption_active <;> cases is_cbs_enabled adapter <;>
    simp [or32_and_of_lt _ _ _ h0, or32_and_of_lt _ _ _ (or32_lt _ _), lq, lp, la, Nat.or_assoc]

/-- The TSN bits of the new flag word do not depend on the old flag word. -/
theorem igc_tsn_new_flags_tsn_bits (c : igc_defines) (adapter : igc_adapter) (flags : Nat)
    (hc : flag_bits_ok c) :
    igc_tsn_new_flags c { adapter with flags := flags } &&& c.IGC_FLAG_TSN_ANY_ENABLED
      = igc_tsn_new_flags c adapter &&& c.IGC_FLAG_TSN_ANY_ENABLED := by
  have hl : is_any_launchtime { adapter with flags := flags } = is_any_launchtime adapter := by
    rw [Bool.eq_iff_iff, is_any_launchtime_iff, is_any_launchtime_iff]
  have hb : is_cbs_enabled { adapter with flags := flags } = is_cbs_enabled adapter := by
    rw [Bool.eq_iff_iff, is_cbs_enabled_iff, is_cbs_enabled_iff]
  rw [igc_tsn_new_flags_and_any c _ _ hc, igc_tsn_new_flags_and_any c adapter _ hc,
    and_not32_and_eq_zero _ _ _ (Nat.and_self _), and_not32_and_eq_zero _ _ _ (Nat.and_self _),
    hl, hb]

/-- The non-TSN bits of the new flag word are those of the old flag word. -/
theorem igc_tsn_new_flags_other_bits (c : igc_defines) (adapter : igc_adapter)
    (hc : flag_bits_ok c) :
    and_not32 (igc_tsn_new_flags c adapter) c.IGC_FLAG_TSN_ANY_ENABLED
      = and_not32 adapter.flags c.IGC_FLAG_TSN_ANY_ENABLED := by
  obtain ⟨_, _, ⟨sq, sp, sa⟩, _⟩ := hc
  have hsub : ∀ x i, x &&& c.IGC_FLAG_TSN_ANY_ENABLED = x → x.testBit i = true →
      c.IGC_FLAG_TSN_ANY_ENABLED.testBit i = true := by
    intro x i hx hi
    have h := congrArg (fun n => n.testBit i) hx
    simp only [Nat.testBit_and, hi, Bool.true_and] at h
    exact h
  apply Nat.eq_of_testBit_eq
  intro i
  have hq := hsub _ i sq
  have hp := hsub _ i sp
  have ha := hsub _ i sa
  unfold igc_tsn_new_flags
  cases adapter.qbv_enable <;> cases is_any_launchtime adapter <;>
    cases adapter.frame_preemption_active <;> cases is_cbs_enabled adapter <;>
    simp only [Bool.false_eq_true, if_false, if_true, testBit_and_not32, testBit_or32] <;>
    revert hq hp ha <;>
    cases adapter.flags.testBit i <;> cases c.IGC_FLAG_TSN_ANY_ENABLED.testBit i <;>
    cases c.IGC_FLAG_TSN_QBV_ENABLED.testBit i <;>
    cases c.IGC_FLAG_TSN_PREEMPT_ENABLED.testBit i <;>
    cases c.IGC_FLAG_TSN_QAV_ENABLED.testBit i <;> cases decide (i < 32) <;> simp

/-- The three ways the reset ends. -/
theorem igc_tsn_reset_cases (c : igc_defines) (adapter : igc_adapter) :
    (igc_tsn_new_flags c adapter &&& c.IGC_FLAG_TSN_ANY_ENABLED = 0 →
      igc_tsn_reset c adapter = .returned 0 (igc_tsn_disable_offload c adapter).2) ∧
    (igc_tsn_new_flags c adapter &&& c.IGC_FLAG_TSN_ANY_ENABLED ≠ 0 →
      (u32_of_int adapter.cycle_time ≠ 0 ∨ systim_of adapter.hw ≤ adapter.base_time) →
      igc_tsn_reset c adapter = .returned 0
        { (igc_tsn_enable_offload c adapter).adapter with
          flags := igc_tsn_new_flags c adapter }) ∧
    (igc_tsn_new_flags c adapter &&& c.IGC_FLAG_TSN_ANY_ENABLED ≠ 0 →
      ¬ (u32_of_int adapter.cycle_time ≠ 0 ∨ systim_of adapter.hw ≤ adapter.base_time) →
      igc_tsn_reset c adapter = .fault (igc_tsn_enable_offload c adapter).adapter) := by
  refine ⟨?_, ?_, ?_⟩
  · intro hany
    unfold igc_tsn_reset igc_tsn_reset_with
    simp only [hany, if_true]
    rfl
  · intro hany hnf
    obtain ⟨a1, ha1⟩ := enable_offload_returns c adapter hnf
    unfold igc_tsn_reset igc_tsn_reset_with
    simp only [hany, if_false, ha1]
    rfl
  · intro hany hf
    have hs : adapter.base_time < systim_of adapter.hw := by
      by_contra h
      exact hf (Or.inr (by omega))
    have hz : u32_of_int adapter.cycle_time = 0 := by
      by_contra h
      exact hf (Or.inl h)
    have ha1 := enable_offload_fault c adapter hs hz
    unfold igc_tsn_reset igc_tsn_reset_with
    simp only [hany, if_false, ha1]
    rfl

/-- C20 (amended): frame of `igc_tsn_reset` on the adapter state, for every adapter state and
register bank. The configuration (number of queues, every ring, `qbv_enable`,
`frame_preemption_active`, `cycle_time`, `base_time`, `tc_setup_type`, the running state and the
device) is unchanged; every non-TSN bit of `adapter.flags` keeps its value;
`qbv_config_change_errors` is unchanged on the disabler path and `add_frag_size` is unchanged on
the enabler path. Whenever the call returns (disabler path, or a nonzero 32-bit cycle, or a base
time that is not in the past) the resulting TSN bits of `adapter.flags` are the same whatever
flag word the adapter held before the call. -/
theorem igc_tsn_reset_frame (c : igc_defines) (adapter : igc_adapter) (hc : flag_bits_ok c) :
    same_config (igc_tsn_reset c adapter).adapter adapter ∧
    (∀ i, i < 32 → c.IGC_FLAG_TSN_ANY_ENABLED.testBit i = false →
      (igc_tsn_reset c adapter).adapter.flags.testBit i = adapter.flags.testBit i) ∧
    (igc_tsn_new_flags c adapter &&& c.IGC_FLAG_TSN_ANY_ENABLED = 0 →
      (igc_tsn_reset c adapter).adapter.qbv_config_change_errors
        = adapter.qbv_config_change_errors) ∧
    (igc_tsn_new_flags c adapter &&& c.IGC_FLAG_TSN_ANY_ENABLED ≠ 0 →
      (igc_tsn_reset c adapter).adapter.add_frag_size = adapter.add_frag_size) ∧
    ((igc_tsn_new_flags c adapter &&& c.IGC_FLAG_TSN_ANY_ENABLED = 0 ∨
        u32_of_int adapter.cycle_time ≠ 0 ∨ systim_of adapter.hw ≤ adapter.base_time) →
      ∀ flags : Nat,
        (igc_tsn_reset c { adapter with flags := flags }).adapter.flags
            &&& c.IGC_FLAG_TSN_ANY_ENABLED
          = (igc_tsn_reset c adapter).adapter.flags &&& c.IGC_FLAG_TSN_ANY_ENABLED) := by
  obtain ⟨hdis, hret, hflt⟩ := igc_tsn_reset_cases c adapter
  obtain ⟨hcfg, hfl, hfrag⟩ := enable_offload_fields c adapter
  have hbits : ∀ x : Nat, and_not32 x c.IGC_FLAG_TSN_ANY_ENABLED
      = and_not32 adapter.flags c.IGC_FLAG_TSN_ANY_ENABLED →
      ∀ i, i < 32 → c.IGC_FLAG_TSN_ANY_ENABLED.testBit i = false →
        x.testBit i = adapter.flags.testBit i := by
    intro x hx i hi hm
    have h := congrArg (fun n => n.testBit i) hx
    simp only [testBit_and_not32, hi, hm, decide_True, Bool.not_false, Bool.and_true] at h
    exact h
  have hflags : (igc_tsn_new_flags c adapter &&& c.IGC_FLAG_TSN_ANY_ENABLED = 0 ∨
      u32_of_int adapter.cycle_time ≠ 0 ∨ systim_of adapter.hw ≤ adapter.base_time) →
      ∀ flags : Nat,
        (igc_tsn_reset c { adapter with flags := flags }).adapter.flags
            &&& c.IGC_FLAG_TSN_ANY_ENABLED
          = igc_tsn_new_flags c adapter &&& c.IGC_FLAG_TSN_ANY_ENABLED := by
    intro hnf flags
    obtain ⟨hdis2, hret2, _⟩ := igc_tsn_reset_cases c { adapter with flags := flags }
    have hsame := igc_tsn_new_flags_tsn_bits c adapter flags hc
    by_cases hany : igc_tsn_new_flags c adapter &&& c.IGC_FLAG_TSN_ANY_ENABLED = 0
    · rw [hdis2 (hsame.trans hany), hany]
      exact and_not32_and_eq_zero _ _ _ (Nat.and_self _)
    · have hnf2 : u32_of_int adapter.cycle_time ≠ 0 ∨
          systim_of adapter.hw ≤ adapter.base_time := by
        rcases hnf with h | h
        · exact absurd h hany
        · exact h
      rw [hret2 (fun h => hany (hsame.symm.trans h)) hnf2]
      exact hsame
  by_cases hany : igc_tsn_new_flags c adapter &&& c.IGC_FLAG_TSN_ANY_ENABLED = 0
  · refine ⟨?_, ?_, fun _ => ?_, fun h => absurd hany h, fun hnf flags => ?_⟩
    · rw [hdis hany]
      exact disable_offload_same_config c adapter
    · rw [hdis hany]
      exact hbits _ (and_not32_idem _ _)
    · rw [hdis hany]
      rfl
    · rw [hflags hnf flags, hdis hany, hany]
      exact (and_not32_and_eq_zero _ _ _ (Nat.and_self _)).symm
  · by_cases hnf : u32_of_int adapter.cycle_time ≠ 0 ∨
        systim_of adapter.hw ≤ adapter.base_time
    · refine ⟨?_, ?_, fun h => absurd h hany, fun _ => ?_, fun hnf2 flags => ?_⟩
      · rw [hret hany hnf]
        exact hcfg
      · rw [hret hany hnf]
        exact hbits _ (igc_tsn_new_flags_other_bits c adapter hc)
      · rw [hret hany hnf]
        exact hfrag
      · rw [hflags hnf2 flags, hret hany hnf]
        rfl
    · refine ⟨?_, ?_, fun h => absurd h hany, fun _ => ?_, fun hnf2 => ?_⟩
      · rw [hflt hany hnf]
        exact hcfg
      · rw [hflt hany hnf]
        intro i _ _
        exact congrArg (fun n => n.testBit i) hfl
      · rw [hflt hany hnf]
        exact hfrag
      · rcases hnf2 with h | h
        · exact absurd h hany
        · exact absurd h hnf

/-- C20, at a concrete input: on the past-scheduled example the enabler programs the advanced
base time 3,000,000 ns into `BASET_L` while `adapter.base_time` stays 0, and the frame holds
there. -/
theorem igc_tsn_reset_frame_witness :
    flag_bits_ok igc_headers ∧
    rd32 (igc_tsn_reset igc_headers adapter_past_example).adapter.hw .BASET_L = 3000000 ∧
    (igc_tsn_reset igc_headers adapter_past_example).adapter.base_time = 0 ∧
    same_config (igc_tsn_reset igc_headers adapter_past_example).adapter adapter_past_example ∧
    ∀ flags : Nat,
      (igc_tsn_reset igc_headers { adapter_past_example with flags := flags }).adapter.flags
          &&& igc_headers.IGC_FLAG_TSN_ANY_ENABLED
        = (igc_tsn_reset igc_headers adapter_past_example).adapter.flags
          &&& igc_headers.IGC_FLAG_TSN_ANY_ENABLED :=
  ⟨by decide, by decide, by decide,
    (igc_tsn_reset_frame igc_headers adapter_past_example (by decide)).1,
    (igc_tsn_reset_frame igc_headers adapter_past_example (by decide)).2.2.2.2
      (Or.inr (Or.inl (by decide)))⟩

/-- C20, where it fails as stated: two adapters with `qbv_enable`, `cycle_time = 0`,
`base_time = 0` and the clock at 1 ns differ only in the QAV bit of `flags` before the call;
`igc_tsn_reset` stops at the division by the cycle on both, and the TSN bits of `flags` it
leaves are 0 on the first and the stale QAV bit on the second. -/
theorem igc_tsn_reset_stale_tsn_bits :
    adapter_zero_cycle_qav = { adapter_zero_cycle with flags := 0x40000 } ∧
    (igc_tsn_reset igc_headers adapter_zero_cycle).is_fault = true ∧
    (igc_tsn_reset igc_headers adapter_zero_cycle_qav).is_fault = true ∧
    (igc_tsn_reset igc_headers adapter_zero_cycle).adapter.flags
      &&& igc_headers.IGC_FLAG_TSN_ANY_ENABLED = 0 ∧
    (igc_tsn_reset igc_headers adapter_zero_cycle_qav).adapter.flags
      &&& igc_headers.IGC_FLAG_TSN_ANY_ENABLED = 0x40000 ∧
    is_cbs_enabled adapter_zero_cycle_qav = false :=
  ⟨rfl, by decide, by decide, by decide, by decide, by decide⟩

end Igc
